import Mathlib

/-!
# Verification development for `terraform-provider-dreamhost`

A shallow embedding of the record cache (`cache.go`), the caching client
(`cached_client.go`), the mock upstream used by the test-suite
(`mock_client_test.go`), the substring test of `data_source_dns_records.go`, the retry
classifier, retry executor, poll ticks and waits of `retry.go`, the create and delete
functions of `resource_dns_record.go` and the validators of `validators.go`, followed by
theorems about them.

Conventions of the embedding:

* a Go slice `[]T` is `Slice T = Option (List T)`; `none` is the `nil` slice, which is
  what `c.cachedRecords == nil` tests;
* a Go `error` is `Option String`: `none` is `nil`, `some m` an error whose `Error()` is `m`;
* a Go pointer result `*T` that is only tested against `nil` and read is `Option T`;
* methods with side effects take the state they touch and return the new state next to
  their Go results, in the order of the Go signature;
* a Go string is a `String`; `len` and indexing act on its UTF-8 bytes (`goBytes`), `range`
  on its characters;
* functions of libraries outside the repository are parameters, or definitions whose
  comment says what they are modelled from.
-/

namespace dreamhost

/-! ## Go values -/

/-- A Go slice: `none` is the `nil` slice, `some l` a non-nil slice holding `l`. -/
abbrev Slice (α : Type) : Type := Option (List α)

/-- The elements of a slice, in order; the `nil` slice has none. -/
def Slice.elems {α : Type} (s : Slice α) : List α :=
  match s with
  | none => []
  | some l => l

/-- Go `len(s)`. -/
def Slice.len {α : Type} (s : Slice α) : Nat := (Slice.elems s).length

/-- The two statements `result := make([]T, len(src)); copy(result, src)`: a fresh non-nil
slice with the elements of `src` (also when `src` is `nil`). -/
def Slice.clone {α : Type} (src : Slice α) : Slice α := some (Slice.elems src)

/-- A Go `error` value, identified with its message; `none` is `nil`. -/
abbrev error : Type := Option String

/-- Modelled from the spec: `errors.Wrap` of `github.com/pkg/errors` (not part of this
repository). The spec says a fetch error is propagated "wrapped with a descriptive prefix";
the library returns `nil` for a `nil` error and otherwise an error whose message is the
prefix, a colon and a blank, and the message of the cause. -/
def errors.Wrap (err : error) (message : String) : error :=
  match err with
  | none => none
  | some m => some (message ++ ": " ++ m)

/-! ## Data model -/

/-- Modelled from the spec: the struct `dreamhostapi.DNSRecord` of the upstream library
(its declaration is not part of this repository): "Record — the upstream entity:
{name, type, value, zone, comment, accountID, editable}". Field names are those the
repository uses; `Typ` is the Go field `Type`. `RecordType` and the editable status are
string types in Go. -/
structure DNSRecord where
  Record : String
  Typ : String
  Value : String
  Zone : String
  Comment : String
  AccountID : String
  Editable : String
deriving DecidableEq, Repr

/-- Modelled from the spec: the struct `dreamhostapi.DNSRecordInput` of the upstream
library: "RecordInput — the triple (name, type, value)". `Typ` is the Go field `Type`. -/
structure DNSRecordInput where
  Record : String
  Typ : String
  Value : String
deriving DecidableEq, Repr

/-- Modelled from the spec: the constant `dreamhostapi.ARecordType` of the upstream library,
the record type "A" of the resource schema. -/
def ARecordType : String := "A"

/-- Modelled from the spec: the constant `dreamhostapi.CNAMERecordType` of the upstream
library, the record type "CNAME" of the resource schema. -/
def CNAMERecordType : String := "CNAME"

/-- Modelled from the spec: the constant `dreamhostapi.Editable` of the upstream library, the
"editable" status of a record; the repository never compares it. -/
def Editable : String := "1"

/-! ## `cache.go` -/

/-- The interface `DNSRecordLister`: one method `ListDNSRecords`, acting on the state `τ`
of whatever implements it. -/
structure DNSRecordLister (τ : Type) where
  ListDNSRecords : τ → (Slice DNSRecord × error) × τ

/-- The struct `cache` (the mutex has no content in a sequential run). -/
structure cache where
  cachedRecords : Slice DNSRecord
deriving DecidableEq, Repr

/-- The method `(*cache).GetRecords`. Returns the Go results, the cache afterwards and the
state of the lister afterwards. -/
def cache.GetRecords {τ : Type} (c : cache) (client : DNSRecordLister τ) (s : τ) :
    (Slice DNSRecord × error) × cache × τ :=
  if c.cachedRecords = none then
    match client.ListDNSRecords s with
    | ((records, err), s1) =>
      if err ≠ none then
        ((none, errors.Wrap err "failed to list DNS records"), c, s1)
      else
        let c1 : cache := { c with cachedRecords := records }
        ((Slice.clone c1.cachedRecords, none), c1, s1)
  else
    ((Slice.clone c.cachedRecords, none), c, s)

/-- The method `(*cache).Invalidate`. -/
def cache.Invalidate (c : cache) : cache :=
  { c with cachedRecords := none }

/-! ## `cached_client.go` -/

/-- The three capabilities of `*dreamhostapi.Client` that the repository uses, over an
upstream state `σ` (the remote API, or the mock of the test-suite). -/
structure Client (σ : Type) where
  ListDNSRecords : σ → (Slice DNSRecord × error) × σ
  AddDNSRecord : DNSRecordInput → σ → error × σ
  RemoveDNSRecord : DNSRecordInput → σ → error × σ

/-- The struct `cachedDreamhostClient`: the upstream client (here its state) and the
cache. -/
structure cachedDreamhostClient (σ : Type) where
  client : σ
  cache : cache

/-- The method `(*cachedDreamhostClient).AddDNSRecord`. -/
def cachedDreamhostClient.AddDNSRecord {σ : Type} (api : Client σ)
    (c : cachedDreamhostClient σ) (recordInput : DNSRecordInput) :
    error × cachedDreamhostClient σ :=
  match api.AddDNSRecord recordInput c.client with
  | (err, s1) =>
    if err = none then
      (err, { client := s1, cache := cache.Invalidate c.cache })
    else
      (err, { client := s1, cache := c.cache })

/-- The method `(*cachedDreamhostClient).ListDNSRecords`. -/
def cachedDreamhostClient.ListDNSRecords {σ : Type} (api : Client σ)
    (c : cachedDreamhostClient σ) :
    (Slice DNSRecord × error) × cachedDreamhostClient σ :=
  match api.ListDNSRecords c.client with
  | ((records, err), s1) =>
    if err ≠ none then
      ((none, err), { client := s1, cache := c.cache })
    else
      ((records, err), { client := s1, cache := c.cache })

/-- The receiver `c` seen as the `DNSRecordLister` that `GetDNSRecord` hands to the cache. -/
def cachedDreamhostClient.lister {σ : Type} (api : Client σ) :
    DNSRecordLister (cachedDreamhostClient σ) :=
  { ListDNSRecords := cachedDreamhostClient.ListDNSRecords api }

/-- The condition of the `if` inside the loop of `GetDNSRecord`. -/
def recordMatches (r : DNSRecord) (recordInput : DNSRecordInput) : Bool :=
  r.Record == recordInput.Record &&
    r.Typ == recordInput.Typ &&
    (r.Value == recordInput.Value || r.Value ++ "." == recordInput.Value)

/-- The loop `for i := range records` of `GetDNSRecord`: the first matching entry, copied,
or `nil` when the loop runs out. -/
def findRecord (recordInput : DNSRecordInput) : List DNSRecord → Option DNSRecord
  | [] => none
  | r :: rest =>
    if recordMatches r recordInput then some r else findRecord recordInput rest

/-- The branch `if enableCache { ... }` of `GetDNSRecord`. -/
def cachedDreamhostClient.GetDNSRecordCached {σ : Type} (api : Client σ)
    (c : cachedDreamhostClient σ) (recordInput : DNSRecordInput) :
    (Option DNSRecord × error) × cachedDreamhostClient σ :=
  match cache.GetRecords c.cache (cachedDreamhostClient.lister api) c with
  | ((records, err), cache1, c1) =>
    let c2 : cachedDreamhostClient σ := { client := c1.client, cache := cache1 }
    if err ≠ none then
      ((none, err), c2)
    else
      ((findRecord recordInput (Slice.elems records), none), c2)

/-- The method `(*cachedDreamhostClient).GetDNSRecord`. Its recursive call has
`enableCache = true`, so it is the cached branch run on the state after the refresh. -/
def cachedDreamhostClient.GetDNSRecord {σ : Type} (api : Client σ)
    (c : cachedDreamhostClient σ) (recordInput : DNSRecordInput) (enableCache : Bool) :
    (Option DNSRecord × error) × cachedDreamhostClient σ :=
  if enableCache then
    cachedDreamhostClient.GetDNSRecordCached api c recordInput
  else
    match cachedDreamhostClient.ListDNSRecords api c with
    | ((_, err), c1) =>
      if err ≠ none then
        ((none, errors.Wrap err "failed to refresh cache"), c1)
      else
        cachedDreamhostClient.GetDNSRecordCached api c1 recordInput

/-- The method `(*cachedDreamhostClient).RemoveDNSRecord`. -/
def cachedDreamhostClient.RemoveDNSRecord {σ : Type} (api : Client σ)
    (c : cachedDreamhostClient σ) (recordInput : DNSRecordInput) :
    error × cachedDreamhostClient σ :=
  match api.RemoveDNSRecord recordInput c.client with
  | (err, s1) =>
    if err = none then
      (err, { client := s1, cache := cache.Invalidate c.cache })
    else
      (err, { client := s1, cache := c.cache })

/-! ## `mock_client_test.go` -/

/-- The struct `MockDreamhostClient` (the mutex has no content in a sequential run). The
counters are Go `int`s that only count calls. -/
structure MockDreamhostClient where
  records : Slice DNSRecord
  addRecordError : error
  removeRecordError : error
  listRecordsError : error
  addRecordCalls : Slice DNSRecordInput
  removeRecordCalls : Slice DNSRecordInput
  listRecordsCalls : Nat
  rateLimit : Bool
  rateLimitCount : Nat
deriving DecidableEq, Repr

/-- The constructor `NewMockDreamhostClient`: a non-nil empty record slice, every other
field at its zero value. -/
def NewMockDreamhostClient : MockDreamhostClient :=
  { records := some [],
    addRecordError := none,
    removeRecordError := none,
    listRecordsError := none,
    addRecordCalls := none,
    removeRecordCalls := none,
    listRecordsCalls := 0,
    rateLimit := false,
    rateLimitCount := 0 }

/-- One iteration of the loop of `splitDomain`, on the pair `(parts, current)`. -/
def splitDomainStep (acc : List String × String) (ch : Char) : List String × String :=
  if ch = '.' then
    if acc.2 ≠ "" then (acc.1 ++ [acc.2], "") else acc
  else
    (acc.1, acc.2 ++ String.singleton ch)

/-- The helper `splitDomain`. -/
def splitDomain (domain : String) : List String :=
  let acc := domain.toList.foldl splitDomainStep ([], "")
  if acc.2 ≠ "" then acc.1 ++ [acc.2] else acc.1

/-- The helper `extractZone`. -/
def extractZone (record : String) : String :=
  let parts := splitDomain record
  if parts.length ≥ 2 then
    parts.getD (parts.length - 2) "" ++ "." ++ parts.getD (parts.length - 1) ""
  else
    record

/-- Go `append(s, x)`. -/
def Slice.append {α : Type} (s : Slice α) (x : α) : Slice α := some (Slice.elems s ++ [x])

/-- The method `(*MockDreamhostClient).AddDNSRecord`. -/
def MockDreamhostClient.AddDNSRecord (record : DNSRecordInput) (m : MockDreamhostClient) :
    error × MockDreamhostClient :=
  let m1 : MockDreamhostClient := { m with addRecordCalls := Slice.append m.addRecordCalls record }
  let m2 : MockDreamhostClient :=
    if m1.rateLimit then { m1 with rateLimitCount := m1.rateLimitCount + 1 } else m1
  if m2.rateLimit && m2.rateLimitCount % 3 == 1 then
    (some "rate limit exceeded", m2)
  else if m2.addRecordError ≠ none then
    (m2.addRecordError, m2)
  else if (Slice.elems m2.records).any
      (fun r => r.Record == record.Record && r.Typ == record.Typ && r.Value == record.Value) then
    (some "record already exists", m2)
  else
    let newRecord : DNSRecord :=
      { Record := record.Record,
        Typ := record.Typ,
        Value := record.Value,
        Zone := extractZone record.Record,
        AccountID := "test-account-123",
        Comment := "",
        Editable := Editable }
    (none, { m2 with records := Slice.append m2.records newRecord })

/-- The method `(*MockDreamhostClient).RemoveDNSRecord`. -/
def MockDreamhostClient.RemoveDNSRecord (record : DNSRecordInput) (m : MockDreamhostClient) :
    error × MockDreamhostClient :=
  let m1 : MockDreamhostClient :=
    { m with removeRecordCalls := Slice.append m.removeRecordCalls record }
  let m2 : MockDreamhostClient :=
    if m1.rateLimit then { m1 with rateLimitCount := m1.rateLimitCount + 1 } else m1
  if m2.rateLimit && m2.rateLimitCount % 3 == 1 then
    (some "rate limit exceeded", m2)
  else if m2.removeRecordError ≠ none then
    (m2.removeRecordError, m2)
  else
    let same : DNSRecord → Bool :=
      fun r => r.Record == record.Record && r.Typ == record.Typ && r.Value == record.Value
    let found := (Slice.elems m2.records).any same
    let newRecords := (Slice.elems m2.records).filter (fun r => !same r)
    if !found then
      (some "record not found", m2)
    else
      (none, { m2 with records := some newRecords })

/-- The method `(*MockDreamhostClient).ListDNSRecords`. -/
def MockDreamhostClient.ListDNSRecords (m : MockDreamhostClient) :
    (Slice DNSRecord × error) × MockDreamhostClient :=
  let m1 : MockDreamhostClient := { m with listRecordsCalls := m.listRecordsCalls + 1 }
  let m2 : MockDreamhostClient :=
    if m1.rateLimit then { m1 with rateLimitCount := m1.rateLimitCount + 1 } else m1
  if m2.rateLimit && m2.rateLimitCount % 5 == 1 then
    ((none, some "rate limit exceeded"), m2)
  else if m2.listRecordsError ≠ none then
    ((none, m2.listRecordsError), m2)
  else
    ((Slice.clone m2.records, none), m2)

/-- The test helper `SetRecords`. -/
def MockDreamhostClient.SetRecords (m : MockDreamhostClient) (records : Slice DNSRecord) :
    MockDreamhostClient :=
  { m with records := records }

/-- The test helper `SetListRecordsError`. -/
def MockDreamhostClient.SetListRecordsError (m : MockDreamhostClient) (err : error) :
    MockDreamhostClient :=
  { m with listRecordsError := err }

/-- The test helper `SetAddRecordError`. -/
def MockDreamhostClient.SetAddRecordError (m : MockDreamhostClient) (err : error) :
    MockDreamhostClient :=
  { m with addRecordError := err }

/-- The test helper `SetRemoveRecordError`. -/
def MockDreamhostClient.SetRemoveRecordError (m : MockDreamhostClient) (err : error) :
    MockDreamhostClient :=
  { m with removeRecordError := err }

/-- The test helper `GetListRecordsCalls`. -/
def MockDreamhostClient.GetListRecordsCalls (m : MockDreamhostClient) : Nat :=
  m.listRecordsCalls

/-- The mock as the upstream client of a `cachedDreamhostClient`, the way the tests build
`&cachedDreamhostClient{client: mockClient, ...}`. -/
def mockClient : Client MockDreamhostClient :=
  { ListDNSRecords := MockDreamhostClient.ListDNSRecords,
    AddDNSRecord := MockDreamhostClient.AddDNSRecord,
    RemoveDNSRecord := MockDreamhostClient.RemoveDNSRecord }

/-! ## `data_source_dns_records.go`: the substring test used by `retry.go` -/

/-- The Go slice expression `s[i:j]` on a string. Strings are taken as sequences of
characters; for the ASCII vocabulary of `isRetryableError` a match on bytes and a match on
characters are the same thing. -/
def sliceString (s : String) (i j : Nat) : String :=
  String.mk ((s.data.drop i).take (j - i))

/-- The loop of `containsSubstring`, at index `i` with `n` iterations left. -/
def containsSubstringLoop (s substr : String) : Nat → Nat → Bool
  | 0, _ => false
  | n + 1, i =>
    if sliceString s i (i + substr.length) == substr then true
    else containsSubstringLoop s substr n (i + 1)

/-- The function `containsSubstring`: `for i := 0; i <= len(s)-len(substr); i++`, which
runs `len(s) - len(substr) + 1` times, and not at all when that Go `int` is not positive. -/
def containsSubstring (s substr : String) : Bool :=
  containsSubstringLoop s substr
    (Int.toNat ((s.length : Int) - (substr.length : Int) + 1)) 0

/-- The function `contains`. -/
def contains (s substr : String) : Bool :=
  decide (substr.length > 0) && decide (s.length ≥ substr.length) &&
    (s == substr || containsSubstring s substr)

/-! ## `retry.go` -/

/-- The function `isRetryableError`. -/
def isRetryableError (err : error) : Bool :=
  match err with
  | none => false
  | some errMsg =>
    if contains errMsg "rate limit" || contains errMsg "too many requests" then true
    else if contains errMsg "timeout" || contains errMsg "connection refused" then true
    else if contains errMsg "service unavailable" || contains errMsg "bad gateway" then true
    else false

/-- Modelled from the spec: the struct `resource.RetryError` of the Terraform plugin SDK (not
part of this repository): an error and whether the retry executor may retry after it. -/
structure RetryError where
  Err : error
  Retryable : Bool
deriving DecidableEq, Repr

/-- Modelled from the spec: the SDK constructor `resource.RetryableError`, for an error
that is "retryable"; `retryOnError` only calls it with a non-nil error. -/
def RetryableError (err : error) : Option RetryError :=
  some { Err := err, Retryable := true }

/-- Modelled from the spec: the SDK constructor `resource.NonRetryableError`, for an error
that is "fatal"; `retryOnError` only calls it with a non-nil error. -/
def NonRetryableError (err : error) : Option RetryError :=
  some { Err := err, Retryable := false }

/-- Modelled from the spec: the SDK function `resource.RetryContext` (not part of this
repository), the loop of the Retry Executor: it "re-invokes a mutating operation under a
bounded time budget"; a fatal error is "returned immediately without retry"; "on exhausting
the timeout while only retryable errors have occurred, the last retryable error is
returned". The first invocation is always made; the time budget and the context enter as
`retries`, the number of further invocations that fit before the timeout or a cancellation
ends the loop. -/
def RetryContext {σ : Type} (f : σ → Option RetryError × σ) : Nat → σ → error × σ
  | 0, s =>
    match f s with
    | (none, s1) => (none, s1)
    | (some rerr, s1) => (rerr.Err, s1)
  | n + 1, s =>
    match f s with
    | (none, s1) => (none, s1)
    | (some rerr, s1) =>
      if rerr.Retryable then RetryContext f n s1 else (rerr.Err, s1)

/-- The function `retryOnError`: the closure it hands to `resource.RetryContext`, with the
operation `f` acting on a state `σ`. The context and `retryTimeout` are the `retries` of the
model of `RetryContext`. -/
def retryOnError {σ : Type} (retries : Nat) (f : σ → error × σ) (s : σ) : error × σ :=
  RetryContext
    (fun s0 =>
      match f s0 with
      | (err, s1) =>
        if err = none then (none, s1)
        else if isRetryableError err then (RetryableError err, s1)
        else (NonRetryableError err, s1))
    retries s

/-- The closure returned by `dnsRecordStateRefreshFunc`: one tick of the create-direction
poll. Results in the order of `resource.StateRefreshFunc`: payload, state, error. -/
def dnsRecordStateRefreshFunc {σ : Type} (api : Client σ) (client : cachedDreamhostClient σ)
    (recordInput : DNSRecordInput) :
    (Option DNSRecord × String × error) × cachedDreamhostClient σ :=
  let client1 : cachedDreamhostClient σ :=
    { client := client.client, cache := cache.Invalidate client.cache }
  match cachedDreamhostClient.GetDNSRecord api client1 recordInput false with
  | ((record, err), client2) =>
    if err ≠ none then ((none, "", err), client2)
    else if record = none then ((none, "pending", none), client2)
    else ((record, "available", none), client2)

/-- The closure returned by `dnsRecordDeletionStateRefreshFunc`: one tick of the
delete-direction poll. -/
def dnsRecordDeletionStateRefreshFunc {σ : Type} (api : Client σ)
    (client : cachedDreamhostClient σ) (recordInput : DNSRecordInput) :
    (Option DNSRecord × String × error) × cachedDreamhostClient σ :=
  let client1 : cachedDreamhostClient σ :=
    { client := client.client, cache := cache.Invalidate client.cache }
  match cachedDreamhostClient.GetDNSRecord api client1 recordInput false with
  | ((record, err), client2) =>
    if err ≠ none then ((none, "", err), client2)
    else if record ≠ none then ((record, "deleting", none), client2)
    else ((none, "deleted", none), client2)

/-- Modelled from the spec: the struct `resource.StateChangeConf` of the Terraform plugin SDK
(not part of this repository), with the six fields that `retry.go` sets; the payload of a
tick is the `*dreamhostapi.DNSRecord` or `nil` that the refresh functions return. -/
structure StateChangeConf (τ : Type) where
  Pending : List String
  Target : List String
  Refresh : τ → (Option DNSRecord × String × error) × τ
  Timeout : Nat
  Delay : Nat
  MinTimeout : Nat

/-- The constant `retryTimeout`, a `time.Duration` in nanoseconds. -/
def retryTimeout : Nat := 2 * (60 * 1000000000)

/-- The constant `retryDelay`, a `time.Duration` in nanoseconds. -/
def retryDelay : Nat := 5 * 1000000000

/-- The constant `retryMinDelay`, a `time.Duration` in nanoseconds. -/
def retryMinDelay : Nat := 1 * 1000000000

/-- Modelled from the spec: the poll loop `(*resource.StateChangeConf).WaitForStateContext`
of the Terraform plugin SDK (not part of this repository), as the Convergence Poller of the
spec: "reaching the target state returns success (with the found record for create, nothing
for delete). Exceeding the timeout while still in the pending/deleting state returns a
timeout error. An upstream error during any tick aborts the poll immediately and is
surfaced". The first tick is always made; the timing fields and the context enter as the
number of further ticks that fit before the timeout. -/
def WaitForStateContext {τ : Type} (conf : StateChangeConf τ) :
    Nat → τ → (Option DNSRecord × error) × τ
  | 0, s =>
    match conf.Refresh s with
    | ((result, state, err), s1) =>
      if err ≠ none then ((none, err), s1)
      else if state ∈ conf.Target then ((result, none), s1)
      else ((none, some "timeout while waiting for the target state"), s1)
  | n + 1, s =>
    match conf.Refresh s with
    | ((result, state, err), s1) =>
      if err ≠ none then ((none, err), s1)
      else if state ∈ conf.Target then ((result, none), s1)
      else WaitForStateContext conf n s1

/-- The literal `stateConf` of `waitForDNSRecord`. -/
def waitForDNSRecordConf {σ : Type} (api : Client σ) (record : DNSRecordInput) :
    StateChangeConf (cachedDreamhostClient σ) :=
  { Pending := ["pending"],
    Target := ["available"],
    Refresh := fun client => dnsRecordStateRefreshFunc api client record,
    Timeout := retryTimeout,
    Delay := retryDelay,
    MinTimeout := retryMinDelay }

/-- The function `waitForDNSRecord`. The SDK method `WaitForStateContext` is the parameter
`wait`. Its result is the payload of a tick, a `*dreamhostapi.DNSRecord` or `nil`, so the
type assertion of the source succeeds on every non-nil result. -/
def waitForDNSRecord {σ : Type}
    (wait : StateChangeConf (cachedDreamhostClient σ) → cachedDreamhostClient σ →
      (Option DNSRecord × error) × cachedDreamhostClient σ)
    (api : Client σ) (client : cachedDreamhostClient σ) (record : DNSRecordInput) :
    (Option DNSRecord × error) × cachedDreamhostClient σ :=
  match wait (waitForDNSRecordConf api record) client with
  | ((result, err), client1) =>
    if err ≠ none then ((none, errors.Wrap err "error waiting for DNS record"), client1)
    else if result = none then ((none, some "DNS record not found after waiting"), client1)
    else ((result, none), client1)

/-- The literal `stateConf` of `waitForDNSRecordDeletion`. -/
def waitForDNSRecordDeletionConf {σ : Type} (api : Client σ) (record : DNSRecordInput) :
    StateChangeConf (cachedDreamhostClient σ) :=
  { Pending := ["deleting"],
    Target := ["deleted"],
    Refresh := fun client => dnsRecordDeletionStateRefreshFunc api client record,
    Timeout := retryTimeout,
    Delay := retryDelay,
    MinTimeout := retryMinDelay }

/-- The function `waitForDNSRecordDeletion`, with the SDK method `WaitForStateContext` as the
parameter `wait`. -/
def waitForDNSRecordDeletion {σ : Type}
    (wait : StateChangeConf (cachedDreamhostClient σ) → cachedDreamhostClient σ →
      (Option DNSRecord × error) × cachedDreamhostClient σ)
    (api : Client σ) (client : cachedDreamhostClient σ) (record : DNSRecordInput) :
    error × cachedDreamhostClient σ :=
  match wait (waitForDNSRecordDeletionConf api record) client with
  | ((_, err), client1) =>
    if err ≠ none then (errors.Wrap err "error waiting for DNS record deletion", client1)
    else (none, client1)

/-! ## `resource_dns_record.go` -/

/-- Go `strings.Split(s, sep)` for a separator of one character, on the characters of `s`:
the pieces between the separators, one more than there are separators. -/
def splitChars (sep : Char) : List Char → List (List Char)
  | [] => [[]]
  | c :: cs =>
    if c = sep then [] :: splitChars sep cs
    else
      match splitChars sep cs with
      | [] => [[c]]
      | p :: ps => (c :: p) :: ps

/-- Go `strings.Split(s, sep)` for a separator of one character. -/
def strings.Split (s : String) (sep : Char) : List String :=
  (splitChars sep s.data).map String.mk

/-- The constant `idParts`. -/
def idParts : Nat := 3

/-- The function `recordInputToID`: `fmt.Sprintf("%s|%s|%s", Type, Record, Value)`. -/
def recordInputToID (record : DNSRecordInput) : String :=
  record.Typ ++ "|" ++ record.Record ++ "|" ++ record.Value

/-- The function `idToRecordInput`. -/
def idToRecordInput (id : String) : Option DNSRecordInput × error :=
  let parts := strings.Split id '|'
  if parts.length ≠ idParts then
    (none, some "could not determine record from input ID")
  else
    (some { Typ := parts.getD 0 "", Record := parts.getD 1 "", Value := parts.getD 2 "" },
      none)

/-- Modelled from the spec: the type `diag.Severity` of the Terraform plugin SDK, with its
two values. -/
inductive Severity where
  | Error : Severity
  | Warning : Severity
deriving DecidableEq, Repr

/-- Modelled from the spec: the struct `diag.Diagnostic` of the Terraform plugin SDK, with
the three fields the repository sets. -/
structure Diagnostic where
  Severity : Severity
  Summary : String
  Detail : String
deriving DecidableEq, Repr

/-- Modelled from the spec: the type `diag.Diagnostics`, a slice of diagnostics; the `nil`
slice and the empty slice are both the empty list, the repository only appends and
returns. -/
abbrev Diagnostics : Type := List Diagnostic

/-- Modelled from the spec: the SDK function `diag.FromErr`: no diagnostics for a `nil`
error, otherwise one diagnostic of severity `Error` whose summary is the message. -/
def diag.FromErr (err : error) : Diagnostics :=
  match err with
  | none => []
  | some m => [{ Severity := Severity.Error, Summary := m, Detail := "" }]

/-- Modelled from the spec: the SDK function `diag.Errorf` applied to a message without
verbs: one diagnostic of severity `Error` with that summary. -/
def diag.Errorf (message : String) : Diagnostics :=
  [{ Severity := Severity.Error, Summary := message, Detail := "" }]

/-- Modelled from the spec: the part of `*schema.ResourceData` the resource uses: the ID,
the new-resource mark and the seven string attributes of the schema of `resourceDNSRecord`.
`Get` on a `TypeString` attribute yields a string, so the `!ok` branches of the source are
dead; `Set` on an attribute of the schema returns no error. -/
structure ResourceData where
  id : String
  isNewResource : Bool
  record : String
  value : String
  typ : String
  comment : String
  account_id : String
  zone : String
  editable : String
deriving DecidableEq, Repr

/-- The method `(*schema.ResourceData).SetId`. -/
def ResourceData.SetId (data : ResourceData) (v : String) : ResourceData :=
  { data with id := v }

/-- The function `refreshDataFromRecord`; every `data.Set` succeeds, so it returns `nil`. -/
def refreshDataFromRecord (data : ResourceData) (record : DNSRecord) :
    error × ResourceData :=
  (none,
    { data with
      record := record.Record,
      value := record.Value,
      typ := record.Typ,
      comment := record.Comment,
      account_id := record.AccountID,
      zone := record.Zone,
      editable := record.Editable })

/-- The Go dereference `*p`: a panic on the `nil` pointer. -/
def deref {α : Type} (p : Option α) : Except String α :=
  match p with
  | some a => Except.ok a
  | none => Except.error "invalid memory address or nil pointer dereference"

/-- The function `resourceDNSRecordCreate`. `config` is `none` when the type assertion
`config.(*cachedDreamhostClient)` fails; `retries` and `wait` stand for the SDK's
`RetryContext` budget and `WaitForStateContext`. Returns the diagnostics, the resource data
and the client state afterwards. -/
def resourceDNSRecordCreate {σ : Type}
    (wait : StateChangeConf (cachedDreamhostClient σ) → cachedDreamhostClient σ →
      (Option DNSRecord × error) × cachedDreamhostClient σ)
    (retries : Nat) (upstream : Client σ) (data : ResourceData)
    (config : Option (cachedDreamhostClient σ)) :
    Diagnostics × ResourceData × Option (cachedDreamhostClient σ) :=
  match config with
  | none => (diag.Errorf "internal error: failed to retrieve dreamhost API client", data, none)
  | some api =>
    let record := data.record
    let typ := data.typ
    let actualType := typ
    let value := if actualType = CNAMERecordType then data.value ++ "." else data.value
    let recordInput : DNSRecordInput := { Record := record, Value := value, Typ := typ }
    match retryOnError retries
        (fun c => cachedDreamhostClient.AddDNSRecord upstream c recordInput) api with
    | (err, api1) =>
      if err ≠ none then (diag.FromErr err, data, some api1)
      else
        let data1 := ResourceData.SetId data (recordInputToID recordInput)
        match waitForDNSRecord wait upstream api1 recordInput with
        | ((dnsRecord, err1), api2) =>
          if err1 ≠ none then (diag.FromErr err1, data1, some api2)
          else
            match dnsRecord with
            | none => (diag.Errorf "API error - failed to create DNS record", data1, some api2)
            | some r =>
              match refreshDataFromRecord data1 r with
              | (err2, data2) =>
                if err2 ≠ none then
                  (diag.Errorf "failed to refresh data from record", data2, some api2)
                else ([], data2, some api2)

/-- The function `resourceDNSRecordDelete`, with the same parameters as
`resourceDNSRecordCreate`. The dereference `*recordInput` makes it an `Except`. -/
def resourceDNSRecordDelete {σ : Type}
    (wait : StateChangeConf (cachedDreamhostClient σ) → cachedDreamhostClient σ →
      (Option DNSRecord × error) × cachedDreamhostClient σ)
    (retries : Nat) (upstream : Client σ) (data : ResourceData)
    (config : Option (cachedDreamhostClient σ)) :
    Except String (Diagnostics × ResourceData × Option (cachedDreamhostClient σ)) :=
  match config with
  | none =>
    Except.ok
      (diag.Errorf "internal error: failed to retrieve dreamhost API client", data, none)
  | some api =>
    let recordID := data.id
    match idToRecordInput recordID with
    | (recordInput, err) =>
      if err ≠ none then Except.ok (diag.FromErr err, data, some api)
      else
        match deref recordInput with
        | Except.error p => Except.error p
        | Except.ok input =>
          match retryOnError retries
              (fun c => cachedDreamhostClient.RemoveDNSRecord upstream c input) api with
          | (err1, api1) =>
            if err1 ≠ none then Except.ok (diag.FromErr err1, data, some api1)
            else
              match waitForDNSRecordDeletion wait upstream api1 input with
              | (err2, api2) =>
                let diags : Diagnostics :=
                  match err2 with
                  | some m =>
                    [{ Severity := Severity.Warning,
                       Summary := "Could not confirm DNS record deletion",
                       Detail := m }]
                  | none => []
                Except.ok (diags, ResourceData.SetId data "", some api2)

/-- The function `resourceDNSRecordRead`, with the parameters `upstream`, `data` and `config`
of `resourceDNSRecordCreate`. The dereferences `*recordInput` and `*record` make it an
`Except`. -/
def resourceDNSRecordRead {σ : Type} (upstream : Client σ) (data : ResourceData)
    (config : Option (cachedDreamhostClient σ)) :
    Except String (Diagnostics × ResourceData × Option (cachedDreamhostClient σ)) :=
  match config with
  | none =>
    Except.ok
      (diag.Errorf "internal error: failed to retrieve dreamhost API client", data, none)
  | some api =>
    let recordID := data.id
    match idToRecordInput recordID with
    | (recordInput, err) =>
      if err ≠ none then Except.ok (diag.FromErr err, data, some api)
      else
        match deref recordInput with
        | Except.error p => Except.error p
        | Except.ok input =>
          match cachedDreamhostClient.GetDNSRecord upstream api input true with
          | ((record, err1), api1) =>
            if err1 ≠ none then Except.ok (diag.FromErr err1, data, some api1)
            else if !data.isNewResource && record == none then
              Except.ok ([], ResourceData.SetId data "", some api1)
            else
              match deref record with
              | Except.error p => Except.error p
              | Except.ok r =>
                match refreshDataFromRecord data r with
                | (err2, data1) =>
                  if err2 ≠ none then
                    Except.ok (diag.Errorf "failed to refresh data from record", data1, some api1)
                  else Except.ok ([], data1, some api1)

/-! ## `validators.go` -/

/-- The UTF-8 encoding of one character, the bytes that a Go string holds for it. -/
def utf8Bytes (c : Char) : List Nat :=
  if c.toNat < 0x80 then [c.toNat]
  else if c.toNat < 0x800 then [0xC0 + c.toNat / 0x40, 0x80 + c.toNat % 0x40]
  else if c.toNat < 0x10000 then
    [0xE0 + c.toNat / 0x1000, 0x80 + c.toNat / 0x40 % 0x40, 0x80 + c.toNat % 0x40]
  else
    [0xF0 + c.toNat / 0x40000, 0x80 + c.toNat / 0x1000 % 0x40, 0x80 + c.toNat / 0x40 % 0x40,
      0x80 + c.toNat % 0x40]

/-- The bytes of a Go string: indexing `s[i]` and `len(s)` act on them, `range s` acts on the
characters. -/
def goBytes (s : String) : List Nat :=
  s.data.flatMap utf8Bytes

/-- Go `len(s)` for a string: the number of bytes. -/
def goLen (s : String) : Nat := (goBytes s).length

/-- The function `isAlphaNum`, on a byte. -/
def isAlphaNum (ch : Nat) : Bool :=
  (decide (ch ≥ 'a'.toNat) && decide (ch ≤ 'z'.toNat)) ||
    (decide (ch ≥ 'A'.toNat) && decide (ch ≤ 'Z'.toNat)) ||
    (decide (ch ≥ '0'.toNat) && decide (ch ≤ '9'.toNat))

/-- Go `strings.TrimSuffix(s, suffix)`. -/
def strings.TrimSuffix (s suffix : String) : String :=
  if suffix.data.isSuffixOf s.data then
    String.mk (s.data.take (s.data.length - suffix.data.length))
  else s

/-- The body of the loop `for _, label := range labels` of `isValidHostname`: `false` when it
reaches one of its `return false`. The conversion `byte(ch)` of a rune keeps its low eight
bits. -/
def labelValid (label : String) : Bool :=
  if goLen label == 0 || goLen label > 63 then false
  else if !isAlphaNum ((goBytes label).headD 0) then false
  else if goLen label > 1 && !isAlphaNum ((goBytes label).getLastD 0) then false
  else label.data.all (fun ch => !(!isAlphaNum (ch.toNat % 256) && ch != '-'))

/-- The function `isValidHostname`. -/
def isValidHostname (hostname : String) : Bool :=
  if goLen hostname > 255 then false
  else if strings.TrimSuffix hostname "." = "" then false
  else (strings.Split (strings.TrimSuffix hostname ".") '.').all labelValid

/-- A value of type `interface{}` handed to a validator: a string, or something else (the
tests pass an `int`). -/
inductive GoValue where
  | string : String → GoValue
  | int : Int → GoValue
deriving DecidableEq, Repr

/-- Modelled from the spec: the SDK validator `validation.StringLenBetween(min, max)` (not
part of this repository): a length check on the bytes of the string. Results are the
warnings and the messages of the errors. -/
def StringLenBetween (min max : Nat) (i : GoValue) (k : String) : List String × List String :=
  match i with
  | GoValue.string v =>
    if goLen v < min || goLen v > max then
      ([], ["expected length of " ++ k ++ " to be in the range (" ++ toString min ++ " - " ++
        toString max ++ "), got " ++ v])
    else ([], [])
  | _ => ([], ["expected type of " ++ k ++ " to be string"])

/-- The regular expression of `ValidateDNSRecordName`, anchored at both ends: one character
of `[a-zA-Z0-9]`, then optionally any number of characters of `[a-zA-Z0-9\-\.]` followed by
one character of `[a-zA-Z0-9]`. The classes are tested on the code point of the character. -/
def hostnameRegexpMatch (v : String) : Bool :=
  match v.data with
  | [] => false
  | [c] => isAlphaNum c.toNat
  | c :: rest =>
    isAlphaNum c.toNat && isAlphaNum (rest.getLastD c).toNat &&
      rest.dropLast.all (fun x => isAlphaNum x.toNat || x == '-' || x == '.')

/-- Modelled from the spec: the SDK validator `validation.StringMatch(r, message)` (not part
of this repository) for the regular expression of `ValidateDNSRecordName` and a non-empty
message. -/
def StringMatch (re : String → Bool) (message : String) (i : GoValue) (k : String) :
    List String × List String :=
  match i with
  | GoValue.string v =>
    if !re v then ([], ["invalid value for " ++ k ++ " (" ++ message ++ ")"])
    else ([], [])
  | _ => ([], ["expected type of " ++ k ++ " to be string"])

/-- Modelled from the spec: the SDK combinator `validation.All` (not part of this repository):
every validator runs, warnings and errors are appended in order. -/
def All (validators : List (GoValue → String → List String × List String)) (i : GoValue)
    (k : String) : List String × List String :=
  validators.foldl
    (fun acc validator => (acc.1 ++ (validator i k).1, acc.2 ++ (validator i k).2)) ([], [])

/-- The function `ValidateDNSRecordName`. -/
def ValidateDNSRecordName : GoValue → String → List String × List String :=
  All [StringLenBetween 1 255, StringMatch hostnameRegexpMatch "must be a valid DNS hostname"]

/-- Modelled from the spec: the method `net.IP.To4` of the Go standard library (not part of
this repository) on a non-nil `net.IP`: a 4-byte address is returned as it is, a 16-byte
address with the IPv4-mapped prefix (ten zero bytes, then `0xff 0xff`) gives its last four
bytes, anything else `nil`. -/
def To4 (ip : List Nat) : Option (List Nat) :=
  if ip.length = 4 then some ip
  else if ip.length = 16 ∧ (ip.take 10).all (fun b => b == 0) ∧ ip.getD 10 0 = 0xff ∧
      ip.getD 11 0 = 0xff then
    some ((ip.drop 12).take 4)
  else none

/-- The function `ValidateIPv4Address`. The function `net.ParseIP` of the Go standard
library is the parameter `ParseIP`; `none` is the `nil` address. -/
def ValidateIPv4Address (ParseIP : String → Option (List Nat)) (i : GoValue) (k : String) :
    List String × List String :=
  match i with
  | GoValue.string v =>
    if ParseIP v = none || (ParseIP v).bind To4 = none then
      ([], [v ++ " is not a valid IPv4 address"])
    else ([], [])
  | _ => ([], ["expected type of " ++ k ++ " to be string"])

/-- The function `ValidateIPv6Address`, with `net.ParseIP` as the parameter `ParseIP`. -/
def ValidateIPv6Address (ParseIP : String → Option (List Nat)) (i : GoValue) (k : String) :
    List String × List String :=
  match i with
  | GoValue.string v =>
    if ParseIP v = none || (ParseIP v).bind To4 ≠ none then
      ([], [v ++ " is not a valid IPv6 address"])
    else ([], [])
  | _ => ([], ["expected type of " ++ k ++ " to be string"])

/-- Modelled from the spec: the function `unicode.IsSpace` of the Go standard library (not
part of this repository): the white space characters of Unicode, which are U+0009 to U+000D,
U+0020, U+0085, U+00A0, U+1680, U+2000 to U+200A, U+2028, U+2029, U+202F, U+205F and
U+3000. -/
def unicode.IsSpace (r : Char) : Bool :=
  (decide (0x09 ≤ r.toNat) && decide (r.toNat ≤ 0x0D)) || r.toNat == 0x20 ||
    r.toNat == 0x85 || r.toNat == 0xA0 || r.toNat == 0x1680 ||
    (decide (0x2000 ≤ r.toNat) && decide (r.toNat ≤ 0x200A)) ||
    r.toNat == 0x2028 || r.toNat == 0x2029 || r.toNat == 0x202F || r.toNat == 0x205F ||
    r.toNat == 0x3000

/-- The fields of a list of characters: its maximal runs of characters that are not white
space, in order. -/
def fieldsChars : List Char → List (List Char)
  | [] => []
  | c :: cs =>
    if unicode.IsSpace c then fieldsChars cs
    else
      match cs with
      | [] => [[c]]
      | d :: _ =>
        if unicode.IsSpace d then [c] :: fieldsChars cs
        else
          match fieldsChars cs with
          | [] => [[c]]
          | f :: fs => (c :: f) :: fs

/-- Modelled from the spec: the function `strings.Fields` of the Go standard library (not
part of this repository): it splits the string around each run of white space characters,
as defined by `unicode.IsSpace`, and returns the non-empty pieces. -/
def strings.Fields (s : String) : List String :=
  (fieldsChars s.data).map String.mk

/-- The value of a token of decimal digits, most significant digit first. -/
def decimalValue (tok : List Char) : Nat :=
  tok.foldl (fun acc c => 10 * acc + (c.toNat - '0'.toNat)) 0

/-- Modelled from the spec: the call `fmt.Sscanf(str, "%d", &n)` of the Go standard library
(not part of this repository) for an `int` of 64 bits and a `str` that holds no white space
(the fields that `strings.Fields` returns hold none), as the value stored in `n` (which
starts at 0 and keeps it on an error) and the error. The verb `%d` accepts one optional sign
`+` or `-`, then reads the longest run of decimal digits, which must not be empty, and
converts the token with `strconv.ParseInt(tok, 10, 64)`, an error when the value is out of
the range of 64 bits. What follows the digits in `str` is left unread, without an error. -/
def fmt.Sscanf (str : String) : Int × error :=
  let sign : List Char :=
    match str.data with
    | [] => []
    | c :: _ => if c == '+' || c == '-' then [c] else []
  let rest := str.data.drop sign.length
  let tok := rest.takeWhile Char.isDigit
  if rest.isEmpty then (0, some "unexpected EOF")
  else if tok.isEmpty then (0, some "expected integer")
  else
    let i : Int := if sign == ['-'] then - (decimalValue tok : Int) else (decimalValue tok : Int)
    if i < -9223372036854775808 ∨ i > 9223372036854775807 then
      (0, some ("strconv.ParseInt: parsing \"" ++ String.mk (sign ++ tok) ++
        "\": value out of range"))
    else (i, none)

/-- The function `ValidateMXRecord`. -/
def ValidateMXRecord (i : GoValue) (k : String) : List String × List String :=
  match i with
  | GoValue.string v =>
    let parts := strings.Fields v
    if parts.length ≠ 2 then
      ([], ["MX record must be in format 'priority hostname', got: " ++ v])
    else
      match fmt.Sscanf (parts.getD 0 "") with
      | (priority, err) =>
        if err ≠ none then
          ([], ["MX priority must be a number, got: " ++ parts.getD 0 ""])
        else
          let errors1 : List String :=
            if priority < 0 ∨ priority > 65535 then
              ["MX priority must be between 0 and 65535, got: " ++ toString priority]
            else []
          let errors2 : List String :=
            if !isValidHostname (parts.getD 1 "") then
              errors1 ++ ["MX hostname is not valid: " ++ parts.getD 1 ""]
            else errors1
          ([], errors2)
  | _ => ([], ["expected type of " ++ k ++ " to be string"])

/-- The function `ValidateTXTRecord`. -/
def ValidateTXTRecord : GoValue → String → List String × List String :=
  StringLenBetween 0 255

/-- The function `ValidateSRVRecord`. A failed `fmt.Sscanf` leaves its variable at 0 and the
checks go on. -/
def ValidateSRVRecord (i : GoValue) (k : String) : List String × List String :=
  match i with
  | GoValue.string v =>
    let parts := strings.Fields v
    if parts.length ≠ 4 then
      ([], ["SRV record must be in format 'priority weight port target', got: " ++ v])
    else
      let priority := fmt.Sscanf (parts.getD 0 "")
      let weight := fmt.Sscanf (parts.getD 1 "")
      let port := fmt.Sscanf (parts.getD 2 "")
      let errors1 : List String :=
        if priority.2 ≠ none then
          ["SRV priority must be a number, got: " ++ parts.getD 0 ""]
        else []
      let errors2 : List String :=
        if weight.2 ≠ none then
          errors1 ++ ["SRV weight must be a number, got: " ++ parts.getD 1 ""]
        else errors1
      let errors3 : List String :=
        if port.2 ≠ none then
          errors2 ++ ["SRV port must be a number, got: " ++ parts.getD 2 ""]
        else errors2
      let errors4 : List String :=
        if priority.1 < 0 ∨ priority.1 > 65535 then
          errors3 ++ ["SRV priority must be between 0 and 65535, got: " ++ toString priority.1]
        else errors3
      let errors5 : List String :=
        if weight.1 < 0 ∨ weight.1 > 65535 then
          errors4 ++ ["SRV weight must be between 0 and 65535, got: " ++ toString weight.1]
        else errors4
      let errors6 : List String :=
        if port.1 < 0 ∨ port.1 > 65535 then
          errors5 ++ ["SRV port must be between 0 and 65535, got: " ++ toString port.1]
        else errors5
      let errors7 : List String :=
        if !isValidHostname (parts.getD 3 "") then
          errors6 ++ ["SRV target hostname is not valid: " ++ parts.getD 3 ""]
        else errors6
      ([], errors7)
  | _ => ([], ["expected type of " ++ k ++ " to be string"])

/-- The function `ValidateDNSRecordValue`, with `net.ParseIP` as the parameter `ParseIP`. -/
def ValidateDNSRecordValue (ParseIP : String → Option (List Nat)) (recordType : String)
    (i : GoValue) (k : String) : List String × List String :=
  match i with
  | GoValue.string value =>
    if recordType = "A" then ValidateIPv4Address ParseIP i k
    else if recordType = "AAAA" then ValidateIPv6Address ParseIP i k
    else if recordType = "CNAME" ∨ recordType = "NS" ∨ recordType = "PTR" then
      if !isValidHostname value && value != "@" then
        ([], [recordType ++ " record value must be a valid hostname or '@', got: " ++ value])
      else ([], [])
    else if recordType = "MX" then ValidateMXRecord i k
    else if recordType = "TXT" then ValidateTXTRecord i k
    else if recordType = "SRV" then ValidateSRVRecord i k
    else ([], [])
  | _ => ([], ["expected type of " ++ k ++ " to be string"])

/-! ## `cache.go` and `cached_client.go` with the memory of slices and pointers explicit

The embedding above passes records by value, which is enough for what the methods return
and store. To speak about a caller that writes into what it was handed, the same methods are
given here over a memory: a slice is the address of its backing array, a pointer the address
of a record variable. -/

namespace Mem

/-- The memory: the backing arrays of `[]dreamhostapi.DNSRecord` slices and the record
variables that pointers refer to, by address. -/
structure Memory where
  arrays : List (List DNSRecord)
  cells : List DNSRecord
deriving DecidableEq, Repr

/-- A slice value: `none` is `nil`, `some a` the slice over the whole backing array at
address `a` (the code never re-slices). -/
abbrev SliceRef : Type := Option Nat

/-- A `*dreamhostapi.DNSRecord`: `none` is `nil`, `some p` the address of a record variable. -/
abbrev RecordPtr : Type := Option Nat

/-- The elements a slice holds at the moment. -/
def Memory.elems (m : Memory) (s : SliceRef) : List DNSRecord :=
  match s with
  | none => []
  | some a => m.arrays.getD a []

/-- The two statements `result := make([]T, len(src)); copy(result, src)`: a new backing
array with the elements of `src`. -/
def Memory.clone (m : Memory) (src : SliceRef) : SliceRef × Memory :=
  (some m.arrays.length, { m with arrays := m.arrays ++ [m.elems src] })

/-- A slice returned by the upstream library arrives in a backing array of its own; `nil`
stays `nil`. -/
def Memory.store (m : Memory) (records : Slice DNSRecord) : SliceRef × Memory :=
  match records with
  | none => (none, m)
  | some l => (some m.arrays.length, { m with arrays := m.arrays ++ [l] })

/-- The statements `recordCopy := records[i]; return &recordCopy`: a new record variable. -/
def Memory.newCell (m : Memory) (r : DNSRecord) : RecordPtr × Memory :=
  (some m.cells.length, { m with cells := m.cells ++ [r] })

/-- What a pointer refers to at the moment. -/
def Memory.load (m : Memory) (p : RecordPtr) : Option DNSRecord :=
  match p with
  | none => none
  | some a => m.cells.get? a

/-- A caller overwrites element `i` of a slice (any assignment `s[i] = r` or
`s[i].Field = v`, with `r` the record afterwards); nothing is written through `nil` or out
of range. -/
def Memory.setElem (m : Memory) (s : SliceRef) (i : Nat) (r : DNSRecord) : Memory :=
  match s with
  | none => m
  | some a => { m with arrays := m.arrays.set a ((m.arrays.getD a []).set i r) }

/-- A caller overwrites the record behind a pointer (any assignment `*p = r` or
`p.Field = v`, with `r` the record afterwards). -/
def Memory.setCell (m : Memory) (p : RecordPtr) (r : DNSRecord) : Memory :=
  match p with
  | none => m
  | some a => { m with cells := m.cells.set a r }

/-- The struct `cache`, its field a slice in the memory. -/
structure cache where
  cachedRecords : SliceRef
deriving DecidableEq, Repr

/-- The struct `cachedDreamhostClient` over that cache. -/
structure cachedDreamhostClient (σ : Type) where
  client : σ
  cache : cache

/-- The method `(*cachedDreamhostClient).ListDNSRecords`. -/
def cachedDreamhostClient.ListDNSRecords {σ : Type} (api : Client σ)
    (c : cachedDreamhostClient σ) (m : Memory) :
    (SliceRef × error) × cachedDreamhostClient σ × Memory :=
  match api.ListDNSRecords c.client with
  | ((records, err), s1) =>
    if err ≠ none then
      ((none, err), { client := s1, cache := c.cache }, m)
    else
      (((Memory.store m records).1, err), { client := s1, cache := c.cache },
        (Memory.store m records).2)

/-- The method `(*cache).GetRecords`, `list` being the method `ListDNSRecords` of its
`client` argument. -/
def cache.GetRecords {τ : Type} (c : cache)
    (list : τ → Memory → (SliceRef × error) × τ × Memory) (s : τ) (m : Memory) :
    (SliceRef × error) × cache × τ × Memory :=
  if c.cachedRecords = none then
    match list s m with
    | ((records, err), s1, m1) =>
      if err ≠ none then
        ((none, errors.Wrap err "failed to list DNS records"), c, s1, m1)
      else
        let c1 : cache := { c with cachedRecords := records }
        (((Memory.clone m1 c1.cachedRecords).1, none), c1, s1,
          (Memory.clone m1 c1.cachedRecords).2)
  else
    (((Memory.clone m c.cachedRecords).1, none), c, s, (Memory.clone m c.cachedRecords).2)

/-- The branch `if enableCache { ... }` of `GetDNSRecord`. -/
def cachedDreamhostClient.GetDNSRecordCached {σ : Type} (api : Client σ)
    (c : cachedDreamhostClient σ) (recordInput : DNSRecordInput) (m : Memory) :
    (RecordPtr × error) × cachedDreamhostClient σ × Memory :=
  match cache.GetRecords c.cache (cachedDreamhostClient.ListDNSRecords api) c m with
  | ((records, err), cache1, c1, m1) =>
    let c2 : cachedDreamhostClient σ := { client := c1.client, cache := cache1 }
    if err ≠ none then
      ((none, err), c2, m1)
    else
      match findRecord recordInput (Memory.elems m1 records) with
      | none => ((none, none), c2, m1)
      | some recordCopy =>
        (((Memory.newCell m1 recordCopy).1, none), c2, (Memory.newCell m1 recordCopy).2)

/-- The method `(*cachedDreamhostClient).GetDNSRecord`. -/
def cachedDreamhostClient.GetDNSRecord {σ : Type} (api : Client σ)
    (c : cachedDreamhostClient σ) (recordInput : DNSRecordInput) (enableCache : Bool)
    (m : Memory) : (RecordPtr × error) × cachedDreamhostClient σ × Memory :=
  if enableCache then
    cachedDreamhostClient.GetDNSRecordCached api c recordInput m
  else
    match cachedDreamhostClient.ListDNSRecords api c m with
    | ((_, err), c1, m1) =>
      if err ≠ none then
        ((none, errors.Wrap err "failed to refresh cache"), c1, m1)
      else
        cachedDreamhostClient.GetDNSRecordCached api c1 recordInput m1

/-- The records and the error that a caller of `GetRecords` reads from its results. -/
def readRecords {τ : Type} (out : (SliceRef × error) × cache × τ × Memory) :
    List DNSRecord × error :=
  (Memory.elems out.2.2.2 out.1.1, out.1.2)

/-- The record and the error that a caller of `GetDNSRecord` reads from its results. -/
def readRecord {σ : Type} (out : (RecordPtr × error) × cachedDreamhostClient σ × Memory) :
    Option DNSRecord × error :=
  (Memory.load out.2.2 out.1.1, out.1.2)

end Mem

/-! ## `data_source_dns_records.go`: the filters -/

/-- The type assertion `filters[key].(string)` on a `map[string]interface{}`, as the string
and the flag `ok`. The map is a function to `Option GoValue`, `none` at a key that is absent
or holds `nil`. -/
def stringAt (filters : String → Option GoValue) (key : String) : String × Bool :=
  match filters key with
  | some (GoValue.string s) => (s, true)
  | _ => ("", false)

/-- The function `matchesFilter`. -/
def matchesFilter (record : DNSRecord) (filters : String → Option GoValue) : Bool :=
  if (stringAt filters "record").2 && (stringAt filters "record").1 != "" &&
      !contains record.Record (stringAt filters "record").1 then false
  else if (stringAt filters "type").2 && (stringAt filters "type").1 != "" &&
      record.Typ != (stringAt filters "type").1 then false
  else if (stringAt filters "value").2 && (stringAt filters "value").1 != "" &&
      !contains record.Value (stringAt filters "value").1 then false
  else if (stringAt filters "zone").2 && (stringAt filters "zone").1 != "" &&
      record.Zone != (stringAt filters "zone").1 then false
  else true

/-- The function `filterDNSRecords`: `filtered` starts as the nil slice and is appended to. -/
def filterDNSRecords (records : Slice DNSRecord) (filters : String → Option GoValue) :
    Slice DNSRecord :=
  (Slice.elems records).foldl
    (fun filtered record =>
      if matchesFilter record filters then Slice.append filtered record else filtered)
    none

/-! ## `data_source_dns_record.go` -/

/-- The zero value of `dreamhostapi.DNSRecord`. -/
def zeroRecord : DNSRecord :=
  { Record := "", Typ := "", Value := "", Zone := "", Comment := "", AccountID := "",
    Editable := "" }

/-- The loop `for _, record := range records` of `dataSourceDNSRecordRead`, on what is left
of `records`. The range variable `record` is one variable for the whole loop, assigned at
the start of each iteration (the Go language before version 1.22, for which the tests of
this repository make their copies `tt := tt`), and `foundRecord` is `nil` or `&record`, the
address of that variable. The state is therefore the flag `found` (the pointer is not
`nil`) and the current value `record` of the variable. `Except.error` carries the
diagnostics of the `return` inside the loop. -/
def dataSourceDNSRecordReadLoop (recordName recordType recordValue : String)
    (hasValue : Bool) : List DNSRecord → Bool → DNSRecord → Except Diagnostics (Bool × DNSRecord)
  | [], found, record => Except.ok (found, record)
  | r :: rest, found, _ =>
    if r.Record = recordName ∧ r.Typ = recordType then
      if hasValue && r.Value != recordValue then
        dataSourceDNSRecordReadLoop recordName recordType recordValue hasValue rest found r
      else if found && !hasValue then
        Except.error (diag.Errorf ("multiple DNS records found for " ++ recordName ++
          " (type: " ++ recordType ++ "). Please specify 'value' to disambiguate"))
      else if hasValue then Except.ok (true, r)
      else dataSourceDNSRecordReadLoop recordName recordType recordValue hasValue rest true r
    else dataSourceDNSRecordReadLoop recordName recordType recordValue hasValue rest found r

/-- The function `dataSourceDNSRecordRead`. `d` is the data of the data source, whose
attribute "id" and ID are both the field `id`; `d.GetOk("value")` has its flag up when the
value is not the empty string; `m` is `none` when the type assertion
`m.(*cachedDreamhostClient)` fails. After the loop `*foundRecord` is the value of the range
variable. -/
def dataSourceDNSRecordRead {σ : Type} (upstream : Client σ) (d : ResourceData)
    (m : Option (cachedDreamhostClient σ)) :
    Diagnostics × ResourceData × Option (cachedDreamhostClient σ) :=
  match m with
  | none => (diag.Errorf "internal error: failed to retrieve dreamhost API client", d, none)
  | some api =>
    let recordName := d.record
    let recordType := d.typ
    let recordValue := d.value
    let hasValue : Bool := d.value != ""
    match cachedDreamhostClient.ListDNSRecords upstream api with
    | ((records, err), api1) =>
      if err ≠ none then (diag.FromErr err, d, some api1)
      else
        match dataSourceDNSRecordReadLoop recordName recordType recordValue hasValue
            (Slice.elems records) false zeroRecord with
        | Except.error diags => (diags, d, some api1)
        | Except.ok (found, record) =>
          if !found then
            if hasValue then
              (diag.Errorf ("DNS record not found: " ++ recordName ++ " (type: " ++
                recordType ++ ", value: " ++ recordValue ++ ")"), d, some api1)
            else
              (diag.Errorf ("DNS record not found: " ++ recordName ++ " (type: " ++
                recordType ++ ")"), d, some api1)
          else
            let id := recordInputToID
              { Record := record.Record, Typ := record.Typ, Value := record.Value }
            ([],
              { ResourceData.SetId d id with
                record := record.Record,
                typ := record.Typ,
                value := record.Value,
                zone := record.Zone,
                comment := record.Comment,
                account_id := record.AccountID,
                editable := record.Editable },
              some api1)

/-! ## Call tracking for arbitrary upstreams -/

/-- A lister that counts the calls of `ListDNSRecords` it receives, as the mock does in
`listRecordsCalls`, around an arbitrary lister. -/
def DNSRecordLister.counting {τ : Type} (client : DNSRecordLister τ) :
    DNSRecordLister (τ × Nat) :=
  { ListDNSRecords := fun s =>
      ((client.ListDNSRecords s.1).1, ((client.ListDNSRecords s.1).2, s.2 + 1)) }

/-- One call received by the upstream. -/
inductive Call where
  | list : Call
  | add : DNSRecordInput → Call
  | remove : DNSRecordInput → Call
deriving DecidableEq, Repr

/-- An upstream client that records every call it receives, in order, next to the state of
an arbitrary upstream client (the mock's `addRecordCalls`, `removeRecordCalls` and
`listRecordsCalls` in one log). -/
def Client.logging {σ : Type} (api : Client σ) : Client (σ × List Call) :=
  { ListDNSRecords := fun s =>
      ((api.ListDNSRecords s.1).1, ((api.ListDNSRecords s.1).2, s.2 ++ [Call.list])),
    AddDNSRecord := fun i s =>
      ((api.AddDNSRecord i s.1).1, ((api.AddDNSRecord i s.1).2, s.2 ++ [Call.add i])),
    RemoveDNSRecord := fun i s =>
      ((api.RemoveDNSRecord i s.1).1, ((api.RemoveDNSRecord i s.1).2, s.2 ++ [Call.remove i])) }

/-- The results of `n` consecutive `GetRecords` calls, oldest first, with the cache and the
lister state after the last one. -/
def getRecordsRun {τ : Type} (client : DNSRecordLister τ) :
    Nat → cache → τ → List (Slice DNSRecord × error) × cache × τ
  | 0, c, s => ([], c, s)
  | n + 1, c, s =>
    match cache.GetRecords c client s with
    | (r, c1, s1) =>
      match getRecordsRun client n c1 s1 with
      | (rs, c2, s2) => (r :: rs, c2, s2)

/-! ## Specification vocabulary -/

/-- The snapshot scanned by a cache-enabled lookup started in `c` is `S`: the slot already
holds `S`, or the slot is empty and the upstream list call succeeds with the elements `S`. -/
def scansSnapshot {σ : Type} (api : Client σ) (c : cachedDreamhostClient σ)
    (S : List DNSRecord) : Prop :=
  c.cache.cachedRecords = some S ∨
    (c.cache.cachedRecords = none ∧ (api.ListDNSRecords c.client).1.2 = none ∧
      Slice.elems (api.ListDNSRecords c.client).1.1 = S)

/-- An operation handed to `retryOnError` that also counts its invocations, as the closures
of `TestRetryOnError` do with `calls++`. -/
def countingOp {σ : Type} (f : σ → error × σ) : σ × Nat → error × (σ × Nat) :=
  fun s => ((f s.1).1, ((f s.1).2, s.2 + 1))

/-- The state of an operation after `i` invocations started in `s`. -/
def stateAfter {σ : Type} (f : σ → error × σ) (i : Nat) (s : σ) : σ :=
  (fun t => (f t).2)^[i] s

/-- The string `s` contains `substr`: it is some text, `substr`, and some more text. -/
def hasSubstring (s substr : String) : Prop :=
  ∃ pre post : String, s = pre ++ substr ++ post

/-- The memory after a caller of `cache.GetRecords(ctx, client)` on the cache `c` overwrote
element `i` of the slice it was handed with the record `r`. -/
def memAfterSliceWrite {σ : Type} (api : Client σ) (client : Mem.cachedDreamhostClient σ)
    (c : Mem.cache) (m : Mem.Memory) (i : Nat) (r : DNSRecord) : Mem.Memory :=
  Mem.Memory.setElem
    (Mem.cache.GetRecords c (Mem.cachedDreamhostClient.ListDNSRecords api) client m).2.2.2
    (Mem.cache.GetRecords c (Mem.cachedDreamhostClient.ListDNSRecords api) client m).1.1 i r

/-- The memory after a caller of `GetDNSRecord` overwrote the record behind the pointer it
was handed with the record `r`. -/
def memAfterRecordWrite {σ : Type} (api : Client σ) (client : Mem.cachedDreamhostClient σ)
    (recordInput : DNSRecordInput) (enableCache : Bool) (m : Mem.Memory) (r : DNSRecord) :
    Mem.Memory :=
  Mem.Memory.setCell
    (Mem.cachedDreamhostClient.GetDNSRecord api client recordInput enableCache m).2.2
    (Mem.cachedDreamhostClient.GetDNSRecord api client recordInput enableCache m).1.1 r

/-- The filter that `filters` holds at `key`: the empty string when the key is absent or its
value is not a string. -/
def filterAt (filters : String → Option GoValue) (key : String) : String :=
  (stringAt filters key).1

/-- The record satisfies every non-empty filter: its name contains the "record" filter, its
type equals the "type" filter, its value contains the "value" filter and its zone equals
the "zone" filter. -/
def satisfiesFilters (r : DNSRecord) (filters : String → Option GoValue) : Prop :=
  (filterAt filters "record" = "" ∨ hasSubstring r.Record (filterAt filters "record")) ∧
  (filterAt filters "type" = "" ∨ r.Typ = filterAt filters "type") ∧
  (filterAt filters "value" = "" ∨ hasSubstring r.Value (filterAt filters "value")) ∧
  (filterAt filters "zone" = "" ∨ r.Zone = filterAt filters "zone")

/-- The number of records of the list that have the name and the type. -/
def countNameType (records : List DNSRecord) (name typ : String) : Nat :=
  (records.filter (fun r => r.Record == name && r.Typ == typ)).length

/-- The message of the diagnostic for an ambiguous lookup of the single-record data
source. -/
def multipleFound (name typ : String) : Diagnostics :=
  diag.Errorf ("multiple DNS records found for " ++ name ++ " (type: " ++ typ ++
    "). Please specify 'value' to disambiguate")

/-- The message of the diagnostic for a lookup without value that finds nothing. -/
def notFound (name typ : String) : Diagnostics :=
  diag.Errorf ("DNS record not found: " ++ name ++ " (type: " ++ typ ++ ")")

/-- The message of the diagnostic for a lookup with a value that finds nothing. -/
def notFoundWithValue (name typ value : String) : Diagnostics :=
  diag.Errorf ("DNS record not found: " ++ name ++ " (type: " ++ typ ++ ", value: " ++
    value ++ ")")

/-! ## Fixtures of the test-suite -/

/-- A lister (an implementation of the interface `DNSRecordLister`) whose list call
succeeds with the `nil` slice: it returns `nil, nil`. -/
def nilLister : DNSRecordLister Unit :=
  { ListDNSRecords := fun s => ((none, none), s) }

/-- The record list of `TestCache_GetRecords/first_call_fetches_from_api`. -/
def testRecords : List DNSRecord :=
  [ { Record := "example.com", Typ := ARecordType, Value := "192.0.2.1",
      Zone := "", Comment := "", AccountID := "", Editable := "" },
    { Record := "www.example.com", Typ := CNAMERecordType, Value := "example.com",
      Zone := "", Comment := "", AccountID := "", Editable := "" } ]

/-- The mock of `TestCache_GetRecords/first_call_fetches_from_api` after
`SetRecords(testRecords)`. -/
def testMock : MockDreamhostClient :=
  MockDreamhostClient.SetRecords NewMockDreamhostClient (some testRecords)

/-- The mock of `TestCache_GetRecords/error_handling` after
`SetListRecordsError(fmt.Errorf("API error"))`. -/
def failingMock : MockDreamhostClient :=
  MockDreamhostClient.SetListRecordsError NewMockDreamhostClient (some "API error")

/-- The mock itself as a `DNSRecordLister`. -/
def mockLister : DNSRecordLister MockDreamhostClient :=
  { ListDNSRecords := MockDreamhostClient.ListDNSRecords }

/-- The record input added in `TestCachedDreamhostClient_CacheInvalidation`. -/
def newRecordInput : DNSRecordInput :=
  { Record := "new.example.com", Typ := ARecordType, Value := "192.0.2.2" }

/-- The record input removed in the tests of `RemoveDNSRecord`: the first of `testRecords`. -/
def presentRecordInput : DNSRecordInput :=
  { Record := "example.com", Typ := ARecordType, Value := "192.0.2.1" }

/-- The mock after `SetRecords(testRecords)` and `SetAddRecordError(fmt.Errorf("API error"))`. -/
def addFailingMock : MockDreamhostClient :=
  MockDreamhostClient.SetAddRecordError testMock (some "API error")

/-- The mock of `TestCachedDreamhostClient_RemoveDNSRecord/error_does_not_invalidate_cache`
after `SetRecords(testRecords)` and `SetRemoveRecordError(fmt.Errorf("API error"))`. -/
def removeFailingMock : MockDreamhostClient :=
  MockDreamhostClient.SetRemoveRecordError testMock (some "API error")

/-- The stored record of
`TestCachedDreamhostClient_GetDNSRecord/cache_enabled_cname_with_trailing_dot`: a CNAME
whose value carries a trailing dot. -/
def cnameDotRecord : DNSRecord :=
  { Record := "www.example.com", Typ := CNAMERecordType, Value := "example.com.",
    Zone := "", Comment := "", AccountID := "", Editable := "" }

/-- The same record stored without the trailing dot. -/
def cnameRecord : DNSRecord :=
  { Record := "www.example.com", Typ := CNAMERecordType, Value := "example.com",
    Zone := "", Comment := "", AccountID := "", Editable := "" }

/-- The client of `cache_enabled_cname_with_trailing_dot`: the mock after
`SetRecords([]DNSRecord{testRecord})` and an empty cache. -/
def cnameDotClient : cachedDreamhostClient MockDreamhostClient :=
  { client := MockDreamhostClient.SetRecords NewMockDreamhostClient (some [cnameDotRecord]),
    cache := { cachedRecords := none } }

/-- The record input of `cache_enabled_cname_with_trailing_dot`: the value is queried
without the trailing dot. -/
def cnameInput : DNSRecordInput :=
  { Record := "www.example.com", Typ := CNAMERecordType, Value := "example.com" }

/-- A TXT record whose text ends in a dot. -/
def txtDotRecord : DNSRecord :=
  { Record := "example.com", Typ := "TXT", Value := "hello.",
    Zone := "example.com", Comment := "", AccountID := "123", Editable := Editable }

/-- A TXT record of the same name whose text is the same without the final dot. -/
def txtRecord : DNSRecord :=
  { Record := "example.com", Typ := "TXT", Value := "hello",
    Zone := "example.com", Comment := "", AccountID := "123", Editable := Editable }

/-- A client whose cache holds both TXT records, the dotted one first. -/
def txtClient : cachedDreamhostClient MockDreamhostClient :=
  { client := MockDreamhostClient.SetRecords NewMockDreamhostClient
      (some [txtDotRecord, txtRecord]),
    cache := { cachedRecords := some [txtDotRecord, txtRecord] } }

/-- The client of the first test-suite fixture: the mock after `SetRecords(testRecords)` and
an empty cache. -/
def testClient : cachedDreamhostClient MockDreamhostClient :=
  { client := testMock, cache := { cachedRecords := none } }

/-- A client whose mock and populated cache hold the CNAME record stored without a trailing
dot. -/
def cnameClient : cachedDreamhostClient MockDreamhostClient :=
  { client := MockDreamhostClient.SetRecords NewMockDreamhostClient (some [cnameRecord]),
    cache := { cachedRecords := some [cnameRecord] } }

/-- The client of `TestCachedDreamhostClient_GetDNSRecord/cache_enabled_record_not_found`:
the mock holds one record of another name, the cache is empty. -/
def notFoundClient : cachedDreamhostClient MockDreamhostClient :=
  { client := MockDreamhostClient.SetRecords NewMockDreamhostClient
      (some [{ Record := "other.example.com", Typ := ARecordType, Value := "192.0.2.2",
               Zone := "", Comment := "", AccountID := "", Editable := "" }]),
    cache := { cachedRecords := none } }

/-- The record input of the `GetDNSRecord` tests. -/
def testRecordInput : DNSRecordInput :=
  { Record := "test.example.com", Typ := ARecordType, Value := "192.0.2.1" }

/-- The client of `cache_error_propagated` and of `TestDNSRecordStateRefreshFunc/api_error`:
the mock after `SetListRecordsError(fmt.Errorf("API error"))` and an empty cache. -/
def failingClient : cachedDreamhostClient MockDreamhostClient :=
  { client := failingMock, cache := { cachedRecords := none } }

/-- A client whose cache still holds `testRecords` while the upstream holds no record any
more: the mock is a fresh `NewMockDreamhostClient()`. -/
def staleClient : cachedDreamhostClient MockDreamhostClient :=
  { client := NewMockDreamhostClient, cache := { cachedRecords := some testRecords } }

/-- The client of `TestDNSRecordStateRefreshFunc/record_not_exists` and of
`TestDNSRecordDeletionStateRefreshFunc/record_deleted`: the mock after
`SetRecords([]DNSRecord{})` and an empty cache. -/
def emptyClient : cachedDreamhostClient MockDreamhostClient :=
  { client := MockDreamhostClient.SetRecords NewMockDreamhostClient (some []),
    cache := { cachedRecords := none } }

/-- The operation of `TestRetryOnError/retry_on_rate_limit`, on its counter `calls`: it
fails with "rate limit exceeded" while `calls < 3` after the increment. -/
def rateLimitedOp (calls : Nat) : error × Nat :=
  (if calls + 1 < 3 then some "rate limit exceeded" else none, calls + 1)

/-- The operation of `TestRetryOnError/non_retryable_error`, on its counter `calls`: it
always fails with "invalid credentials". -/
def invalidCredentialsOp (calls : Nat) : error × Nat :=
  (some "invalid credentials", calls + 1)

/-- The record of `TestDNSRecordStateRefreshFunc/record_exists`, which is also the first of
`testRecords`. -/
def exampleRecord : DNSRecord :=
  { Record := "example.com", Typ := ARecordType, Value := "192.0.2.1",
    Zone := "", Comment := "", AccountID := "", Editable := "" }

/-- The client at the start of the end-to-end scenario: an upstream with no records (a fresh
`NewMockDreamhostClient()`) and an empty cache. -/
def freshClient : cachedDreamhostClient MockDreamhostClient :=
  { client := NewMockDreamhostClient, cache := { cachedRecords := none } }

/-- The record that the mock upstream stores when it accepts `record`: the `newRecord` of
`(*MockDreamhostClient).AddDNSRecord`. -/
def addedRecord (record : DNSRecordInput) : DNSRecord :=
  { Record := record.Record,
    Typ := record.Typ,
    Value := record.Value,
    Zone := extractZone record.Record,
    AccountID := "test-account-123",
    Comment := "",
    Editable := Editable }

/-- The mock upstream of the end-to-end scenario after it accepted `record` and answered
`lists` list calls. -/
def mockAfterAdd (record : DNSRecordInput) (lists : Nat) : MockDreamhostClient :=
  { NewMockDreamhostClient with
    records := some [addedRecord record],
    addRecordCalls := some [record],
    listRecordsCalls := lists }

/-- A mock upstream that holds the record ("example.com", A, "192.0.2.1"), accepts adds and
removes, and fails every list call with "API error": the mutation succeeds and its
confirmation fails. -/
def unconfirmedMock : MockDreamhostClient :=
  MockDreamhostClient.SetListRecordsError
    (MockDreamhostClient.SetRecords NewMockDreamhostClient (some [exampleRecord]))
    (some "API error")

/-- The resource data of a managed record ("example.com", A, "192.0.2.1"). -/
def exampleData : ResourceData :=
  { id := "A|example.com|192.0.2.1", isNewResource := false,
    record := "example.com", value := "192.0.2.1", typ := "A",
    comment := "", account_id := "", zone := "", editable := "" }

/-- The resource data of a record ("new.example.com", A, "192.0.2.2") about to be created. -/
def newData : ResourceData :=
  { id := "", isNewResource := true,
    record := "new.example.com", value := "192.0.2.2", typ := "A",
    comment := "", account_id := "", zone := "", editable := "" }

/-- The client around `unconfirmedMock`, with an empty cache. -/
def unconfirmedClient : cachedDreamhostClient MockDreamhostClient :=
  { client := unconfirmedMock, cache := { cachedRecords := none } }

/-- The modelled wait loop with room for 24 further ticks (two minutes at five seconds). -/
def boundedWait (conf : StateChangeConf (cachedDreamhostClient MockDreamhostClient))
    (client : cachedDreamhostClient MockDreamhostClient) :
    (Option DNSRecord × error) × cachedDreamhostClient MockDreamhostClient :=
  WaitForStateContext conf 24 client

/-- The client after the retried remove of the example record on `unconfirmedClient`. -/
def afterRemove : cachedDreamhostClient MockDreamhostClient :=
  (retryOnError 24
    (fun c => cachedDreamhostClient.RemoveDNSRecord mockClient c presentRecordInput)
    unconfirmedClient).2

/-- The client after the deletion wait that follows `afterRemove`. -/
def afterDeleteWait : cachedDreamhostClient MockDreamhostClient :=
  (boundedWait (waitForDNSRecordDeletionConf mockClient presentRecordInput) afterRemove).2

/-- The client after the retried add of the new record on `unconfirmedClient`. -/
def afterAdd : cachedDreamhostClient MockDreamhostClient :=
  (retryOnError 24
    (fun c => cachedDreamhostClient.AddDNSRecord mockClient c newRecordInput)
    unconfirmedClient).2

/-- The client after the create wait that follows `afterAdd`. -/
def afterCreateWait : cachedDreamhostClient MockDreamhostClient :=
  (boundedWait (waitForDNSRecordConf mockClient newRecordInput) afterAdd).2

/-- The memory of `TestCache_ReturnsCopy` once the cache is populated: one backing array, at
address 0, holding `testRecords`. -/
def testMemory : Mem.Memory :=
  { arrays := [testRecords], cells := [] }

/-- The client of `TestCache_ReturnsCopy` once the cache is populated: its slice is the array
at address 0. -/
def memClient : Mem.cachedDreamhostClient MockDreamhostClient :=
  { client := testMock, cache := { cachedRecords := some 0 } }

/-- The first record of `testRecords` after the assignment `records[0].Value = "modified"`. -/
def modifiedRecord : DNSRecord :=
  { exampleRecord with Value := "modified" }

/-- The 16 bytes that `net.ParseIP` returns for "::ffff:192.0.2.1", and for "192.0.2.1": the
IPv4-mapped IPv6 address of 192.0.2.1. -/
def mappedAddress : List Nat :=
  [0, 0, 0, 0, 0, 0, 0, 0, 0, 0, 0xff, 0xff, 192, 0, 2, 1]

/-- The values of `net.ParseIP` at three addresses of the test tables of
`TestValidateIPv4Address` and `TestValidateIPv6Address`, and `nil` elsewhere: a stand-in for
the function of the standard library at these inputs only. -/
def testParseIP (v : String) : Option (List Nat) :=
  if v = "::ffff:192.0.2.1" then some mappedAddress
  else if v = "192.0.2.1" then some mappedAddress
  else if v = "2001:db8::1" then
    some [0x20, 0x01, 0x0d, 0xb8, 0, 0, 0, 0, 0, 0, 0, 0, 0, 0, 0, 1]
  else none

/-- A host name with the letter U+0161 (s with caron) in its first label. -/
def caronHostname : String := "pošta.example.com"

/-- A record input whose value holds the separator of the ID codec. -/
def pipeRecordInput : DNSRecordInput :=
  { Record := "txt.example.com", Typ := "TXT", Value := "a|b" }

/-- The resource data of the record ("example.com", A, "192.0.2.1") in a state marked as
new (`IsNewResource()` is true). -/
def markedNewData : ResourceData :=
  { exampleData with isNewResource := true }

/-- The resource data of a CNAME record configured with a value that already ends in a
dot. -/
def dottedCnameData : ResourceData :=
  { id := "", isNewResource := true,
    record := "www.example.com", value := "example.com.", typ := "CNAME",
    comment := "", account_id := "", zone := "", editable := "" }

/-- The record input that `resourceDNSRecordCreate` builds from `dottedCnameData`. -/
def dottedCnameSubmitted : DNSRecordInput :=
  { Record := "www.example.com", Typ := "CNAME", Value := "example.com.." }

/-- The filters with no key at all. -/
def noFilters : String → Option GoValue := fun _ => none

/-- The filters that hold "type" = "A" only. -/
def typeAFilters : String → Option GoValue :=
  fun key => if key = "type" then some (GoValue.string "A") else none

/-- The data of the single-record data source configured with the name "example.com" and
the type "A", without a value. -/
def lookupData : ResourceData :=
  { id := "", isNewResource := false,
    record := "example.com", value := "", typ := "A",
    comment := "", account_id := "", zone := "", editable := "" }

/-- The data of the single-record data source configured with the name "example.com", the
type "A" and the value "192.0.2.1". -/
def lookupDataWithValue : ResourceData :=
  { lookupData with value := "192.0.2.1" }

/-! ## Lemmas on the cache -/

theorem GetRecords_empty_ok {τ : Type} (client : DNSRecordLister τ) (s s1 : τ)
    (L : Slice DNSRecord) (h : client.ListDNSRecords s = ((L, none), s1)) :
    cache.GetRecords { cachedRecords := none } client s
      = ((some (Slice.elems L), none), { cachedRecords := L }, s1) := by
  simp [cache.GetRecords, h, Slice.clone]

theorem GetRecords_empty_err {τ : Type} (client : DNSRecordLister τ) (s s1 : τ)
    (r : Slice DNSRecord) (m : String) (h : client.ListDNSRecords s = ((r, some m), s1)) :
    cache.GetRecords { cachedRecords := none } client s
      = ((none, some ("failed to list DNS records" ++ ": " ++ m)),
          { cachedRecords := none }, s1) := by
  simp [cache.GetRecords, h, errors.Wrap]

theorem GetRecords_populated {τ : Type} (client : DNSRecordLister τ) (s : τ)
    (S : List DNSRecord) :
    cache.GetRecords { cachedRecords := some S } client s
      = ((some S, none), { cachedRecords := some S }, s) := by
  simp [cache.GetRecords, Slice.clone, Slice.elems]

theorem counting_list {τ : Type} (client : DNSRecordLister τ) (s s1 : τ) (k : Nat)
    (r : Slice DNSRecord × error) (h : client.ListDNSRecords s = (r, s1)) :
    (DNSRecordLister.counting client).ListDNSRecords (s, k) = (r, (s1, k + 1)) := by
  simp [DNSRecordLister.counting, h]

theorem getRecordsRun_populated {τ : Type} (client : DNSRecordLister τ) (S : List DNSRecord)
    (n : Nat) (s : τ) :
    getRecordsRun client n { cachedRecords := some S } s
      = (List.replicate n (some S, none), { cachedRecords := some S }, s) := by
  induction n with
  | zero => rfl
  | succ n ih => simp [getRecordsRun, GetRecords_populated, ih, List.replicate_succ]

theorem Invalidate_iterate (c : cache) (n : Nat) :
    cache.Invalidate^[n + 1] c = { cachedRecords := none } := by
  induction n generalizing c with
  | zero => rfl
  | succ n ih => rw [Function.iterate_succ_apply]; exact ih _

/-! ## Theorems on `cache.GetRecords` and `cache.Invalidate` -/

/-- C1 (as stated, refuted): a lister whose list call succeeds with the `nil` slice is called
by `GetRecords` on an empty cache, and the slot is still empty (`nil`) afterwards, not
populated. -/
theorem C1_nil_slice_leaves_slot_empty :
    nilLister.ListDNSRecords () = ((none, none), ()) ∧
    (cache.GetRecords { cachedRecords := none } nilLister ()).1 = (some [], none) ∧
    (cache.GetRecords { cachedRecords := none } nilLister ()).2.1.cachedRecords = none := by
  decide

/-- C1 (amended): for every empty cache and every lister whose list call succeeds with the
slice `L`, `GetRecords` calls the lister exactly once, stores `L` in the slot, and returns a
fresh slice with the elements of `L` and no error; the slot is populated afterwards exactly
when `L` is a non-nil slice. -/
theorem C1_GetRecords_first_call_fetches {τ : Type} (client : DNSRecordLister τ) (s s1 : τ)
    (k : Nat) (L : Slice DNSRecord) (h : client.ListDNSRecords s = ((L, none), s1)) :
    cache.GetRecords { cachedRecords := none } (DNSRecordLister.counting client) (s, k)
      = ((some (Slice.elems L), none), { cachedRecords := L }, (s1, k + 1)) ∧
    ((cache.GetRecords { cachedRecords := none } (DNSRecordLister.counting client)
        (s, k)).2.1.cachedRecords ≠ none ↔ L ≠ none) := by
  have h1 := GetRecords_empty_ok (DNSRecordLister.counting client) (s, k) (s1, k + 1) L
    (counting_list client s s1 k (L, none) h)
  refine ⟨h1, ?_⟩
  rw [h1]

/-- C1 (amended), at the fixture of `first_call_fetches_from_api`: one list call, both
records returned, the slot populated. -/
theorem C1_GetRecords_first_call_fetches_witness :
    MockDreamhostClient.ListDNSRecords testMock
      = ((some testRecords, none), { testMock with listRecordsCalls := 1 }) ∧
    cache.GetRecords { cachedRecords := none } (DNSRecordLister.counting mockLister)
        (testMock, 0)
      = ((some testRecords, none), { cachedRecords := some testRecords },
          ({ testMock with listRecordsCalls := 1 }, 1)) :=
  ⟨by rfl,
   (C1_GetRecords_first_call_fetches mockLister testMock
      { testMock with listRecordsCalls := 1 } 0 (some testRecords) (by rfl)).1⟩

/-- C2: on a cache whose slot holds the snapshot `S`, `GetRecords` returns a slice equal to
`S` and no error, does not call the lister (its state and call counter are unchanged), and
leaves the slot holding `S`. -/
theorem C2_GetRecords_populated_uses_cache {τ : Type} (client : DNSRecordLister τ) (s : τ)
    (k : Nat) (S : List DNSRecord) :
    cache.GetRecords { cachedRecords := some S } (DNSRecordLister.counting client) (s, k)
      = ((some S, none), { cachedRecords := some S }, (s, k)) :=
  GetRecords_populated (DNSRecordLister.counting client) (s, k) S

/-- C3 (as stated, refuted): against the mock of `error_handling`, whose list call fails,
two `GetRecords` calls on an empty cache with no `Invalidate` in between invoke the upstream
list twice and leave the slot empty; the same happens against a lister whose list call
succeeds with the `nil` slice. -/
theorem C3_failing_upstream_listed_twice :
    MockDreamhostClient.GetListRecordsCalls
      (getRecordsRun mockLister 2 { cachedRecords := none } failingMock).2.2 = 2 ∧
    (getRecordsRun mockLister 2 { cachedRecords := none } failingMock).2.1.cachedRecords
      = none ∧
    (getRecordsRun (DNSRecordLister.counting nilLister) 2 { cachedRecords := none }
      ((), 0)).2.2.2 = 2 := by
  decide

/-- C3 (amended): for every lister whose first list call succeeds with a non-nil slice
holding `L`, and every number `n` of consecutive `GetRecords` calls that start on an empty
cache with no `Invalidate` in between, the lister is invoked at most once in total (once
when `n > 0`, never when `n = 0`), every call returns `L` with no error, and so the returned
snapshots are pairwise equal. -/
theorem C3_GetRecords_run_fetches_once {τ : Type} (client : DNSRecordLister τ) (s s1 : τ)
    (k n : Nat) (L : List DNSRecord) (h : client.ListDNSRecords s = ((some L, none), s1)) :
    (getRecordsRun (DNSRecordLister.counting client) n { cachedRecords := none } (s, k)).1
      = List.replicate n (some L, none) ∧
    (getRecordsRun (DNSRecordLister.counting client) n { cachedRecords := none } (s, k)).2.2.2
      = (if n = 0 then k else k + 1) ∧
    (getRecordsRun (DNSRecordLister.counting client) n { cachedRecords := none } (s, k)).2.2.2
      ≤ k + 1 ∧
    (∀ a ∈ (getRecordsRun (DNSRecordLister.counting client) n
          { cachedRecords := none } (s, k)).1,
      ∀ b ∈ (getRecordsRun (DNSRecordLister.counting client) n
          { cachedRecords := none } (s, k)).1, a = b) := by
  cases n with
  | zero => simp [getRecordsRun]
  | succ n =>
    have h1 := GetRecords_empty_ok (DNSRecordLister.counting client) (s, k) (s1, k + 1)
      (some L) (counting_list client s s1 k (some L, none) h)
    have h2 : getRecordsRun (DNSRecordLister.counting client) (n + 1)
        { cachedRecords := none } (s, k)
        = (List.replicate (n + 1) (some L, none), { cachedRecords := some L }, (s1, k + 1)) := by
      simp [getRecordsRun, h1, getRecordsRun_populated, Slice.elems, List.replicate_succ]
    rw [h2]
    refine ⟨rfl, by simp, by simp, ?_⟩
    intro a ha b hb
    rw [List.eq_of_mem_replicate ha, List.eq_of_mem_replicate hb]

/-- C3 (amended), at the fixture of `second_call_uses_cache` extended to three calls: one
upstream call, three equal results. -/
theorem C3_GetRecords_run_fetches_once_witness :
    MockDreamhostClient.ListDNSRecords testMock
      = ((some testRecords, none), { testMock with listRecordsCalls := 1 }) ∧
    (getRecordsRun (DNSRecordLister.counting mockLister) 3 { cachedRecords := none }
        (testMock, 0)).1 = List.replicate 3 (some testRecords, none) ∧
    (getRecordsRun (DNSRecordLister.counting mockLister) 3 { cachedRecords := none }
        (testMock, 0)).2.2.2 = 1 :=
  ⟨by rfl,
   (C3_GetRecords_run_fetches_once mockLister testMock
      { testMock with listRecordsCalls := 1 } 0 3 testRecords (by rfl)).1,
   (C3_GetRecords_run_fetches_once mockLister testMock
      { testMock with listRecordsCalls := 1 } 0 3 testRecords (by rfl)).2.1⟩

/-- C4: for every lister whose list call fails with message `m`, `GetRecords` on an empty
cache returns the `nil` slice and an error whose message is the prefix
"failed to list DNS records", the separator of `errors.Wrap`, and `m` (so it starts with the
prefix and contains `m`); the slot stays empty, and the next `GetRecords` calls the lister
again. -/
theorem C4_GetRecords_error_wrapped {τ : Type} (client : DNSRecordLister τ) (s s1 : τ)
    (k : Nat) (r : Slice DNSRecord) (m : String)
    (h : client.ListDNSRecords s = ((r, some m), s1)) :
    cache.GetRecords { cachedRecords := none } (DNSRecordLister.counting client) (s, k)
      = ((none, some ("failed to list DNS records" ++ ": " ++ m)),
          { cachedRecords := none }, (s1, k + 1)) ∧
    (∃ pre post : String, "failed to list DNS records" ++ ": " ++ m = pre ++ m ++ post) ∧
    (∃ rest : String,
      "failed to list DNS records" ++ ": " ++ m = "failed to list DNS records" ++ rest) ∧
    (cache.GetRecords
        (cache.GetRecords { cachedRecords := none } (DNSRecordLister.counting client)
          (s, k)).2.1
        (DNSRecordLister.counting client)
        (cache.GetRecords { cachedRecords := none } (DNSRecordLister.counting client)
          (s, k)).2.2).2.2.2 = k + 2 := by
  have h1 := GetRecords_empty_err (DNSRecordLister.counting client) (s, k) (s1, k + 1) r m
    (counting_list client s s1 k (r, some m) h)
  refine ⟨h1, ⟨"failed to list DNS records" ++ ": ", "", by simp⟩,
    ⟨": " ++ m, String.append_assoc _ _ _⟩, ?_⟩
  rw [h1]
  simp only [cache.GetRecords, DNSRecordLister.counting]
  split
  · split <;> rfl
  · rename_i hne
    exact absurd trivial hne

/-- C4, at the fixture of `error_handling`: the message is
"failed to list DNS records: API error" and the slot stays empty. -/
theorem C4_GetRecords_error_wrapped_witness :
    MockDreamhostClient.ListDNSRecords failingMock
      = ((none, some "API error"), { failingMock with listRecordsCalls := 1 }) ∧
    cache.GetRecords { cachedRecords := none } (DNSRecordLister.counting mockLister)
        (failingMock, 0)
      = ((none, some "failed to list DNS records: API error"),
          { cachedRecords := none }, ({ failingMock with listRecordsCalls := 1 }, 1)) :=
  ⟨by rfl,
   (C4_GetRecords_error_wrapped mockLister failingMock
      { failingMock with listRecordsCalls := 1 } 0 none "API error" (by rfl)).1⟩

/-- C5: for every cache state and every `n ≥ 1`, `n` consecutive `Invalidate` calls leave
the cache exactly as one `Invalidate` does, with the slot empty; a `GetRecords` issued right
after them calls the lister exactly once, and when that list call succeeds with the slice
`L` it returns the elements of `L` with no error. -/
theorem C5_Invalidate_idempotent_then_one_fetch {τ : Type} (c : cache) (n : Nat)
    (hn : 1 ≤ n) (client : DNSRecordLister τ) (s : τ) (k : Nat) :
    cache.Invalidate^[n] c = cache.Invalidate c ∧
    (cache.Invalidate^[n] c).cachedRecords = none ∧
    (cache.GetRecords (cache.Invalidate^[n] c) (DNSRecordLister.counting client)
        (s, k)).2.2 = ((client.ListDNSRecords s).2, k + 1) ∧
    (∀ (L : Slice DNSRecord) (s1 : τ), client.ListDNSRecords s = ((L, none), s1) →
      (cache.GetRecords (cache.Invalidate^[n] c) (DNSRecordLister.counting client)
        (s, k)).1 = (some (Slice.elems L), none)) := by
  obtain ⟨j, rfl⟩ : ∃ j, n = j + 1 := ⟨n - 1, by omega⟩
  rw [Invalidate_iterate]
  refine ⟨rfl, rfl, ?_, ?_⟩
  · simp only [cache.GetRecords, DNSRecordLister.counting]
    split
    · split <;> rfl
    · rename_i hne
      exact absurd trivial hne
  · intro L s1 h
    rw [GetRecords_empty_ok (DNSRecordLister.counting client) (s, k) (s1, k + 1) L
      (counting_list client s s1 k (L, none) h)]

/-- C5, at the fixture of `invalidate_clears_cache` with three `Invalidate` calls on a
populated cache. -/
theorem C5_Invalidate_idempotent_then_one_fetch_witness :
    1 ≤ 3 ∧
    cache.Invalidate^[3] { cachedRecords := some testRecords }
      = cache.Invalidate { cachedRecords := some testRecords } ∧
    (cache.GetRecords (cache.Invalidate^[3] { cachedRecords := some testRecords })
        (DNSRecordLister.counting mockLister) (testMock, 1)).2.2
      = ((MockDreamhostClient.ListDNSRecords testMock).2, 2) :=
  ⟨by decide,
   (C5_Invalidate_idempotent_then_one_fetch { cachedRecords := some testRecords } 3
      (by decide) mockLister testMock 1).1,
   (C5_Invalidate_idempotent_then_one_fetch { cachedRecords := some testRecords } 3
      (by decide) mockLister testMock 1).2.2.1⟩

/-! ## Lemmas on the caching client -/

theorem GetDNSRecordCached_populated {σ : Type} (api : Client σ) (s : σ)
    (S : List DNSRecord) (recordInput : DNSRecordInput) :
    cachedDreamhostClient.GetDNSRecordCached api
        { client := s, cache := { cachedRecords := some S } } recordInput
      = ((findRecord recordInput S, none),
          { client := s, cache := { cachedRecords := some S } }) := by
  simp [cachedDreamhostClient.GetDNSRecordCached, GetRecords_populated, Slice.elems]

theorem GetDNSRecordCached_empty_ok {σ : Type} (api : Client σ) (s s1 : σ)
    (L : Slice DNSRecord) (recordInput : DNSRecordInput)
    (h : api.ListDNSRecords s = ((L, none), s1)) :
    cachedDreamhostClient.GetDNSRecordCached api
        { client := s, cache := { cachedRecords := none } } recordInput
      = ((findRecord recordInput (Slice.elems L), none),
          { client := s1, cache := { cachedRecords := L } }) := by
  have hl : (cachedDreamhostClient.lister api).ListDNSRecords
      { client := s, cache := { cachedRecords := none } }
      = ((L, none), { client := s1, cache := { cachedRecords := none } }) := by
    simp [cachedDreamhostClient.lister, cachedDreamhostClient.ListDNSRecords, h]
  simp [cachedDreamhostClient.GetDNSRecordCached, GetRecords_empty_ok _ _ _ _ hl, Slice.elems]

theorem findRecord_eq_find (recordInput : DNSRecordInput) (S : List DNSRecord) :
    findRecord recordInput S = S.find? (fun r => recordMatches r recordInput) := by
  induction S with
  | nil => rfl
  | cons r rest ih =>
    simp only [findRecord, List.find?_cons]
    cases recordMatches r recordInput <;> simp [ih]

theorem findRecord_some_iff (recordInput : DNSRecordInput) (S : List DNSRecord)
    (r : DNSRecord) :
    findRecord recordInput S = some r ↔
      recordMatches r recordInput = true ∧
      ∃ pre post, S = pre ++ r :: post ∧ ∀ y ∈ pre, recordMatches y recordInput = false := by
  rw [findRecord_eq_find, List.find?_eq_some]
  simp

theorem findRecord_isSome_of_mem (recordInput : DNSRecordInput) (S : List DNSRecord)
    (x : DNSRecord) (hx : x ∈ S) (hm : recordMatches x recordInput = true) :
    ∃ r, findRecord recordInput S = some r := by
  rw [findRecord_eq_find]
  cases hf : S.find? (fun r => recordMatches r recordInput) with
  | some r => exact ⟨r, rfl⟩
  | none =>
    rw [List.find?_eq_none] at hf
    exact absurd hm (by simpa using hf x hx)

theorem string_append_right_cancel (a b c : String) (h : a ++ c = b ++ c) : a = b := by
  have h1 : (a ++ c).data = (b ++ c).data := by rw [h]
  simp only [String.data_append] at h1
  exact String.ext (List.append_cancel_right h1)

theorem recordMatches_iff (r : DNSRecord) (recordInput : DNSRecordInput) :
    recordMatches r recordInput = true ↔
      r.Record = recordInput.Record ∧ r.Typ = recordInput.Typ ∧
        (r.Value = recordInput.Value ∨ r.Value ++ "." = recordInput.Value) := by
  simp [recordMatches, and_assoc]

theorem GetDNSRecord_enabled_of_scans {σ : Type} (api : Client σ)
    (c : cachedDreamhostClient σ) (S : List DNSRecord) (recordInput : DNSRecordInput)
    (h : scansSnapshot api c S) :
    (cachedDreamhostClient.GetDNSRecord api c recordInput true).1
      = (findRecord recordInput S, none) := by
  obtain ⟨s, ⟨cr⟩⟩ := c
  simp only [cachedDreamhostClient.GetDNSRecord, if_true]
  rcases h with h | ⟨h, he, hl⟩
  · simp only at h
    subst h
    rw [GetDNSRecordCached_populated]
  · simp only at h he hl
    subst h
    have hh : api.ListDNSRecords s
        = (((api.ListDNSRecords s).1.1, none), (api.ListDNSRecords s).2) := by
      rw [← he]
    rw [GetDNSRecordCached_empty_ok api s _ _ recordInput hh, hl]

theorem findRecord_append_cons (recordInput : DNSRecordInput) (pre post : List DNSRecord)
    (r : DNSRecord) (hr : recordMatches r recordInput = true) :
    ∃ found, findRecord recordInput (pre ++ r :: post) = some found ∧
      recordMatches found recordInput = true ∧ (found = r ∨ found ∈ pre) := by
  induction pre with
  | nil => exact ⟨r, by simp [findRecord, hr], hr, Or.inl rfl⟩
  | cons x pre ih =>
    by_cases hx : recordMatches x recordInput = true
    · exact ⟨x, by simp [findRecord, hx], hx, Or.inr (List.mem_cons_self x pre)⟩
    · obtain ⟨found, h1, h2, h3⟩ := ih
      refine ⟨found, by simp [findRecord, hx, h1], h2, ?_⟩
      rcases h3 with h3 | h3
      · exact Or.inl h3
      · exact Or.inr (List.mem_cons_of_mem x h3)

/-! ## Theorems on the caching client -/

/-- C6: for every cache state and record input, `AddDNSRecord` calls the upstream add exactly
once (and nothing else upstream) and returns its result unchanged; if the upstream add
succeeds the cache slot is empty afterwards, and if it fails the cache is exactly what it
was before the call. -/
theorem C6_AddDNSRecord_invalidates_on_success {σ : Type} (api : Client σ) (s : σ)
    (log : List Call) (ca : cache) (recordInput : DNSRecordInput) :
    (cachedDreamhostClient.AddDNSRecord (Client.logging api)
        { client := (s, log), cache := ca } recordInput).1
      = (api.AddDNSRecord recordInput s).1 ∧
    (cachedDreamhostClient.AddDNSRecord (Client.logging api)
        { client := (s, log), cache := ca } recordInput).2.client
      = ((api.AddDNSRecord recordInput s).2, log ++ [Call.add recordInput]) ∧
    ((api.AddDNSRecord recordInput s).1 = none →
      (cachedDreamhostClient.AddDNSRecord (Client.logging api)
        { client := (s, log), cache := ca } recordInput).2.cache.cachedRecords = none) ∧
    ((api.AddDNSRecord recordInput s).1 ≠ none →
      (cachedDreamhostClient.AddDNSRecord (Client.logging api)
        { client := (s, log), cache := ca } recordInput).2.cache = ca) := by
  simp only [cachedDreamhostClient.AddDNSRecord, Client.logging]
  by_cases h : (api.AddDNSRecord recordInput s).1 = none
  · simp [h, cache.Invalidate]
  · simp [h]

/-- C6, at the fixture of `add_record_invalidates_cache` (the add succeeds on a populated
cache, which is emptied) and with `SetAddRecordError` (the add fails, the cache is kept). -/
theorem C6_AddDNSRecord_invalidates_on_success_witness :
    (MockDreamhostClient.AddDNSRecord newRecordInput testMock).1 = none ∧
    (cachedDreamhostClient.AddDNSRecord (Client.logging mockClient)
        { client := (testMock, []), cache := { cachedRecords := some testRecords } }
        newRecordInput).2.cache.cachedRecords = none ∧
    (MockDreamhostClient.AddDNSRecord newRecordInput addFailingMock).1 ≠ none ∧
    (cachedDreamhostClient.AddDNSRecord (Client.logging mockClient)
        { client := (addFailingMock, []), cache := { cachedRecords := some testRecords } }
        newRecordInput).2.cache = { cachedRecords := some testRecords } :=
  ⟨by decide,
   (C6_AddDNSRecord_invalidates_on_success mockClient testMock []
      { cachedRecords := some testRecords } newRecordInput).2.2.1 (by decide),
   by decide,
   (C6_AddDNSRecord_invalidates_on_success mockClient addFailingMock []
      { cachedRecords := some testRecords } newRecordInput).2.2.2 (by decide)⟩

/-- C7: for every cache state and record input, `RemoveDNSRecord` calls the upstream remove
exactly once and returns its result unchanged; if the upstream remove succeeds the cache
slot is empty afterwards and the next `GetRecords` calls the upstream list again, and if it
fails the cache is exactly what it was before the call. -/
theorem C7_RemoveDNSRecord_invalidates_on_success {σ : Type} (api : Client σ) (s : σ)
    (log : List Call) (ca : cache) (recordInput : DNSRecordInput) :
    (cachedDreamhostClient.RemoveDNSRecord (Client.logging api)
        { client := (s, log), cache := ca } recordInput).1
      = (api.RemoveDNSRecord recordInput s).1 ∧
    (cachedDreamhostClient.RemoveDNSRecord (Client.logging api)
        { client := (s, log), cache := ca } recordInput).2.client
      = ((api.RemoveDNSRecord recordInput s).2, log ++ [Call.remove recordInput]) ∧
    ((api.RemoveDNSRecord recordInput s).1 = none →
      (cachedDreamhostClient.RemoveDNSRecord (Client.logging api)
        { client := (s, log), cache := ca } recordInput).2.cache.cachedRecords = none ∧
      (cache.GetRecords
        (cachedDreamhostClient.RemoveDNSRecord (Client.logging api)
          { client := (s, log), cache := ca } recordInput).2.cache
        (cachedDreamhostClient.lister (Client.logging api))
        (cachedDreamhostClient.RemoveDNSRecord (Client.logging api)
          { client := (s, log), cache := ca } recordInput).2).2.2.client.2
        = log ++ [Call.remove recordInput, Call.list]) ∧
    ((api.RemoveDNSRecord recordInput s).1 ≠ none →
      (cachedDreamhostClient.RemoveDNSRecord (Client.logging api)
        { client := (s, log), cache := ca } recordInput).2.cache = ca) := by
  simp only [cachedDreamhostClient.RemoveDNSRecord, Client.logging]
  by_cases h : (api.RemoveDNSRecord recordInput s).1 = none
  · simp only [h, if_true, true_and, ne_eq, not_true_eq_false, false_implies, and_true,
      cache.Invalidate, true_implies]
    simp only [cache.GetRecords, cachedDreamhostClient.lister,
      cachedDreamhostClient.ListDNSRecords, if_true]
    split <;> simp
  · simp [h]

/-- C7, at the fixtures of `successful_remove_invalidates_cache` and
`error_does_not_invalidate_cache`. -/
theorem C7_RemoveDNSRecord_invalidates_on_success_witness :
    (MockDreamhostClient.RemoveDNSRecord presentRecordInput testMock).1 = none ∧
    (cachedDreamhostClient.RemoveDNSRecord (Client.logging mockClient)
        { client := (testMock, []), cache := { cachedRecords := some testRecords } }
        presentRecordInput).2.cache.cachedRecords = none ∧
    (MockDreamhostClient.RemoveDNSRecord presentRecordInput removeFailingMock).1 ≠ none ∧
    (cachedDreamhostClient.RemoveDNSRecord (Client.logging mockClient)
        { client := (removeFailingMock, []), cache := { cachedRecords := some testRecords } }
        presentRecordInput).2.cache = { cachedRecords := some testRecords } :=
  ⟨by decide,
   ((C7_RemoveDNSRecord_invalidates_on_success mockClient testMock []
      { cachedRecords := some testRecords } presentRecordInput).2.2.1 (by decide)).1,
   by decide,
   (C7_RemoveDNSRecord_invalidates_on_success mockClient removeFailingMock []
      { cachedRecords := some testRecords } presentRecordInput).2.2.2 (by decide)⟩

/-- C8 (the code at the failing input): in the fixture of
`cache_enabled_cname_with_trailing_dot` the upstream holds the CNAME record with value
"example.com." and the lookup asks for "example.com" with the cache enabled; the test
requires a non-nil result with value "example.com.", the code returns `nil, nil`. -/
theorem C8_stored_trailing_dot_not_found :
    (MockDreamhostClient.ListDNSRecords cnameDotClient.client).1
      = (some [cnameDotRecord], none) ∧
    (cachedDreamhostClient.GetDNSRecord mockClient cnameDotClient cnameInput true).1
      = (none, none) ∧
    recordMatches cnameDotRecord cnameInput = false := by
  decide

/-- C9 (as stated, refuted): the snapshot holds the TXT record ("example.com", TXT, "hello")
stored without a trailing dot, but an earlier entry is ("example.com", TXT, "hello."); the
lookup for ("example.com", TXT, "hello.") with the cache enabled returns that earlier entry,
whose value is "hello." and not "hello". -/
theorem C9_earlier_dotted_entry_wins :
    txtRecord ∈ [txtDotRecord, txtRecord] ∧
    txtClient.cache.cachedRecords = some [txtDotRecord, txtRecord] ∧
    (cachedDreamhostClient.GetDNSRecord mockClient txtClient
        { Record := txtRecord.Record, Typ := txtRecord.Typ, Value := txtRecord.Value ++ "." }
        true).1 = (some txtDotRecord, none) ∧
    txtDotRecord.Value ≠ txtRecord.Value := by
  decide

/-- C9 (amended): for every name `n`, type `t` and value `v`, if the snapshot contains a
record `r` = (`n`, `t`, `v`) stored without the trailing dot, then `GetDNSRecord` with input
(`n`, `t`, `v` + ".") and the cache enabled returns a non-absent record and no error; the
record has name `n`, type `t` and value `v` or `v` + ".", and its value is `v` whenever no
snapshot entry before `r` is a record (`n`, `t`, `v` + "."), which would win as the first
match. -/
theorem C9_GetDNSRecord_input_trailing_dot {σ : Type} (api : Client σ)
    (c : cachedDreamhostClient σ) (pre post : List DNSRecord) (r : DNSRecord)
    (n t v : String) (hS : scansSnapshot api c (pre ++ r :: post))
    (hn : r.Record = n) (ht : r.Typ = t) (hv : r.Value = v) :
    ∃ found : DNSRecord,
      (cachedDreamhostClient.GetDNSRecord api c
          { Record := n, Typ := t, Value := v ++ "." } true).1 = (some found, none) ∧
      found.Record = n ∧ found.Typ = t ∧ (found.Value = v ∨ found.Value = v ++ ".") ∧
      ((∀ x ∈ pre, ¬ (x.Record = n ∧ x.Typ = t ∧ x.Value = v ++ ".")) → found.Value = v) := by
  have hr : recordMatches r { Record := n, Typ := t, Value := v ++ "." } = true := by
    rw [recordMatches_iff]
    exact ⟨hn, ht, Or.inr (by rw [hv])⟩
  obtain ⟨found, h1, h2, h3⟩ := findRecord_append_cons _ pre post r hr
  rw [recordMatches_iff] at h2
  obtain ⟨f1, f2, f3⟩ := h2
  have f4 : found.Value = v ∨ found.Value = v ++ "." := by
    rcases f3 with f3 | f3
    · exact Or.inr f3
    · exact Or.inl (string_append_right_cancel _ _ _ f3)
  refine ⟨found, ?_, f1, f2, f4, ?_⟩
  · rw [GetDNSRecord_enabled_of_scans api c _ _ hS, h1]
  · intro hpre
    rcases h3 with h3 | h3
    · rw [h3, hv]
    · rcases f4 with f4 | f4
      · exact f4
      · exact absurd ⟨f1, f2, f4⟩ (hpre found h3)

/-- C9 (amended), at the CNAME record stored as "example.com" and queried as
"example.com.": it is found, with value "example.com". -/
theorem C9_GetDNSRecord_input_trailing_dot_witness :
    scansSnapshot mockClient cnameClient ([] ++ cnameRecord :: []) ∧
    ∃ found : DNSRecord,
      (cachedDreamhostClient.GetDNSRecord mockClient cnameClient
          { Record := "www.example.com", Typ := "CNAME", Value := "example.com" ++ "." }
          true).1 = (some found, none) ∧
      found.Record = "www.example.com" ∧ found.Typ = "CNAME" ∧
      (found.Value = "example.com" ∨ found.Value = "example.com" ++ ".") ∧
      ((∀ x ∈ ([] : List DNSRecord),
          ¬ (x.Record = "www.example.com" ∧ x.Typ = "CNAME" ∧
              x.Value = "example.com" ++ ".")) →
        found.Value = "example.com") :=
  ⟨Or.inl rfl,
   C9_GetDNSRecord_input_trailing_dot mockClient cnameClient [] [] cnameRecord
     "www.example.com" "CNAME" "example.com" (Or.inl rfl) rfl rfl rfl⟩

/-- C10: for every snapshot `S` scanned by the lookup (held by the cache, or fetched into an
empty cache) that contains an entry whose name, type and value all equal the input's,
`GetDNSRecord` with the cache enabled returns a non-absent record and no error; the record
equals, in all seven fields, the earliest entry of `S` that satisfies the matching rule of
the lookup: it matches, and no entry before it does. -/
theorem C10_GetDNSRecord_first_match_wins {σ : Type} (api : Client σ)
    (c : cachedDreamhostClient σ) (S : List DNSRecord) (recordInput : DNSRecordInput)
    (x : DNSRecord) (hS : scansSnapshot api c S) (hx : x ∈ S)
    (hn : x.Record = recordInput.Record) (ht : x.Typ = recordInput.Typ)
    (hv : x.Value = recordInput.Value) :
    ∃ (r : DNSRecord) (pre post : List DNSRecord),
      (cachedDreamhostClient.GetDNSRecord api c recordInput true).1 = (some r, none) ∧
      S = pre ++ r :: post ∧
      recordMatches r recordInput = true ∧
      (∀ y ∈ pre, recordMatches y recordInput = false) := by
  have hm : recordMatches x recordInput = true := by
    rw [recordMatches_iff]
    exact ⟨hn, ht, Or.inl hv⟩
  obtain ⟨r, hr⟩ := findRecord_isSome_of_mem recordInput S x hx hm
  obtain ⟨h1, pre, post, h2, h3⟩ := (findRecord_some_iff recordInput S r).1 hr
  exact ⟨r, pre, post, by rw [GetDNSRecord_enabled_of_scans api c S _ hS, hr], h2, h1, h3⟩

/-- C10, at the first test-suite fixture: looking up the first of the two records on an
empty cache returns that record. -/
theorem C10_GetDNSRecord_first_match_wins_witness :
    scansSnapshot mockClient testClient testRecords ∧
    ∃ (r : DNSRecord) (pre post : List DNSRecord),
      (cachedDreamhostClient.GetDNSRecord mockClient testClient presentRecordInput true).1
        = (some r, none) ∧
      testRecords = pre ++ r :: post ∧
      recordMatches r presentRecordInput = true ∧
      (∀ y ∈ pre, recordMatches y presentRecordInput = false) :=
  ⟨Or.inr ⟨rfl, rfl, rfl⟩,
   C10_GetDNSRecord_first_match_wins mockClient testClient testRecords presentRecordInput
     { Record := "example.com", Typ := ARecordType, Value := "192.0.2.1",
       Zone := "", Comment := "", AccountID := "", Editable := "" }
     (Or.inr ⟨rfl, rfl, rfl⟩) (by decide) rfl rfl rfl⟩

/-! ## Lemmas on the lookup with the cache disabled -/

theorem logging_list {σ : Type} (api : Client σ) (s s1 : σ) (log : List Call)
    (r : Slice DNSRecord × error) (h : api.ListDNSRecords s = (r, s1)) :
    (Client.logging api).ListDNSRecords (s, log) = (r, (s1, log ++ [Call.list])) := by
  simp [Client.logging, h]

theorem GetDNSRecordCached_empty_err {σ : Type} (api : Client σ) (s s1 : σ)
    (r : Slice DNSRecord) (m : String) (recordInput : DNSRecordInput)
    (h : api.ListDNSRecords s = ((r, some m), s1)) :
    cachedDreamhostClient.GetDNSRecordCached api
        { client := s, cache := { cachedRecords := none } } recordInput
      = ((none, some ("failed to list DNS records" ++ ": " ++ m)),
          { client := s1, cache := { cachedRecords := none } }) := by
  have hl : (cachedDreamhostClient.lister api).ListDNSRecords
      { client := s, cache := { cachedRecords := none } }
      = ((none, some m), { client := s1, cache := { cachedRecords := none } }) := by
    simp [cachedDreamhostClient.lister, cachedDreamhostClient.ListDNSRecords, h]
  simp [cachedDreamhostClient.GetDNSRecordCached, GetRecords_empty_err _ _ _ _ _ hl]

theorem GetDNSRecord_disabled_refresh_err {σ : Type} (api : Client σ) (s s1 : σ) (ca : cache)
    (r : Slice DNSRecord) (m : String) (recordInput : DNSRecordInput)
    (h : api.ListDNSRecords s = ((r, some m), s1)) :
    cachedDreamhostClient.GetDNSRecord api { client := s, cache := ca } recordInput false
      = ((none, some ("failed to refresh cache" ++ ": " ++ m)),
          { client := s1, cache := ca }) := by
  simp [cachedDreamhostClient.GetDNSRecord, cachedDreamhostClient.ListDNSRecords, h,
    errors.Wrap]

theorem GetDNSRecord_disabled_refresh_ok {σ : Type} (api : Client σ) (s s1 : σ) (ca : cache)
    (L : Slice DNSRecord) (recordInput : DNSRecordInput)
    (h : api.ListDNSRecords s = ((L, none), s1)) :
    cachedDreamhostClient.GetDNSRecord api { client := s, cache := ca } recordInput false
      = cachedDreamhostClient.GetDNSRecordCached api { client := s1, cache := ca }
          recordInput := by
  simp [cachedDreamhostClient.GetDNSRecord, cachedDreamhostClient.ListDNSRecords, h]

theorem GetDNSRecord_disabled_populated {σ : Type} (api : Client σ) (s s1 : σ)
    (S : List DNSRecord) (L : Slice DNSRecord) (recordInput : DNSRecordInput)
    (h : api.ListDNSRecords s = ((L, none), s1)) :
    cachedDreamhostClient.GetDNSRecord api
        { client := s, cache := { cachedRecords := some S } } recordInput false
      = ((findRecord recordInput S, none),
          { client := s1, cache := { cachedRecords := some S } }) := by
  rw [GetDNSRecord_disabled_refresh_ok api s s1 _ L recordInput h,
    GetDNSRecordCached_populated]

theorem findRecord_none_of_no_name_type (recordInput : DNSRecordInput) (S : List DNSRecord)
    (hno : ∀ x ∈ S, ¬ (x.Record = recordInput.Record ∧ x.Typ = recordInput.Typ)) :
    findRecord recordInput S = none := by
  rw [findRecord_eq_find, List.find?_eq_none]
  intro x hx hm
  rw [recordMatches_iff] at hm
  exact hno x hx ⟨hm.1, hm.2.1⟩

/-! ## Theorems on the lookup -/

/-- C11: for every snapshot `S` scanned by the lookup in which no entry has both its name
and its type equal to the input's, `GetDNSRecord` with the cache enabled returns the `nil`
record together with the `nil` error. -/
theorem C11_GetDNSRecord_absent_without_name_type {σ : Type} (api : Client σ)
    (c : cachedDreamhostClient σ) (S : List DNSRecord) (recordInput : DNSRecordInput)
    (hS : scansSnapshot api c S)
    (hno : ∀ x ∈ S, ¬ (x.Record = recordInput.Record ∧ x.Typ = recordInput.Typ)) :
    (cachedDreamhostClient.GetDNSRecord api c recordInput true).1 = (none, none) := by
  rw [GetDNSRecord_enabled_of_scans api c S recordInput hS,
    findRecord_none_of_no_name_type recordInput S hno]

/-- C11, at the fixture of `cache_enabled_record_not_found`. -/
theorem C11_GetDNSRecord_absent_without_name_type_witness :
    scansSnapshot mockClient notFoundClient (Slice.elems notFoundClient.client.records) ∧
    (cachedDreamhostClient.GetDNSRecord mockClient notFoundClient testRecordInput true).1
      = (none, none) :=
  ⟨Or.inr ⟨rfl, rfl, rfl⟩,
   C11_GetDNSRecord_absent_without_name_type mockClient notFoundClient
     (Slice.elems notFoundClient.client.records) testRecordInput (Or.inr ⟨rfl, rfl, rfl⟩)
     (by decide)⟩

/-- C12 (as stated, refuted): in the fixture of `api_error` the cache is empty and the
upstream list call fails; `GetDNSRecord` with the cache disabled returns after one upstream
list call, not two. -/
theorem C12_failing_refresh_lists_once :
    failingClient.cache.cachedRecords = none ∧
    MockDreamhostClient.GetListRecordsCalls failingClient.client = 0 ∧
    MockDreamhostClient.GetListRecordsCalls
      (cachedDreamhostClient.GetDNSRecord mockClient failingClient testRecordInput
        false).2.client = 1 := by
  decide

/-- C12 (amended): for every cache state and every input, `GetDNSRecord` with the cache
disabled starts with a direct upstream list call, so it performs at least one; starting from
an empty cache it performs exactly two when the refresh list call succeeds (one for the
refresh, one for the search) and exactly one when the refresh fails; starting from a
populated cache it performs exactly one. -/
theorem C12_GetDNSRecord_disabled_list_calls {σ : Type} (api : Client σ) (s : σ)
    (log : List Call) (ca : cache) (recordInput : DNSRecordInput) :
    (∃ rest : List Call,
      (cachedDreamhostClient.GetDNSRecord (Client.logging api)
        { client := (s, log), cache := ca } recordInput false).2.client.2
        = log ++ Call.list :: rest) ∧
    (ca.cachedRecords = none → (api.ListDNSRecords s).1.2 = none →
      (cachedDreamhostClient.GetDNSRecord (Client.logging api)
        { client := (s, log), cache := ca } recordInput false).2.client.2
        = log ++ [Call.list, Call.list]) ∧
    ((api.ListDNSRecords s).1.2 ≠ none →
      (cachedDreamhostClient.GetDNSRecord (Client.logging api)
        { client := (s, log), cache := ca } recordInput false).2.client.2
        = log ++ [Call.list]) ∧
    (ca.cachedRecords ≠ none →
      (cachedDreamhostClient.GetDNSRecord (Client.logging api)
        { client := (s, log), cache := ca } recordInput false).2.client.2
        = log ++ [Call.list]) := by
  obtain ⟨cr⟩ := ca
  rcases h : api.ListDNSRecords s with ⟨⟨L, e⟩, s1⟩
  cases e with
  | some m =>
    rw [GetDNSRecord_disabled_refresh_err (Client.logging api) (s, log)
      (s1, log ++ [Call.list]) _ L m recordInput (logging_list api s s1 log _ h)]
    exact ⟨⟨[], rfl⟩, by simp, by simp, by simp⟩
  | none =>
    rw [GetDNSRecord_disabled_refresh_ok (Client.logging api) (s, log)
      (s1, log ++ [Call.list]) _ L recordInput (logging_list api s s1 log _ h)]
    cases cr with
    | some S =>
      rw [GetDNSRecordCached_populated]
      exact ⟨⟨[], rfl⟩, by simp, by simp, by simp⟩
    | none =>
      rcases h2 : api.ListDNSRecords s1 with ⟨⟨L2, e2⟩, s2⟩
      cases e2 with
      | some m2 =>
        rw [GetDNSRecordCached_empty_err (Client.logging api) (s1, log ++ [Call.list])
          (s2, log ++ [Call.list] ++ [Call.list]) L2 m2 recordInput
          (logging_list api s1 s2 _ _ h2)]
        exact ⟨⟨[Call.list], by simp⟩, by simp, by simp, by simp⟩
      | none =>
        rw [GetDNSRecordCached_empty_ok (Client.logging api) (s1, log ++ [Call.list])
          (s2, log ++ [Call.list] ++ [Call.list]) L2 recordInput
          (logging_list api s1 s2 _ _ h2)]
        exact ⟨⟨[Call.list], by simp⟩, by simp, by simp, by simp⟩

/-- C12 (amended), at the fixture of `cache_disabled_refreshes_and_searches` (empty cache,
succeeding upstream: two list calls) and on a populated cache (one list call). -/
theorem C12_GetDNSRecord_disabled_list_calls_witness :
    (cachedDreamhostClient.GetDNSRecord (Client.logging mockClient)
        { client := (testMock, []), cache := { cachedRecords := none } }
        presentRecordInput false).2.client.2 = [] ++ [Call.list, Call.list] ∧
    (cachedDreamhostClient.GetDNSRecord (Client.logging mockClient)
        { client := (testMock, []), cache := { cachedRecords := some testRecords } }
        presentRecordInput false).2.client.2 = [] ++ [Call.list] :=
  ⟨(C12_GetDNSRecord_disabled_list_calls mockClient testMock []
      { cachedRecords := none } presentRecordInput).2.1 rfl rfl,
   (C12_GetDNSRecord_disabled_list_calls mockClient testMock []
      { cachedRecords := some testRecords } presentRecordInput).2.2.2 (by decide)⟩

/-- C13 (the code at the failing input): the cache holds `testRecords`, the upstream holds
no record any more and its list call succeeds with the empty list; `GetDNSRecord` with the
cache disabled still returns the first of `testRecords`, found in the old snapshot, where the
lookup over the fetched list finds nothing, and the cache keeps the old snapshot. -/
theorem C13_disabled_lookup_serves_stale_snapshot :
    staleClient.cache.cachedRecords = some testRecords ∧
    (MockDreamhostClient.ListDNSRecords staleClient.client).1 = (some [], none) ∧
    findRecord presentRecordInput [] = none ∧
    (cachedDreamhostClient.GetDNSRecord mockClient staleClient presentRecordInput false).1
      = (findRecord presentRecordInput testRecords, none) ∧
    findRecord presentRecordInput testRecords
      = some { Record := "example.com", Typ := ARecordType, Value := "192.0.2.1",
               Zone := "", Comment := "", AccountID := "", Editable := "" } ∧
    (cachedDreamhostClient.GetDNSRecord mockClient staleClient presentRecordInput
        false).2.cache.cachedRecords = some testRecords := by
  decide

/-- C14: whenever an upstream list call made during `GetDNSRecord` fails with message `m`
(the fetch of the cache-enabled lookup on an empty cache; the refresh of the cache-disabled
lookup; or, after a successful refresh, the fetch into an empty cache), `GetDNSRecord`
returns the `nil` record and an error whose message is a descriptive text, a colon and `m`,
so that it contains `m`, and the cache is exactly what it was before the call. -/
theorem C14_GetDNSRecord_list_error {σ : Type} (api : Client σ) (s s1 s2 : σ) (ca : cache)
    (L r : Slice DNSRecord) (m : String) (recordInput : DNSRecordInput) :
    (ca.cachedRecords = none → api.ListDNSRecords s = ((r, some m), s1) →
      cachedDreamhostClient.GetDNSRecord api { client := s, cache := ca } recordInput true
        = ((none, some ("failed to list DNS records" ++ ": " ++ m)),
            { client := s1, cache := ca })) ∧
    (api.ListDNSRecords s = ((r, some m), s1) →
      cachedDreamhostClient.GetDNSRecord api { client := s, cache := ca } recordInput false
        = ((none, some ("failed to refresh cache" ++ ": " ++ m)),
            { client := s1, cache := ca })) ∧
    (ca.cachedRecords = none → api.ListDNSRecords s = ((L, none), s1) →
      api.ListDNSRecords s1 = ((r, some m), s2) →
      cachedDreamhostClient.GetDNSRecord api { client := s, cache := ca } recordInput false
        = ((none, some ("failed to list DNS records" ++ ": " ++ m)),
            { client := s2, cache := ca })) ∧
    hasSubstring ("failed to list DNS records" ++ ": " ++ m) m ∧
    hasSubstring ("failed to refresh cache" ++ ": " ++ m) m := by
  obtain ⟨cr⟩ := ca
  refine ⟨?_, ?_, ?_, ⟨"failed to list DNS records" ++ ": ", "", by simp⟩,
    ⟨"failed to refresh cache" ++ ": ", "", by simp⟩⟩
  · intro hc h
    simp only at hc
    subst hc
    simp only [cachedDreamhostClient.GetDNSRecord, if_true]
    exact GetDNSRecordCached_empty_err api s s1 r m recordInput h
  · intro h
    exact GetDNSRecord_disabled_refresh_err api s s1 _ r m recordInput h
  · intro hc h1 h2
    simp only at hc
    subst hc
    rw [GetDNSRecord_disabled_refresh_ok api s s1 _ L recordInput h1]
    exact GetDNSRecordCached_empty_err api s1 s2 r m recordInput h2

/-- C14, at the fixture of `cache_error_propagated`, with the cache enabled and disabled. -/
theorem C14_GetDNSRecord_list_error_witness :
    cachedDreamhostClient.GetDNSRecord mockClient
        { client := failingMock, cache := { cachedRecords := none } } testRecordInput true
      = ((none, some ("failed to list DNS records" ++ ": " ++ "API error")),
          { client := { failingMock with listRecordsCalls := 1 },
            cache := { cachedRecords := none } }) ∧
    cachedDreamhostClient.GetDNSRecord mockClient
        { client := failingMock, cache := { cachedRecords := none } } testRecordInput false
      = ((none, some ("failed to refresh cache" ++ ": " ++ "API error")),
          { client := { failingMock with listRecordsCalls := 1 },
            cache := { cachedRecords := none } }) :=
  ⟨(C14_GetDNSRecord_list_error mockClient failingMock
      { failingMock with listRecordsCalls := 1 } failingMock { cachedRecords := none }
      none none "API error" testRecordInput).1 rfl rfl,
   (C14_GetDNSRecord_list_error mockClient failingMock
      { failingMock with listRecordsCalls := 1 } failingMock { cachedRecords := none }
      none none "API error" testRecordInput).2.1 rfl⟩

/-! ## Theorems on the poll ticks -/

theorem tick_lookup_ok {σ : Type} (api : Client σ) (s s1 s2 : σ) (ca : cache)
    (L0 L : Slice DNSRecord) (recordInput : DNSRecordInput)
    (h1 : api.ListDNSRecords s = ((L0, none), s1))
    (h2 : api.ListDNSRecords s1 = ((L, none), s2)) :
    cachedDreamhostClient.GetDNSRecord api
        { client := s, cache := cache.Invalidate ca } recordInput false
      = ((findRecord recordInput (Slice.elems L), none),
          { client := s2, cache := { cachedRecords := L } }) := by
  rw [GetDNSRecord_disabled_refresh_ok api s s1 _ L0 recordInput h1]
  exact GetDNSRecordCached_empty_ok api s1 s2 L recordInput h2

theorem tick_lookup_refresh_err {σ : Type} (api : Client σ) (s s1 : σ) (ca : cache)
    (r : Slice DNSRecord) (m : String) (recordInput : DNSRecordInput)
    (h : api.ListDNSRecords s = ((r, some m), s1)) :
    cachedDreamhostClient.GetDNSRecord api
        { client := s, cache := cache.Invalidate ca } recordInput false
      = ((none, some ("failed to refresh cache" ++ ": " ++ m)),
          { client := s1, cache := { cachedRecords := none } }) :=
  GetDNSRecord_disabled_refresh_err api s s1 _ r m recordInput h

theorem tick_lookup_fetch_err {σ : Type} (api : Client σ) (s s1 s2 : σ) (ca : cache)
    (L r : Slice DNSRecord) (m : String) (recordInput : DNSRecordInput)
    (h1 : api.ListDNSRecords s = ((L, none), s1))
    (h2 : api.ListDNSRecords s1 = ((r, some m), s2)) :
    cachedDreamhostClient.GetDNSRecord api
        { client := s, cache := cache.Invalidate ca } recordInput false
      = ((none, some ("failed to list DNS records" ++ ": " ++ m)),
          { client := s2, cache := { cachedRecords := none } }) := by
  rw [GetDNSRecord_disabled_refresh_ok api s s1 _ L recordInput h1]
  exact GetDNSRecordCached_empty_err api s1 s2 r m recordInput h2

/-- C18: for every upstream whose list calls succeed during the tick (the refresh, then the
fetch that returns the list `L`) and every input, one tick of the create-direction refresh
function returns the found record, the state "available" and no error if the lookup over `L`
finds a record, and the `nil` payload, the state "pending" and no error otherwise. -/
theorem C18_create_tick_available_or_pending {σ : Type} (api : Client σ) (s s1 s2 : σ)
    (ca : cache) (L0 L : Slice DNSRecord) (recordInput : DNSRecordInput)
    (h1 : api.ListDNSRecords s = ((L0, none), s1))
    (h2 : api.ListDNSRecords s1 = ((L, none), s2)) :
    (∀ r : DNSRecord, findRecord recordInput (Slice.elems L) = some r →
      dnsRecordStateRefreshFunc api { client := s, cache := ca } recordInput
        = ((some r, "available", none),
            { client := s2, cache := { cachedRecords := L } })) ∧
    (findRecord recordInput (Slice.elems L) = none →
      dnsRecordStateRefreshFunc api { client := s, cache := ca } recordInput
        = ((none, "pending", none), { client := s2, cache := { cachedRecords := L } })) := by
  constructor
  · intro r hr
    simp [dnsRecordStateRefreshFunc, tick_lookup_ok api s s1 s2 ca L0 L recordInput h1 h2, hr]
  · intro hr
    simp [dnsRecordStateRefreshFunc, tick_lookup_ok api s s1 s2 ca L0 L recordInput h1 h2, hr]

/-- C18, at the fixtures of `TestDNSRecordStateRefreshFunc`: `record_exists` gives
"available" with the record, `record_not_exists` gives "pending" with no payload. -/
theorem C18_create_tick_available_or_pending_witness :
    (dnsRecordStateRefreshFunc mockClient testClient presentRecordInput).1
      = (some exampleRecord, "available", none) ∧
    (dnsRecordStateRefreshFunc mockClient emptyClient presentRecordInput).1
      = (none, "pending", none) :=
  ⟨congrArg Prod.fst
    ((C18_create_tick_available_or_pending mockClient testMock
      { testMock with listRecordsCalls := 1 } { testMock with listRecordsCalls := 2 }
      { cachedRecords := none } (some testRecords) (some testRecords) presentRecordInput
      rfl rfl).1 _ rfl),
   congrArg Prod.fst
    ((C18_create_tick_available_or_pending mockClient emptyClient.client
      { emptyClient.client with listRecordsCalls := 1 }
      { emptyClient.client with listRecordsCalls := 2 }
      { cachedRecords := none } (some []) (some []) presentRecordInput rfl rfl).2 rfl)⟩

/-- C19: for every upstream whose list calls succeed during the tick (the refresh, then the
fetch that returns the list `L`) and every input, one tick of the delete-direction refresh
function returns the found record, the state "deleting" and no error if the lookup over `L`
still finds a record, and the `nil` payload, the state "deleted" and no error otherwise. -/
theorem C19_delete_tick_deleting_or_deleted {σ : Type} (api : Client σ) (s s1 s2 : σ)
    (ca : cache) (L0 L : Slice DNSRecord) (recordInput : DNSRecordInput)
    (h1 : api.ListDNSRecords s = ((L0, none), s1))
    (h2 : api.ListDNSRecords s1 = ((L, none), s2)) :
    (∀ r : DNSRecord, findRecord recordInput (Slice.elems L) = some r →
      dnsRecordDeletionStateRefreshFunc api { client := s, cache := ca } recordInput
        = ((some r, "deleting", none),
            { client := s2, cache := { cachedRecords := L } })) ∧
    (findRecord recordInput (Slice.elems L) = none →
      dnsRecordDeletionStateRefreshFunc api { client := s, cache := ca } recordInput
        = ((none, "deleted", none), { client := s2, cache := { cachedRecords := L } })) := by
  constructor
  · intro r hr
    simp [dnsRecordDeletionStateRefreshFunc,
      tick_lookup_ok api s s1 s2 ca L0 L recordInput h1 h2, hr]
  · intro hr
    simp [dnsRecordDeletionStateRefreshFunc,
      tick_lookup_ok api s s1 s2 ca L0 L recordInput h1 h2, hr]

/-- C19, at the fixtures of `TestDNSRecordDeletionStateRefreshFunc`: `record_still_exists`
gives "deleting" with the record, `record_deleted` gives "deleted" with no payload. -/
theorem C19_delete_tick_deleting_or_deleted_witness :
    (dnsRecordDeletionStateRefreshFunc mockClient testClient presentRecordInput).1
      = (some exampleRecord, "deleting", none) ∧
    (dnsRecordDeletionStateRefreshFunc mockClient emptyClient presentRecordInput).1
      = (none, "deleted", none) :=
  ⟨congrArg Prod.fst
    ((C19_delete_tick_deleting_or_deleted mockClient testMock
      { testMock with listRecordsCalls := 1 } { testMock with listRecordsCalls := 2 }
      { cachedRecords := none } (some testRecords) (some testRecords) presentRecordInput
      rfl rfl).1 _ rfl),
   congrArg Prod.fst
    ((C19_delete_tick_deleting_or_deleted mockClient emptyClient.client
      { emptyClient.client with listRecordsCalls := 1 }
      { emptyClient.client with listRecordsCalls := 2 }
      { cachedRecords := none } (some []) (some []) presentRecordInput rfl rfl).2 rfl)⟩

/-- C20: for both poll directions, if an upstream list call fails with message `m` during a
tick (the refresh, or the fetch after a successful refresh), the tick returns the `nil`
payload, the empty state string and a non-nil error whose message ends in `m`: the error is
surfaced, and the state is none of "pending", "available", "deleting", "deleted". -/
theorem C20_tick_surfaces_list_error {σ : Type} (api : Client σ) (s s1 s2 : σ) (ca : cache)
    (L r : Slice DNSRecord) (m : String) (recordInput : DNSRecordInput) :
    (api.ListDNSRecords s = ((r, some m), s1) →
      (dnsRecordStateRefreshFunc api { client := s, cache := ca } recordInput).1
        = (none, "", some ("failed to refresh cache" ++ ": " ++ m)) ∧
      (dnsRecordDeletionStateRefreshFunc api { client := s, cache := ca } recordInput).1
        = (none, "", some ("failed to refresh cache" ++ ": " ++ m))) ∧
    (api.ListDNSRecords s = ((L, none), s1) → api.ListDNSRecords s1 = ((r, some m), s2) →
      (dnsRecordStateRefreshFunc api { client := s, cache := ca } recordInput).1
        = (none, "", some ("failed to list DNS records" ++ ": " ++ m)) ∧
      (dnsRecordDeletionStateRefreshFunc api { client := s, cache := ca } recordInput).1
        = (none, "", some ("failed to list DNS records" ++ ": " ++ m))) ∧
    hasSubstring ("failed to refresh cache" ++ ": " ++ m) m ∧
    hasSubstring ("failed to list DNS records" ++ ": " ++ m) m := by
  refine ⟨?_, ?_, ⟨"failed to refresh cache" ++ ": ", "", by simp⟩,
    ⟨"failed to list DNS records" ++ ": ", "", by simp⟩⟩
  · intro h
    simp [dnsRecordStateRefreshFunc, dnsRecordDeletionStateRefreshFunc,
      tick_lookup_refresh_err api s s1 ca r m recordInput h]
  · intro h1 h2
    simp [dnsRecordStateRefreshFunc, dnsRecordDeletionStateRefreshFunc,
      tick_lookup_fetch_err api s s1 s2 ca L r m recordInput h1 h2]

/-- C20, at the fixture of `TestDNSRecordStateRefreshFunc/api_error`, for both directions. -/
theorem C20_tick_surfaces_list_error_witness :
    (dnsRecordStateRefreshFunc mockClient failingClient testRecordInput).1
      = (none, "", some ("failed to refresh cache" ++ ": " ++ "API error")) ∧
    (dnsRecordDeletionStateRefreshFunc mockClient failingClient testRecordInput).1
      = (none, "", some ("failed to refresh cache" ++ ": " ++ "API error")) :=
  (C20_tick_surfaces_list_error mockClient failingMock
    { failingMock with listRecordsCalls := 1 } failingMock { cachedRecords := none }
    none none "API error" testRecordInput).1 rfl

/-! ## Lemmas on the substring test -/

theorem sliceString_beq_iff (s substr : String) (i : Nat) :
    (sliceString s i (i + substr.length) == substr) = true ↔
      (s.data.drop i).take substr.data.length = substr.data := by
  have hl : substr.length = substr.data.length := rfl
  have hs : sliceString s i (i + substr.length)
      = String.mk ((s.data.drop i).take substr.data.length) := by
    unfold sliceString
    rw [Nat.add_sub_cancel_left, hl]
  rw [beq_iff_eq, hs]
  constructor
  · intro h
    exact congrArg String.data h
  · intro h
    exact String.ext h

theorem containsSubstringLoop_iff (s substr : String) (n i : Nat) :
    containsSubstringLoop s substr n i = true ↔
      ∃ j, i ≤ j ∧ j < i + n ∧ (s.data.drop j).take substr.data.length = substr.data := by
  induction n generalizing i with
  | zero =>
    simp only [containsSubstringLoop]
    constructor
    · intro h
      exact absurd h (by simp)
    · rintro ⟨j, h1, h2, _⟩
      omega
  | succ n ih =>
    unfold containsSubstringLoop
    by_cases hi : (sliceString s i (i + substr.length) == substr) = true
    · rw [if_pos hi]
      simp only [true_iff]
      exact ⟨i, le_refl i, by omega, (sliceString_beq_iff s substr i).1 hi⟩
    · rw [if_neg hi, ih (i + 1)]
      constructor
      · rintro ⟨j, h1, h2, h3⟩
        exact ⟨j, by omega, by omega, h3⟩
      · rintro ⟨j, h1, h2, h3⟩
        have hne : j ≠ i := by
          intro hji
          subst hji
          exact hi ((sliceString_beq_iff s substr j).2 h3)
        exact ⟨j, by omega, by omega, h3⟩

theorem infix_iff_take_drop (a b : List Char) :
    (∃ p q : List Char, a = p ++ b ++ q) ↔
      ∃ j, j + b.length ≤ a.length ∧ (a.drop j).take b.length = b := by
  constructor
  · rintro ⟨p, q, rfl⟩
    refine ⟨p.length, by simp, ?_⟩
    simp [List.append_assoc]
  · rintro ⟨j, _, h⟩
    refine ⟨a.take j, (a.drop j).drop b.length, ?_⟩
    have h2 : a.drop j = b ++ (a.drop j).drop b.length := by
      conv_lhs => rw [← List.take_append_drop b.length (a.drop j), h]
    rw [List.append_assoc]
    exact (List.take_append_drop j a).symm.trans (congrArg (fun t => a.take j ++ t) h2)

theorem hasSubstring_iff_data (s substr : String) :
    hasSubstring s substr ↔ ∃ p q : List Char, s.data = p ++ substr.data ++ q := by
  constructor
  · rintro ⟨pre, post, h⟩
    exact ⟨pre.data, post.data, by rw [h]; simp⟩
  · rintro ⟨p, q, h⟩
    exact ⟨String.mk p, String.mk q, String.ext (by simpa using h)⟩

theorem contains_iff (s substr : String) :
    contains s substr = true ↔ substr ≠ "" ∧ hasSubstring s substr := by
  have hl : ∀ t : String, t.length = t.data.length := fun _ => rfl
  have hpos : substr.data.length > 0 ↔ substr ≠ "" := by
    constructor
    · intro h he
      subst he
      exact absurd h (by decide)
    · intro h
      rcases Nat.eq_zero_or_pos substr.data.length with h0 | h0
      · exact absurd (String.ext (List.length_eq_zero.1 h0)) h
      · exact h0
  rw [hasSubstring_iff_data, infix_iff_take_drop, ← hpos]
  unfold contains containsSubstring
  rw [hl s, hl substr]
  simp only [Bool.and_eq_true, Bool.or_eq_true, decide_eq_true_eq, beq_iff_eq,
    containsSubstringLoop_iff]
  constructor
  · rintro ⟨⟨h0, h1⟩, h2 | ⟨j, _, hj, h3⟩⟩
    · subst h2
      exact ⟨h0, 0, by simp, by simp⟩
    · exact ⟨h0, j, by omega, h3⟩
  · rintro ⟨h0, j, hj, h3⟩
    exact ⟨⟨h0, by omega⟩, Or.inr ⟨j, by omega, by omega, h3⟩⟩

/-! ## Theorems on `retry.go` -/

/-- C15: `isRetryableError(err)` is true if and only if `err` is non-nil and its message
contains at least one of the six substrings of the vocabulary; it is false for `nil`, and the
match is case-sensitive ("Rate Limit Exceeded" is not retryable). -/
theorem C15_isRetryableError_iff_vocabulary (err : error) :
    (isRetryableError err = true ↔
      ∃ m : String, err = some m ∧
        (hasSubstring m "rate limit" ∨ hasSubstring m "too many requests" ∨
          hasSubstring m "timeout" ∨ hasSubstring m "connection refused" ∨
          hasSubstring m "service unavailable" ∨ hasSubstring m "bad gateway")) ∧
    isRetryableError none = false ∧
    isRetryableError (some "Rate Limit Exceeded") = false := by
  refine ⟨?_, rfl, by decide⟩
  cases err with
  | none => simp [isRetryableError]
  | some e =>
    have n1 : ("rate limit" : String) ≠ "" := by decide
    have n2 : ("too many requests" : String) ≠ "" := by decide
    have n3 : ("timeout" : String) ≠ "" := by decide
    have n4 : ("connection refused" : String) ≠ "" := by decide
    have n5 : ("service unavailable" : String) ≠ "" := by decide
    have n6 : ("bad gateway" : String) ≠ "" := by decide
    simp only [isRetryableError, Option.some.injEq, exists_eq_left']
    rw [← and_iff_right n1 (b := hasSubstring e "rate limit"),
      ← and_iff_right n2 (b := hasSubstring e "too many requests"),
      ← and_iff_right n3 (b := hasSubstring e "timeout"),
      ← and_iff_right n4 (b := hasSubstring e "connection refused"),
      ← and_iff_right n5 (b := hasSubstring e "service unavailable"),
      ← and_iff_right n6 (b := hasSubstring e "bad gateway")]
    simp only [← contains_iff]
    cases contains e "rate limit" <;> cases contains e "too many requests" <;>
      cases contains e "timeout" <;> cases contains e "connection refused" <;>
      cases contains e "service unavailable" <;> cases contains e "bad gateway" <;> simp

theorem isRetryableError_ne_none (e : error) (h : isRetryableError e = true) : e ≠ none := by
  intro he
  subst he
  exact absurd h (by decide)

theorem retryOnError_ok {σ : Type} (retries : Nat) (f : σ → error × σ) (s : σ)
    (h : (f s).1 = none) : retryOnError retries f s = (none, (f s).2) := by
  rcases hfs : f s with ⟨e, s1⟩
  rw [hfs] at h
  simp only at h
  subst h
  cases retries <;> simp [retryOnError, RetryContext, hfs]

theorem retryOnError_fatal {σ : Type} (retries : Nat) (f : σ → error × σ) (s : σ)
    (m : String) (h : (f s).1 = some m) (hn : isRetryableError (some m) = false) :
    retryOnError retries f s = (some m, (f s).2) := by
  rcases hfs : f s with ⟨e, s1⟩
  rw [hfs] at h
  simp only at h
  subst h
  cases retries <;> simp [retryOnError, RetryContext, hfs, hn, NonRetryableError]

theorem retryOnError_retry {σ : Type} (retries : Nat) (f : σ → error × σ) (s : σ)
    (h : isRetryableError (f s).1 = true) :
    retryOnError (retries + 1) f s = retryOnError retries f (f s).2 := by
  rcases hfs : f s with ⟨e, s1⟩
  rw [hfs] at h
  simp only at h
  have hne := isRetryableError_ne_none e h
  simp [retryOnError, RetryContext, hfs, h, hne, RetryableError]

theorem retryOnError_run {σ : Type} (f : σ → error × σ) (k : Nat) :
    ∀ (retries : Nat) (s : σ) (c : Nat), k ≤ retries →
      (∀ i, i < k → isRetryableError (f (stateAfter f i s)).1 = true) →
      retryOnError retries (countingOp f) (s, c)
        = retryOnError (retries - k) (countingOp f) (stateAfter f k s, c + k) := by
  induction k with
  | zero =>
    intro retries s c _ _
    rfl
  | succ k ih =>
    intro retries s c hk hfail
    obtain ⟨r, rfl⟩ : ∃ r, retries = r + 1 := ⟨retries - 1, by omega⟩
    have h0 : isRetryableError (countingOp f (s, c)).1 = true := hfail 0 (by omega)
    rw [retryOnError_retry r (countingOp f) (s, c) h0]
    have h1 := ih r (f s).2 (c + 1) (by omega) (fun i hi => hfail (i + 1) (by omega))
    have e1 : (countingOp f (s, c)).2 = ((f s).2, c + 1) := rfl
    have e2 : stateAfter f k (f s).2 = stateAfter f (k + 1) s := rfl
    rw [e1, h1, e2, Nat.add_sub_add_right, Nat.add_assoc, Nat.add_comm 1 k]

/-- C16: for every `k`, if the operation passed to `retryOnError` fails with retryable errors
on its first `k` invocations and succeeds on invocation `k + 1`, and the budget allows that
many retries, then `retryOnError` returns `nil` after exactly `k + 1` invocations of the
operation. -/
theorem C16_retryOnError_succeeds_after_retries {σ : Type} (f : σ → error × σ) (s : σ)
    (k retries : Nat) (hbudget : k ≤ retries)
    (hfail : ∀ i, i < k → isRetryableError (f (stateAfter f i s)).1 = true)
    (hok : (f (stateAfter f k s)).1 = none) :
    retryOnError retries (countingOp f) (s, 0)
      = (none, (stateAfter f (k + 1) s, k + 1)) := by
  rw [retryOnError_run f k retries s 0 hbudget hfail,
    retryOnError_ok (retries - k) (countingOp f) (stateAfter f k s, 0 + k) hok]
  simp only [countingOp, stateAfter, Function.iterate_succ_apply', Nat.zero_add]

/-- C16, at the fixture of `retry_on_rate_limit`: two failures with "rate limit exceeded",
then success, give `nil` after exactly three invocations. -/
theorem C16_retryOnError_succeeds_after_retries_witness :
    retryOnError 24 (countingOp rateLimitedOp) (0, 0)
      = (none, (stateAfter rateLimitedOp (2 + 1) 0, 2 + 1)) :=
  C16_retryOnError_succeeds_after_retries rateLimitedOp 0 2 24 (by decide) (by decide)
    (by decide)

/-- C17: if invocation `j + 1` of the operation passed to `retryOnError` (after `j`
retryable failures, within the budget) returns an error with message `m` that
`isRetryableError` classifies as not retryable, then `retryOnError` returns an error with
exactly the message `m` after exactly `j + 1` invocations: it makes no further invocation. -/
theorem C17_retryOnError_stops_on_fatal {σ : Type} (f : σ → error × σ) (s : σ)
    (j retries : Nat) (m : String) (hbudget : j ≤ retries)
    (hfail : ∀ i, i < j → isRetryableError (f (stateAfter f i s)).1 = true)
    (hm : (f (stateAfter f j s)).1 = some m)
    (hfatal : isRetryableError (some m) = false) :
    retryOnError retries (countingOp f) (s, 0)
      = (some m, (stateAfter f (j + 1) s, j + 1)) := by
  rw [retryOnError_run f j retries s 0 hbudget hfail,
    retryOnError_fatal (retries - j) (countingOp f) (stateAfter f j s, 0 + j) m hm hfatal]
  simp only [countingOp, stateAfter, Function.iterate_succ_apply', Nat.zero_add]

/-- C17, at the fixture of `non_retryable_error`: the operation that always fails with
"invalid credentials" is invoked exactly once and its error is returned. -/
theorem C17_retryOnError_stops_on_fatal_witness :
    retryOnError 24 (countingOp invalidCredentialsOp) (0, 0)
      = (some "invalid credentials", (stateAfter invalidCredentialsOp (0 + 1) 0, 0 + 1)) :=
  C17_retryOnError_stops_on_fatal invalidCredentialsOp 0 0 24 "invalid credentials"
    (by decide) (by decide) rfl (by decide)

/-! ## Theorems on cache independence and the end-to-end scenario -/

theorem recordMatches_addedRecord (record : DNSRecordInput) :
    recordMatches (addedRecord record) record = true := by
  rw [recordMatches_iff]
  exact ⟨rfl, rfl, Or.inl rfl⟩

theorem ticks_of_lookup_none {σ : Type} (api : Client σ) (s s1 s2 : σ) (ca : cache)
    (L : Slice DNSRecord) (recordInput : DNSRecordInput)
    (h1 : api.ListDNSRecords s = ((L, none), s1))
    (h2 : api.ListDNSRecords s1 = ((L, none), s2))
    (hf : findRecord recordInput (Slice.elems L) = none) :
    (dnsRecordStateRefreshFunc api { client := s, cache := ca } recordInput).1
      = (none, "pending", none) ∧
    (dnsRecordDeletionStateRefreshFunc api { client := s, cache := ca } recordInput).1
      = (none, "deleted", none) := by
  simp [dnsRecordStateRefreshFunc, dnsRecordDeletionStateRefreshFunc,
    tick_lookup_ok api s s1 s2 ca L L recordInput h1 h2, hf]

theorem ticks_of_lookup_some {σ : Type} (api : Client σ) (s s1 s2 : σ) (ca : cache)
    (L : Slice DNSRecord) (recordInput : DNSRecordInput) (r : DNSRecord)
    (h1 : api.ListDNSRecords s = ((L, none), s1))
    (h2 : api.ListDNSRecords s1 = ((L, none), s2))
    (hf : findRecord recordInput (Slice.elems L) = some r) :
    (dnsRecordStateRefreshFunc api { client := s, cache := ca } recordInput).1
      = (some r, "available", none) ∧
    (dnsRecordDeletionStateRefreshFunc api { client := s, cache := ca } recordInput).1
      = (some r, "deleting", none) := by
  simp [dnsRecordStateRefreshFunc, dnsRecordDeletionStateRefreshFunc,
    tick_lookup_ok api s s1 s2 ca L L recordInput h1 h2, hf]

/-- C21: for every prior cache state, a poll tick of either direction gives the same results
and leaves the same state as the tick started from any other cache state against the same
upstream; and when the upstream's current record list is `L` (its list calls answer `L`),
the payload and error of the tick are the record and error of a cache-enabled lookup run on
an empty cache against the same upstream, with the state label decided by that record. -/
theorem C21_tick_independent_of_prior_cache {σ : Type} (api : Client σ) (s : σ)
    (ca ca1 : cache) (recordInput : DNSRecordInput) :
    dnsRecordStateRefreshFunc api { client := s, cache := ca } recordInput
      = dnsRecordStateRefreshFunc api { client := s, cache := ca1 } recordInput ∧
    dnsRecordDeletionStateRefreshFunc api { client := s, cache := ca } recordInput
      = dnsRecordDeletionStateRefreshFunc api { client := s, cache := ca1 } recordInput ∧
    (∀ (L : Slice DNSRecord) (s1 s2 : σ),
      api.ListDNSRecords s = ((L, none), s1) → api.ListDNSRecords s1 = ((L, none), s2) →
      (dnsRecordStateRefreshFunc api { client := s, cache := ca } recordInput).1
        = ((cachedDreamhostClient.GetDNSRecord api
              { client := s, cache := { cachedRecords := none } } recordInput true).1.1,
            (if (cachedDreamhostClient.GetDNSRecord api
              { client := s, cache := { cachedRecords := none } } recordInput true).1.1 = none
              then "pending" else "available"),
            (cachedDreamhostClient.GetDNSRecord api
              { client := s, cache := { cachedRecords := none } } recordInput true).1.2) ∧
      (dnsRecordDeletionStateRefreshFunc api { client := s, cache := ca } recordInput).1
        = ((cachedDreamhostClient.GetDNSRecord api
              { client := s, cache := { cachedRecords := none } } recordInput true).1.1,
            (if (cachedDreamhostClient.GetDNSRecord api
              { client := s, cache := { cachedRecords := none } } recordInput true).1.1 = none
              then "deleted" else "deleting"),
            (cachedDreamhostClient.GetDNSRecord api
              { client := s, cache := { cachedRecords := none } } recordInput true).1.2)) := by
  refine ⟨rfl, rfl, ?_⟩
  intro L s1 s2 h1 h2
  have hl : (cachedDreamhostClient.GetDNSRecord api
      { client := s, cache := { cachedRecords := none } } recordInput true)
      = ((findRecord recordInput (Slice.elems L), none),
          { client := s1, cache := { cachedRecords := L } }) := by
    simp only [cachedDreamhostClient.GetDNSRecord, if_true]
    exact GetDNSRecordCached_empty_ok api s s1 L recordInput h1
  rw [hl]
  cases hf : findRecord recordInput (Slice.elems L) with
  | none =>
    rw [(ticks_of_lookup_none api s s1 s2 ca L recordInput h1 h2 hf).1,
      (ticks_of_lookup_none api s s1 s2 ca L recordInput h1 h2 hf).2]
    simp
  | some r =>
    rw [(ticks_of_lookup_some api s s1 s2 ca L recordInput r h1 h2 hf).1,
      (ticks_of_lookup_some api s s1 s2 ca L recordInput r h1 h2 hf).2]
    simp

/-- C21, at a cache that holds a stale snapshot (the CNAME record) while the upstream lists
`testRecords`: the create tick reports what the lookup on an empty cache reports. -/
theorem C21_tick_independent_of_prior_cache_witness :
    (dnsRecordStateRefreshFunc mockClient
        { client := testMock, cache := { cachedRecords := some [cnameRecord] } }
        presentRecordInput).1
      = ((cachedDreamhostClient.GetDNSRecord mockClient
            { client := testMock, cache := { cachedRecords := none } }
            presentRecordInput true).1.1,
          (if (cachedDreamhostClient.GetDNSRecord mockClient
            { client := testMock, cache := { cachedRecords := none } }
            presentRecordInput true).1.1 = none then "pending" else "available"),
          (cachedDreamhostClient.GetDNSRecord mockClient
            { client := testMock, cache := { cachedRecords := none } }
            presentRecordInput true).1.2) :=
  ((C21_tick_independent_of_prior_cache mockClient testMock
      { cachedRecords := some [cnameRecord] } { cachedRecords := none }
      presentRecordInput).2.2 (some testRecords)
      { testMock with listRecordsCalls := 1 } { testMock with listRecordsCalls := 2 }
      rfl rfl).1

theorem mock_add_fresh (record : DNSRecordInput) :
    MockDreamhostClient.AddDNSRecord record NewMockDreamhostClient
      = (none, mockAfterAdd record 0) := by
  simp [MockDreamhostClient.AddDNSRecord, NewMockDreamhostClient, mockAfterAdd, addedRecord,
    Slice.append, Slice.elems]

theorem mock_list_after_add (record : DNSRecordInput) (n : Nat) :
    MockDreamhostClient.ListDNSRecords (mockAfterAdd record n)
      = ((some [addedRecord record], none), mockAfterAdd record (n + 1)) := by
  simp [MockDreamhostClient.ListDNSRecords, NewMockDreamhostClient, mockAfterAdd,
    Slice.clone, Slice.elems]

/-- C22: end-to-end against the mock upstream, for every record input (in particular for
"example.com", A, "192.0.2.1"): starting from an upstream with no records and an empty
cache, `AddDNSRecord` succeeds and leaves the cache empty; the create-direction poll tick
that follows returns the stored record with state "available"; and the cache-enabled
`GetDNSRecord` issued after the tick returns the same record while the number of upstream
list calls stays at the two of the tick. -/
theorem C22_end_to_end_add_poll_lookup (recordInput : DNSRecordInput) :
    cachedDreamhostClient.AddDNSRecord mockClient freshClient recordInput
      = (none, { client := mockAfterAdd recordInput 0,
                 cache := { cachedRecords := none } }) ∧
    dnsRecordStateRefreshFunc mockClient
        (cachedDreamhostClient.AddDNSRecord mockClient freshClient recordInput).2 recordInput
      = ((some (addedRecord recordInput), "available", none),
          { client := mockAfterAdd recordInput 2,
            cache := { cachedRecords := some [addedRecord recordInput] } }) ∧
    cachedDreamhostClient.GetDNSRecord mockClient
        (dnsRecordStateRefreshFunc mockClient
          (cachedDreamhostClient.AddDNSRecord mockClient freshClient recordInput).2
          recordInput).2 recordInput true
      = ((some (addedRecord recordInput), none),
          { client := mockAfterAdd recordInput 2,
            cache := { cachedRecords := some [addedRecord recordInput] } }) ∧
    MockDreamhostClient.GetListRecordsCalls (mockAfterAdd recordInput 2) = 2 := by
  have hadd : cachedDreamhostClient.AddDNSRecord mockClient freshClient recordInput
      = (none, { client := mockAfterAdd recordInput 0,
                 cache := { cachedRecords := none } }) := by
    simp [cachedDreamhostClient.AddDNSRecord, mockClient, freshClient, mock_add_fresh,
      cache.Invalidate]
  have hfind : findRecord recordInput [addedRecord recordInput]
      = some (addedRecord recordInput) := by
    simp [findRecord, recordMatches_addedRecord]
  have htick : dnsRecordStateRefreshFunc mockClient
      { client := mockAfterAdd recordInput 0, cache := { cachedRecords := none } } recordInput
      = ((some (addedRecord recordInput), "available", none),
          { client := mockAfterAdd recordInput 2,
            cache := { cachedRecords := some [addedRecord recordInput] } }) := by
    have h := tick_lookup_ok mockClient (mockAfterAdd recordInput 0)
      (mockAfterAdd recordInput 1) (mockAfterAdd recordInput 2) { cachedRecords := none }
      (some [addedRecord recordInput]) (some [addedRecord recordInput]) recordInput
      (mock_list_after_add recordInput 0) (mock_list_after_add recordInput 1)
    simp only [dnsRecordStateRefreshFunc, h, Slice.elems, hfind]
    simp
  refine ⟨hadd, ?_, ?_, rfl⟩
  · rw [hadd]
    exact htick
  · rw [hadd, htick]
    simp only [cachedDreamhostClient.GetDNSRecord, if_true]
    rw [GetDNSRecordCached_populated, hfind]

/-! ## Theorems on the resource layer -/

/-- C23: when the upstream remove succeeds (the retried remove returns `nil`) but the
deletion confirmation fails with a message `e`, `resourceDNSRecordDelete` returns exactly one
diagnostic, of severity `Warning`, and clears the resource ID; when the upstream add succeeds
but the create confirmation fails (the wait returns an error, or no record),
`resourceDNSRecordCreate` returns one diagnostic of severity `Error`. This holds whatever
the SDK's wait loop `wait` does otherwise. -/
theorem C23_confirmation_failure_diagnostics {σ : Type}
    (wait : StateChangeConf (cachedDreamhostClient σ) → cachedDreamhostClient σ →
      (Option DNSRecord × error) × cachedDreamhostClient σ)
    (retries : Nat) (upstream : Client σ) (data : ResourceData)
    (api api1 api2 : cachedDreamhostClient σ) :
    (∀ (input : DNSRecordInput) (result : Option DNSRecord) (e : String),
      idToRecordInput data.id = (some input, none) →
      retryOnError retries
        (fun c => cachedDreamhostClient.RemoveDNSRecord upstream c input) api = (none, api1) →
      wait (waitForDNSRecordDeletionConf upstream input) api1 = ((result, some e), api2) →
      resourceDNSRecordDelete wait retries upstream data (some api)
        = Except.ok
            ([{ Severity := Severity.Warning,
                Summary := "Could not confirm DNS record deletion",
                Detail := "error waiting for DNS record deletion" ++ ": " ++ e }],
              { data with id := "" }, some api2)) ∧
    (∀ (result : Option DNSRecord) (e : String),
      retryOnError retries
        (fun c => cachedDreamhostClient.AddDNSRecord upstream c
          { Record := data.record,
            Value := if data.typ = CNAMERecordType then data.value ++ "." else data.value,
            Typ := data.typ }) api = (none, api1) →
      wait (waitForDNSRecordConf upstream
          { Record := data.record,
            Value := if data.typ = CNAMERecordType then data.value ++ "." else data.value,
            Typ := data.typ }) api1 = ((result, some e), api2) →
      (resourceDNSRecordCreate wait retries upstream data (some api)).1
        = [{ Severity := Severity.Error,
             Summary := "error waiting for DNS record" ++ ": " ++ e,
             Detail := "" }]) ∧
    (retryOnError retries
        (fun c => cachedDreamhostClient.AddDNSRecord upstream c
          { Record := data.record,
            Value := if data.typ = CNAMERecordType then data.value ++ "." else data.value,
            Typ := data.typ }) api = (none, api1) →
      wait (waitForDNSRecordConf upstream
          { Record := data.record,
            Value := if data.typ = CNAMERecordType then data.value ++ "." else data.value,
            Typ := data.typ }) api1 = ((none, none), api2) →
      (resourceDNSRecordCreate wait retries upstream data (some api)).1
        = [{ Severity := Severity.Error,
             Summary := "DNS record not found after waiting",
             Detail := "" }]) := by
  refine ⟨?_, ?_, ?_⟩
  · intro input result e hid hrem hwait
    simp [resourceDNSRecordDelete, hid, deref, hrem, waitForDNSRecordDeletion, hwait,
      errors.Wrap, ResourceData.SetId]
  · intro result e hadd hwait
    simp [resourceDNSRecordCreate, hadd, waitForDNSRecord, hwait, errors.Wrap, diag.FromErr]
  · intro hadd hwait
    simp [resourceDNSRecordCreate, hadd, waitForDNSRecord, hwait, diag.FromErr]

/-- C23, against the mock that accepts the mutation and fails every list call: the delete
ends with the single warning and an empty ID, the create with a single error. -/
theorem C23_confirmation_failure_diagnostics_witness :
    resourceDNSRecordDelete boundedWait 24 mockClient exampleData (some unconfirmedClient)
      = Except.ok
          ([{ Severity := Severity.Warning,
              Summary := "Could not confirm DNS record deletion",
              Detail := "error waiting for DNS record deletion" ++ ": " ++
                "failed to refresh cache: API error" }],
            { exampleData with id := "" }, some afterDeleteWait) ∧
    (resourceDNSRecordCreate boundedWait 24 mockClient newData (some unconfirmedClient)).1
      = [{ Severity := Severity.Error,
           Summary := "error waiting for DNS record" ++ ": " ++
             "failed to refresh cache: API error",
           Detail := "" }] :=
  ⟨(C23_confirmation_failure_diagnostics boundedWait 24 mockClient exampleData
      unconfirmedClient afterRemove afterDeleteWait).1 presentRecordInput none
      "failed to refresh cache: API error" rfl rfl rfl,
   (C23_confirmation_failure_diagnostics boundedWait 24 mockClient newData
      unconfirmedClient afterAdd afterCreateWait).2.1 none
      "failed to refresh cache: API error" rfl rfl⟩

/-! ## Lemmas on the memory -/

theorem getD_append_left_of_lt (l : List (List DNSRecord)) (X : List (List DNSRecord))
    (a : Nat) (ha : a < l.length) : (l ++ X).getD a [] = l.getD a [] := by
  simp [List.getD_eq_getElem?_getD, List.getElem?_append_left ha]

theorem getD_append_length (l : List (List DNSRecord)) (X : List DNSRecord) :
    (l ++ [X]).getD l.length [] = X := by
  simp [List.getD_eq_getElem?_getD]

theorem getD_set_of_ne (l : List (List DNSRecord)) (Y : List DNSRecord) (a b : Nat)
    (hab : b ≠ a) : (l.set b Y).getD a [] = l.getD a [] := by
  simp [List.getD_eq_getElem?_getD, List.getElem?_set_ne hab]

theorem readRecords_populated {τ : Type}
    (list : τ → Mem.Memory → (Mem.SliceRef × error) × τ × Mem.Memory) (s : τ)
    (m : Mem.Memory) (a : Nat) :
    Mem.readRecords (Mem.cache.GetRecords { cachedRecords := some a } list s m)
      = (m.arrays.getD a [], none) := by
  simp [Mem.readRecords, Mem.cache.GetRecords, Mem.Memory.clone, Mem.Memory.elems,
    getD_append_length]

theorem readRecord_cached_populated {σ : Type} (api : Client σ) (s : σ) (m : Mem.Memory)
    (a : Nat) (recordInput : DNSRecordInput) :
    Mem.readRecord (Mem.cachedDreamhostClient.GetDNSRecordCached api
        { client := s, cache := { cachedRecords := some a } } recordInput m)
      = (findRecord recordInput (m.arrays.getD a []), none) := by
  simp only [Mem.cachedDreamhostClient.GetDNSRecordCached, Mem.cache.GetRecords,
    Mem.Memory.clone, Mem.Memory.elems]
  simp only [reduceCtorEq, if_false, ne_eq, not_true_eq_false, getD_append_length]
  cases hf : findRecord recordInput (m.arrays.getD a []) with
  | none => simp [Mem.readRecord, Mem.Memory.load]
  | some r => simp [Mem.readRecord, Mem.Memory.load, Mem.Memory.newCell]

theorem readRecord_populated {σ : Type} (api : Client σ) (s : σ) (m : Mem.Memory)
    (a : Nat) (ha : a < m.arrays.length) (recordInput : DNSRecordInput) (enableCache : Bool) :
    Mem.readRecord (Mem.cachedDreamhostClient.GetDNSRecord api
        { client := s, cache := { cachedRecords := some a } } recordInput enableCache m)
      = (cachedDreamhostClient.GetDNSRecord api
          { client := s, cache := { cachedRecords := some (m.arrays.getD a []) } }
          recordInput enableCache).1 := by
  cases enableCache with
  | true =>
    simp only [Mem.cachedDreamhostClient.GetDNSRecord, cachedDreamhostClient.GetDNSRecord,
      if_true]
    rw [readRecord_cached_populated, GetDNSRecordCached_populated]
  | false =>
    rcases h : api.ListDNSRecords s with ⟨⟨L, e⟩, s1⟩
    cases e with
    | some msg =>
      rw [GetDNSRecord_disabled_refresh_err api s s1 _ L msg recordInput h]
      simp [Mem.cachedDreamhostClient.GetDNSRecord, Mem.cachedDreamhostClient.ListDNSRecords,
        h, Mem.readRecord, Mem.Memory.load, errors.Wrap]
    | none =>
      rw [GetDNSRecord_disabled_populated api s s1 _ L recordInput h]
      simp only [Mem.cachedDreamhostClient.GetDNSRecord, Bool.false_eq_true, if_false,
        Mem.cachedDreamhostClient.ListDNSRecords, h, ne_eq, not_true_eq_false]
      rw [readRecord_cached_populated]
      cases L with
      | none => simp [Mem.Memory.store]
      | some l => simp [Mem.Memory.store, List.getElem?_append_left ha]

theorem sliceWrite_frame {σ : Type} (api : Client σ) (client : Mem.cachedDreamhostClient σ)
    (m : Mem.Memory) (a : Nat) (ha : a < m.arrays.length) (i : Nat) (r : DNSRecord) :
    (memAfterSliceWrite api client { cachedRecords := some a } m i r).arrays.getD a []
        = m.arrays.getD a [] ∧
      a < (memAfterSliceWrite api client { cachedRecords := some a } m i r).arrays.length ∧
      (Mem.cache.GetRecords { cachedRecords := some a }
          (Mem.cachedDreamhostClient.ListDNSRecords api) client m).2.2.2.arrays.getD a []
        = m.arrays.getD a [] ∧
      a < (Mem.cache.GetRecords { cachedRecords := some a }
          (Mem.cachedDreamhostClient.ListDNSRecords api) client m).2.2.2.arrays.length := by
  have hne : m.arrays.length ≠ a := by omega
  simp only [memAfterSliceWrite, Mem.cache.GetRecords, Mem.Memory.clone, Mem.Memory.setElem,
    reduceCtorEq, if_false]
  refine ⟨?_, ?_, ?_, ?_⟩
  · rw [getD_set_of_ne _ _ a _ hne, getD_append_left_of_lt _ _ a ha]
  · simp only [List.length_set, List.length_append]
    omega
  · rw [getD_append_left_of_lt _ _ a ha]
  · simp only [List.length_append]
    omega

theorem GetDNSRecord_arrays_frame {σ : Type} (api : Client σ) (s : σ) (m : Mem.Memory)
    (a : Nat) (ha : a < m.arrays.length) (recordInput : DNSRecordInput) (enableCache : Bool) :
    (Mem.cachedDreamhostClient.GetDNSRecord api
        { client := s, cache := { cachedRecords := some a } } recordInput enableCache
        m).2.2.arrays.getD a [] = m.arrays.getD a [] ∧
      a < (Mem.cachedDreamhostClient.GetDNSRecord api
        { client := s, cache := { cachedRecords := some a } } recordInput enableCache
        m).2.2.arrays.length ∧
      (Mem.cachedDreamhostClient.GetDNSRecord api
        { client := s, cache := { cachedRecords := some a } } recordInput enableCache
        m).2.1.cache = { cachedRecords := some a } := by
  have hcached : ∀ (t : σ) (m1 : Mem.Memory), a < m1.arrays.length →
      (Mem.cachedDreamhostClient.GetDNSRecordCached api
        { client := t, cache := { cachedRecords := some a } } recordInput
        m1).2.2.arrays.getD a [] = m1.arrays.getD a [] ∧
      a < (Mem.cachedDreamhostClient.GetDNSRecordCached api
        { client := t, cache := { cachedRecords := some a } } recordInput
        m1).2.2.arrays.length ∧
      (Mem.cachedDreamhostClient.GetDNSRecordCached api
        { client := t, cache := { cachedRecords := some a } } recordInput
        m1).2.1.cache = { cachedRecords := some a } := by
    intro t m1 h1
    simp only [Mem.cachedDreamhostClient.GetDNSRecordCached, Mem.cache.GetRecords,
      Mem.Memory.clone, Mem.Memory.elems, reduceCtorEq, if_false, ne_eq, not_true_eq_false,
      getD_append_length]
    cases findRecord recordInput (m1.arrays.getD a []) with
    | none =>
      exact ⟨getD_append_left_of_lt _ _ a h1, by simp only [List.length_append]; omega, rfl⟩
    | some r =>
      exact ⟨getD_append_left_of_lt _ _ a h1, by
        simp only [Mem.Memory.newCell, List.length_append]; omega, rfl⟩
  cases enableCache with
  | true =>
    simp only [Mem.cachedDreamhostClient.GetDNSRecord, if_true]
    exact hcached s m ha
  | false =>
    rcases h : api.ListDNSRecords s with ⟨⟨L, e⟩, s1⟩
    cases e with
    | some msg =>
      simp [Mem.cachedDreamhostClient.GetDNSRecord, Mem.cachedDreamhostClient.ListDNSRecords,
        h, ha]
    | none =>
      simp only [Mem.cachedDreamhostClient.GetDNSRecord, Bool.false_eq_true, if_false,
        Mem.cachedDreamhostClient.ListDNSRecords, h, ne_eq, not_true_eq_false]
      cases L with
      | none => exact hcached s1 m ha
      | some l =>
        have h2 := hcached s1 { m with arrays := m.arrays ++ [l] }
          (by simp only [List.length_append]; omega)
        simp only [Mem.Memory.store]
        exact ⟨h2.1.trans (getD_append_left_of_lt _ _ a ha), h2.2.1, h2.2.2⟩

theorem recordWrite_frame {σ : Type} (api : Client σ) (s : σ) (m : Mem.Memory)
    (a : Nat) (recordInput : DNSRecordInput) (enableCache : Bool)
    (r : DNSRecord) :
    (memAfterRecordWrite api { client := s, cache := { cachedRecords := some a } }
        recordInput enableCache m r).arrays
      = (Mem.cachedDreamhostClient.GetDNSRecord api
          { client := s, cache := { cachedRecords := some a } } recordInput enableCache
          m).2.2.arrays := by
  unfold memAfterRecordWrite Mem.Memory.setCell
  split <;> rfl


/-! ## Theorem on copy isolation -/

/-- C24: for every populated cache (its slice is a backing array `a` of the memory),
`GetRecords` returns the snapshot with no error, and overwriting any element `i` of the
returned slice with any record `r` leaves the snapshot of the cache unchanged: a later
`GetRecords` and a later `GetDNSRecord` (cache enabled or not) return the same records and
errors as without the overwrite. The same holds for overwriting the record behind the
pointer returned by `GetDNSRecord`. -/
theorem C24_copy_isolation {σ : Type} (api : Client σ) (s : σ) (m : Mem.Memory) (a : Nat)
    (ha : a < m.arrays.length) (i : Nat) (r : DNSRecord)
    (recordInput later : DNSRecordInput) (enableCache laterCache : Bool) :
    Mem.readRecords (Mem.cache.GetRecords { cachedRecords := some a }
        (Mem.cachedDreamhostClient.ListDNSRecords api)
        { client := s, cache := { cachedRecords := some a } } m)
      = (Mem.Memory.elems m (some a), none) ∧
    Mem.Memory.elems
        (memAfterSliceWrite api { client := s, cache := { cachedRecords := some a } }
          { cachedRecords := some a } m i r) (some a)
      = Mem.Memory.elems m (some a) ∧
    Mem.readRecords (Mem.cache.GetRecords { cachedRecords := some a }
        (Mem.cachedDreamhostClient.ListDNSRecords api)
        { client := s, cache := { cachedRecords := some a } }
        (memAfterSliceWrite api { client := s, cache := { cachedRecords := some a } }
          { cachedRecords := some a } m i r))
      = Mem.readRecords (Mem.cache.GetRecords { cachedRecords := some a }
        (Mem.cachedDreamhostClient.ListDNSRecords api)
        { client := s, cache := { cachedRecords := some a } }
        (Mem.cache.GetRecords { cachedRecords := some a }
          (Mem.cachedDreamhostClient.ListDNSRecords api)
          { client := s, cache := { cachedRecords := some a } } m).2.2.2) ∧
    Mem.readRecord (Mem.cachedDreamhostClient.GetDNSRecord api
        { client := s, cache := { cachedRecords := some a } } later laterCache
        (memAfterSliceWrite api { client := s, cache := { cachedRecords := some a } }
          { cachedRecords := some a } m i r))
      = Mem.readRecord (Mem.cachedDreamhostClient.GetDNSRecord api
        { client := s, cache := { cachedRecords := some a } } later laterCache
        (Mem.cache.GetRecords { cachedRecords := some a }
          (Mem.cachedDreamhostClient.ListDNSRecords api)
          { client := s, cache := { cachedRecords := some a } } m).2.2.2) ∧
    Mem.Memory.elems
        (memAfterRecordWrite api { client := s, cache := { cachedRecords := some a } }
          recordInput enableCache m r) (some a)
      = Mem.Memory.elems m (some a) ∧
    Mem.readRecords (Mem.cache.GetRecords { cachedRecords := some a }
        (Mem.cachedDreamhostClient.ListDNSRecords api)
        (Mem.cachedDreamhostClient.GetDNSRecord api
          { client := s, cache := { cachedRecords := some a } } recordInput enableCache m).2.1
        (memAfterRecordWrite api { client := s, cache := { cachedRecords := some a } }
          recordInput enableCache m r))
      = Mem.readRecords (Mem.cache.GetRecords { cachedRecords := some a }
        (Mem.cachedDreamhostClient.ListDNSRecords api)
        (Mem.cachedDreamhostClient.GetDNSRecord api
          { client := s, cache := { cachedRecords := some a } } recordInput enableCache m).2.1
        (Mem.cachedDreamhostClient.GetDNSRecord api
          { client := s, cache := { cachedRecords := some a } } recordInput enableCache
          m).2.2) ∧
    Mem.readRecord (Mem.cachedDreamhostClient.GetDNSRecord api
        (Mem.cachedDreamhostClient.GetDNSRecord api
          { client := s, cache := { cachedRecords := some a } } recordInput enableCache m).2.1
        later laterCache
        (memAfterRecordWrite api { client := s, cache := { cachedRecords := some a } }
          recordInput enableCache m r))
      = Mem.readRecord (Mem.cachedDreamhostClient.GetDNSRecord api
        (Mem.cachedDreamhostClient.GetDNSRecord api
          { client := s, cache := { cachedRecords := some a } } recordInput enableCache m).2.1
        later laterCache
        (Mem.cachedDreamhostClient.GetDNSRecord api
          { client := s, cache := { cachedRecords := some a } } recordInput enableCache
          m).2.2) := by
  obtain ⟨w1, w2, w3, w4⟩ :=
    sliceWrite_frame api { client := s, cache := { cachedRecords := some a } } m a ha i r
  obtain ⟨d1, d2, d3⟩ := GetDNSRecord_arrays_frame api s m a ha recordInput enableCache
  have hw := recordWrite_frame api s m a recordInput enableCache r
  have hstate : (Mem.cachedDreamhostClient.GetDNSRecord api
      { client := s, cache := { cachedRecords := some a } } recordInput enableCache m).2.1
      = { client := (Mem.cachedDreamhostClient.GetDNSRecord api
            { client := s, cache := { cachedRecords := some a } } recordInput enableCache
            m).2.1.client,
          cache := { cachedRecords := some a } } :=
    congrArg (fun c => ({ client := (Mem.cachedDreamhostClient.GetDNSRecord api
            { client := s, cache := { cachedRecords := some a } } recordInput enableCache
            m).2.1.client, cache := c } : Mem.cachedDreamhostClient σ)) d3
  refine ⟨readRecords_populated _ _ m a, w1, ?_, ?_, ?_, ?_, ?_⟩
  · rw [readRecords_populated, readRecords_populated, w1, w3]
  · rw [readRecord_populated api s _ a w2, readRecord_populated api s _ a w4, w1, w3]
  · simp only [Mem.Memory.elems]
    rw [hw, d1]
  · rw [readRecords_populated, readRecords_populated, hw]
  · rw [hstate, readRecord_populated api _ _ a (by rw [hw]; exact d2),
      readRecord_populated api _ _ a d2, hw]

/-- C24, at the fixture of `TestCache_ReturnsCopy`: after `records[0].Value = "modified"` on
the returned slice, the array of the cache still holds `testRecords`. -/
theorem C24_copy_isolation_witness :
    (0 : Nat) < testMemory.arrays.length ∧
    Mem.Memory.elems
        (memAfterSliceWrite mockClient memClient { cachedRecords := some 0 } testMemory 0
          modifiedRecord) (some 0)
      = Mem.Memory.elems testMemory (some 0) :=
  ⟨by decide,
   (C24_copy_isolation mockClient testMock testMemory 0 (by decide) 0 modifiedRecord
      presentRecordInput presentRecordInput true true).2.1⟩

/-! ## Theorems on `validators.go` -/

/-- C27 (the code at the failing input): the host name "pošta.example.com" contains the
character U+0161, which is no ASCII letter or digit, no hyphen and no dot, and
`isValidHostname` returns `true` for it: `byte(ch)` keeps the low eight bits `0x61`, the
letter a. -/
theorem C27_truncated_rune_accepted :
    isValidHostname caronHostname = true ∧
    Char.ofNat 0x161 ∈ caronHostname.data ∧
    isAlphaNum (Char.ofNat 0x161).toNat = false ∧
    Char.ofNat 0x161 ≠ '-' ∧ Char.ofNat 0x161 ≠ '.' ∧
    isAlphaNum ((Char.ofNat 0x161).toNat % 256) = true := by
  decide

/-- C28 (the code at the failing inputs): `ValidateDNSRecordName` reports no error for
"example..com", whose middle label is empty, nor for "example-.com", whose first label ends
with a hyphen; the tests `double_dot` and `ends_with_hyphen` expect an error. -/
theorem C28_empty_label_accepted :
    ValidateDNSRecordName (GoValue.string "example..com") "test" = ([], []) ∧
    strings.Split "example..com" '.' = ["example", "", "com"] ∧
    ValidateDNSRecordName (GoValue.string "example-.com") "test" = ([], []) ∧
    strings.Split "example-.com" '.' = ["example-", "com"] := by
  decide

/-- C29 (the code at the failing input): `net.ParseIP` parses the IPv4-mapped IPv6 address
"::ffff:192.0.2.1" to `mappedAddress`, for which `To4` is not `nil`, so
`ValidateIPv6Address` reports the error "::ffff:192.0.2.1 is not a valid IPv6 address"; the
test `valid_ipv6_mixed` expects no error. -/
theorem C29_ipv4_mapped_rejected_as_ipv6 (ParseIP : String → Option (List Nat))
    (h : ParseIP "::ffff:192.0.2.1" = some mappedAddress) :
    ValidateIPv6Address ParseIP (GoValue.string "::ffff:192.0.2.1") "test"
      = ([], ["::ffff:192.0.2.1 is not a valid IPv6 address"]) := by
  have h4 : To4 mappedAddress = some [192, 0, 2, 1] := by decide
  simp [ValidateIPv6Address, h, h4]

/-- C29, with the values of `net.ParseIP` at the addresses of the test tables. -/
theorem C29_ipv4_mapped_rejected_as_ipv6_witness :
    testParseIP "::ffff:192.0.2.1" = some mappedAddress ∧
    ValidateIPv6Address testParseIP (GoValue.string "::ffff:192.0.2.1") "test"
      = ([], ["::ffff:192.0.2.1 is not a valid IPv6 address"]) :=
  ⟨by decide, C29_ipv4_mapped_rejected_as_ipv6 testParseIP (by decide)⟩

/-- C30 (the code at the failing input): "::ffff:192.0.2.1" is written in IPv6 colon
notation, `net.ParseIP` parses it to `mappedAddress`, for which `To4` is not `nil`, so
`ValidateIPv4Address` reports no error for it. -/
theorem C30_ipv4_mapped_accepted_as_ipv4 (ParseIP : String → Option (List Nat))
    (h : ParseIP "::ffff:192.0.2.1" = some mappedAddress) :
    ValidateIPv4Address ParseIP (GoValue.string "::ffff:192.0.2.1") "test" = ([], []) ∧
    ':' ∈ "::ffff:192.0.2.1".data := by
  have h4 : To4 mappedAddress = some [192, 0, 2, 1] := by decide
  refine ⟨?_, by decide⟩
  simp [ValidateIPv4Address, h, h4]

/-- C30, with the values of `net.ParseIP` at the addresses of the test tables. -/
theorem C30_ipv4_mapped_accepted_as_ipv4_witness :
    testParseIP "::ffff:192.0.2.1" = some mappedAddress ∧
    ValidateIPv4Address testParseIP (GoValue.string "::ffff:192.0.2.1") "test" = ([], []) :=
  ⟨by decide, (C30_ipv4_mapped_accepted_as_ipv4 testParseIP (by decide)).1⟩

/-! ## The ID codec of `resource_dns_record.go` -/

theorem splitChars_ne_nil (sep : Char) (l : List Char) : splitChars sep l ≠ [] := by
  induction l with
  | nil => simp [splitChars]
  | cons c cs ih =>
    unfold splitChars
    split
    · simp
    · split <;> simp

theorem splitChars_length (sep : Char) (l : List Char) :
    (splitChars sep l).length = l.count sep + 1 := by
  induction l with
  | nil => simp [splitChars]
  | cons c cs ih =>
    unfold splitChars
    by_cases h : c = sep
    · simp [h, ih]
    · rw [if_neg h]
      cases hs : splitChars sep cs with
      | nil => exact absurd hs (splitChars_ne_nil sep cs)
      | cons p ps =>
        rw [hs] at ih
        simp only [List.length_cons] at ih ⊢
        rw [List.count_cons, ih]
        simp [h]

theorem splitChars_of_not_mem (sep : Char) (a : List Char) (h : sep ∉ a) :
    splitChars sep a = [a] := by
  induction a with
  | nil => simp [splitChars]
  | cons c cs ih =>
    have hc : c ≠ sep := fun e => h (by simp [e])
    have hcs : sep ∉ cs := fun e => h (by simp [e])
    unfold splitChars
    rw [if_neg hc, ih hcs]

theorem splitChars_append_sep (sep : Char) (a b : List Char) (h : sep ∉ a) :
    splitChars sep (a ++ sep :: b) = a :: splitChars sep b := by
  induction a with
  | nil => simp [splitChars]
  | cons c cs ih =>
    have hc : c ≠ sep := fun e => h (by simp [e])
    have hcs : sep ∉ cs := fun e => h (by simp [e])
    simp [splitChars, hc, ih hcs]

theorem recordInputToID_data (r : DNSRecordInput) :
    (recordInputToID r).data = r.Typ.data ++ '|' :: (r.Record.data ++ '|' :: r.Value.data) := by
  simp [recordInputToID, String.data_append]

theorem idToRecordInput_ok_iff (id : String) :
    (idToRecordInput id).2 = none ↔ id.data.count '|' = 2 := by
  have hl := splitChars_length '|' id.data
  unfold idToRecordInput
  simp only [strings.Split, List.length_map, idParts]
  split
  · rename_i h
    simp
    omega
  · rename_i h
    simp
    omega

/-- C37: the ID written for a record input whose type, name and value hold no '|' is read
back as that record input; when one of them holds a '|' it is refused with "could not
determine record from input ID"; and `idToRecordInput` succeeds on exactly the strings with
two '|'. -/
theorem C37_id_codec_round_trip (r : DNSRecordInput) (id : String) :
    (('|' ∉ r.Typ.data ∧ '|' ∉ r.Record.data ∧ '|' ∉ r.Value.data) →
      idToRecordInput (recordInputToID r) = (some r, none)) ∧
    (('|' ∈ r.Typ.data ∨ '|' ∈ r.Record.data ∨ '|' ∈ r.Value.data) →
      idToRecordInput (recordInputToID r)
        = (none, some "could not determine record from input ID")) ∧
    ((∃ x, idToRecordInput id = (some x, none)) ↔ id.data.count '|' = 2) := by
  refine ⟨?_, ?_, ?_⟩
  · rintro ⟨ht, hr, hv⟩
    have hs : splitChars '|' (recordInputToID r).data
        = [r.Typ.data, r.Record.data, r.Value.data] := by
      rw [recordInputToID_data, splitChars_append_sep _ _ _ ht,
        splitChars_append_sep _ _ _ hr, splitChars_of_not_mem _ _ hv]
    unfold idToRecordInput
    simp [strings.Split, hs, idParts]
  · intro h
    have hc : (recordInputToID r).data.count '|' ≠ 2 := by
      rw [recordInputToID_data]
      simp only [List.count_append, List.count_cons, beq_self_eq_true, if_true]
      have h1 : 0 < r.Typ.data.count '|' ∨ 0 < r.Record.data.count '|' ∨
          0 < r.Value.data.count '|' := by
        rcases h with h | h | h
        · exact Or.inl (List.count_pos_iff.mpr h)
        · exact Or.inr (Or.inl (List.count_pos_iff.mpr h))
        · exact Or.inr (Or.inr (List.count_pos_iff.mpr h))
      omega
    have hl := splitChars_length '|' (recordInputToID r).data
    unfold idToRecordInput
    simp only [strings.Split, List.length_map, idParts]
    rw [if_pos (by omega)]
  · rw [← idToRecordInput_ok_iff]
    constructor
    · rintro ⟨x, hx⟩
      rw [hx]
    · intro h
      unfold idToRecordInput at h ⊢
      by_cases hlen : (strings.Split id '|').length ≠ idParts
      · simp [hlen] at h
      · simp only [hlen, if_false]
        exact ⟨_, rfl⟩

/-- C37 at the record input ("example.com", A, "192.0.2.1"), at one whose value holds a '|',
and at the ID "A|example.com|192.0.2.1". -/
theorem C37_id_codec_round_trip_witness :
    idToRecordInput (recordInputToID presentRecordInput) = (some presentRecordInput, none) ∧
    idToRecordInput (recordInputToID pipeRecordInput)
      = (none, some "could not determine record from input ID") ∧
    (∃ x, idToRecordInput "A|example.com|192.0.2.1" = (some x, none)) :=
  ⟨(C37_id_codec_round_trip presentRecordInput "").1 (by decide),
    (C37_id_codec_round_trip pipeRecordInput "").2.1 (by decide),
    (C37_id_codec_round_trip presentRecordInput "A|example.com|192.0.2.1").2.2.mpr (by decide)⟩

/-! ## `resourceDNSRecordRead` and `resourceDNSRecordCreate` -/

/-- C38 (the code at the failing input): for a resource state marked as new whose ID names
the record ("example.com", A, "192.0.2.1"), read against an upstream that lists no records,
the lookup returns the absent result without error, the guard
`!data.IsNewResource() && record == nil` does not fire, and the read reaches `*record`
with the nil pointer; the same state not marked as new returns with the ID cleared. -/
theorem C38_read_of_new_state_dereferences_nil :
    idToRecordInput markedNewData.id = (some presentRecordInput, none) ∧
    (cachedDreamhostClient.GetDNSRecord mockClient emptyClient presentRecordInput true).1
      = (none, none) ∧
    resourceDNSRecordRead mockClient markedNewData (some emptyClient)
      = Except.error "invalid memory address or nil pointer dereference" ∧
    (resourceDNSRecordRead mockClient exampleData (some emptyClient)).map
        (fun r => (r.1, r.2.1.id))
      = Except.ok ([], "") := by
  refine ⟨by decide, by decide, ?_, ?_⟩ <;> rfl

/-- C40 (the code at the failing input): for a CNAME record configured with the value
"example.com.", which already ends in a dot, `resourceDNSRecordCreate` submits the value
"example.com..", with two trailing dots, and stores the ID built from it. -/
theorem C40_create_appends_dot_to_dotted_cname :
    (resourceDNSRecordCreate boundedWait 24 mockClient dottedCnameData (some freshClient)).1
      = [] ∧
    (resourceDNSRecordCreate boundedWait 24 mockClient dottedCnameData
        (some freshClient)).2.2.map (fun c => c.client.addRecordCalls)
      = some (some [dottedCnameSubmitted]) ∧
    (resourceDNSRecordCreate boundedWait 24 mockClient dottedCnameData
        (some freshClient)).2.1.id = "CNAME|www.example.com|example.com.." ∧
    recordInputToID dottedCnameSubmitted = "CNAME|www.example.com|example.com.." ∧
    isValidHostname dottedCnameData.value = true ∧
    isValidHostname dottedCnameSubmitted.Value = false := by
  refine ⟨?_, ?_, ?_, ?_, ?_, ?_⟩ <;> decide

/-! ## `ValidateMXRecord` -/

theorem isDigit_iff (c : Char) : c.isDigit = true ↔ 48 ≤ c.toNat ∧ c.toNat ≤ 57 := by
  simp [Char.isDigit, Char.toNat, UInt32.le_def, BitVec.le_def]
  exact Iff.rfl

theorem isSpace_of_isDigit (c : Char) (h : c.isDigit = true) : unicode.IsSpace c = false := by
  have hd := (isDigit_iff c).mp h
  simp [unicode.IsSpace]
  omega

theorem isSpace_not_hostname_char (c : Char) (h : unicode.IsSpace c = true) :
    isAlphaNum (c.toNat % 256) = false ∧ c ≠ '-' ∧ c ≠ '.' := by
  refine ⟨?_, ?_, ?_⟩
  · simp [unicode.IsSpace] at h
    simp [isAlphaNum]
    omega
  · rintro rfl
    revert h
    decide
  · rintro rfl
    revert h
    decide

theorem fieldsChars_space_cons (s : Char) (rest : List Char) (hs : unicode.IsSpace s = true) :
    fieldsChars (s :: rest) = fieldsChars rest := by
  rw [fieldsChars.eq_def]
  simp [hs]

theorem fieldsChars_of_no_space (l : List Char) (hne : l ≠ [])
    (h : ∀ c ∈ l, unicode.IsSpace c = false) : fieldsChars l = [l] := by
  induction l with
  | nil => exact absurd rfl hne
  | cons c cs ih =>
    have hc : unicode.IsSpace c = false := h c (by simp)
    cases cs with
    | nil => simp [fieldsChars, hc]
    | cons d ds =>
      have hd : unicode.IsSpace d = false := h d (by simp)
      have ih1 : fieldsChars (d :: ds) = [d :: ds] :=
        ih (by simp) (fun x hx => h x (List.mem_cons_of_mem _ hx))
      rw [fieldsChars.eq_def]
      simp [hc, hd, ih1]

theorem fieldsChars_append_space (p rest : List Char) (s : Char)
    (hs : unicode.IsSpace s = true) (hne : p ≠ [])
    (h : ∀ c ∈ p, unicode.IsSpace c = false) :
    fieldsChars (p ++ s :: rest) = p :: fieldsChars rest := by
  induction p with
  | nil => exact absurd rfl hne
  | cons c cs ih =>
    have hc : unicode.IsSpace c = false := h c (by simp)
    cases cs with
    | nil =>
      show fieldsChars (c :: s :: rest) = _
      rw [fieldsChars.eq_def]
      simp [hc, hs, fieldsChars_space_cons s rest hs]
    | cons d ds =>
      have hd : unicode.IsSpace d = false := h d (by simp)
      have ih1 : fieldsChars (d :: (ds ++ s :: rest)) = (d :: ds) :: fieldsChars rest :=
        ih (by simp) (fun x hx => h x (List.mem_cons_of_mem _ hx))
      show fieldsChars (c :: d :: (ds ++ s :: rest)) = _
      rw [fieldsChars.eq_def]
      simp [hc, hd, ih1]

theorem digitChar_spec (m : Nat) (h : m < 10) :
    (Nat.digitChar m).isDigit = true ∧ (Nat.digitChar m).toNat - '0'.toNat = m := by
  interval_cases m <;> decide

theorem decimalValue_append_singleton (l : List Char) (d : Char) :
    decimalValue (l ++ [d]) = 10 * decimalValue l + (d.toNat - '0'.toNat) := by
  simp [decimalValue, List.foldl_append]

theorem toDigitsCore_spec (fuel : Nat) : ∀ (n : Nat) (acc : List Char), n < fuel →
    ∃ l, Nat.toDigitsCore 10 fuel n acc = l ++ acc ∧ l ≠ [] ∧
      (∀ c ∈ l, c.isDigit = true) ∧ decimalValue l = n := by
  induction fuel with
  | zero => intro n acc h; omega
  | succ fuel ih =>
    intro n acc h
    have hd := digitChar_spec (n % 10) (Nat.mod_lt _ (by decide))
    by_cases h0 : n / 10 = 0
    · refine ⟨[Nat.digitChar (n % 10)], ?_, by simp, ?_, ?_⟩
      · simp [Nat.toDigitsCore, h0]
      · intro c hc
        simp at hc
        rw [hc]; exact hd.1
      · have := hd.2
        simp [decimalValue] at this ⊢
        omega
    · obtain ⟨l, hl, _, hdig, hval⟩ :=
        ih (n / 10) (Nat.digitChar (n % 10) :: acc) (by omega)
      refine ⟨l ++ [Nat.digitChar (n % 10)], ?_, by simp, ?_, ?_⟩
      · simp [Nat.toDigitsCore, h0, hl]
      · intro c hc
        rcases List.mem_append.mp hc with hc | hc
        · exact hdig c hc
        · simp at hc
          rw [hc]; exact hd.1
      · rw [decimalValue_append_singleton, hval, hd.2]
        omega

theorem toDigits_spec (n : Nat) :
    Nat.toDigits 10 n ≠ [] ∧ (∀ c ∈ Nat.toDigits 10 n, c.isDigit = true) ∧
      decimalValue (Nat.toDigits 10 n) = n := by
  obtain ⟨l, hl, hne, hdig, hval⟩ := toDigitsCore_spec (n + 1) n [] (by omega)
  have e : Nat.toDigits 10 n = l := by simpa [Nat.toDigits] using hl
  rw [e]
  exact ⟨hne, hdig, hval⟩
theorem Sscanf_digits (l : List Char) (hne : l ≠ []) (hdig : ∀ c ∈ l, c.isDigit = true) :
    fmt.Sscanf (String.mk l) =
      if 9223372036854775807 < (decimalValue l : Int) then
        (0, some ("strconv.ParseInt: parsing \"" ++ String.mk l ++ "\": value out of range"))
      else ((decimalValue l : Int), none) := by
  cases l with
  | nil => exact absurd rfl hne
  | cons c cs =>
    have hc := (isDigit_iff c).mp (hdig c (by simp))
    have hplus : c ≠ '+' := by rintro rfl; revert hc; decide
    have hminus : c ≠ '-' := by rintro rfl; revert hc; decide
    have e : (c == '+' || c == '-') = false := by simp [hplus, hminus]
    have htake : List.takeWhile Char.isDigit (c :: cs) = c :: cs :=
      List.takeWhile_eq_self_iff.mpr hdig
    have hnn : ¬ ((decimalValue (c :: cs) : Int) < -9223372036854775808) := by omega
    unfold fmt.Sscanf
    simp only [e, Bool.false_eq_true, if_false, List.length_nil, List.drop_zero, htake,
      List.isEmpty_cons, List.nil_append]
    simp [hnn]

theorem Sscanf_minus_digits (l : List Char) (hne : l ≠ [])
    (hdig : ∀ c ∈ l, c.isDigit = true) :
    fmt.Sscanf (String.mk ('-' :: l)) =
      if - (decimalValue l : Int) < -9223372036854775808 then
        (0, some ("strconv.ParseInt: parsing \"" ++ String.mk ('-' :: l) ++
          "\": value out of range"))
      else (- (decimalValue l : Int), none) := by
  cases l with
  | nil => exact absurd rfl hne
  | cons c cs =>
    have e : ('-' == '+' || '-' == '-') = true := by decide
    have htake : List.takeWhile Char.isDigit (c :: cs) = c :: cs :=
      List.takeWhile_eq_self_iff.mpr hdig
    have hnn : ¬ (- (decimalValue (c :: cs) : Int) > 9223372036854775807) := by omega
    unfold fmt.Sscanf
    simp only [e, if_true, List.length_singleton, List.drop_succ_cons, List.drop_zero, htake,
      List.isEmpty_cons, Bool.false_eq_true, if_false, List.singleton_append]
    simp [hnn]
theorem toString_int_cases (p : Int) :
    ∃ l, l ≠ [] ∧ (∀ c ∈ l, c.isDigit = true) ∧
      ((0 ≤ p ∧ toString p = String.mk l ∧ (decimalValue l : Int) = p) ∨
       (p < 0 ∧ toString p = String.mk ('-' :: l) ∧ - (decimalValue l : Int) = p)) := by
  cases p with
  | ofNat n =>
    obtain ⟨hne, hdig, hval⟩ := toDigits_spec n
    exact ⟨Nat.toDigits 10 n, hne, hdig,
      Or.inl ⟨Int.ofNat_nonneg n, rfl, by rw [hval]; rfl⟩⟩
  | negSucc m =>
    obtain ⟨hne, hdig, hval⟩ := toDigits_spec (m + 1)
    exact ⟨Nat.toDigits 10 (m + 1), hne, hdig,
      Or.inr ⟨Int.negSucc_lt_zero m, rfl, by rw [hval]; rfl⟩⟩

theorem Sscanf_toString (p : Int) :
    (-9223372036854775808 ≤ p → p ≤ 9223372036854775807 →
      fmt.Sscanf (toString p) = (p, none)) ∧
    ((p < -9223372036854775808 ∨ 9223372036854775807 < p) →
      (fmt.Sscanf (toString p)).2 ≠ none) := by
  obtain ⟨l, hne, hdig, h | h⟩ := toString_int_cases p
  · obtain ⟨h0, hs, hv⟩ := h
    rw [hs, Sscanf_digits l hne hdig, hv]
    constructor
    · intro _ h2
      rw [if_neg (by omega)]
    · intro h3
      rw [if_pos (by omega)]
      simp
  · obtain ⟨h0, hs, hv⟩ := h
    rw [hs, Sscanf_minus_digits l hne hdig, hv]
    constructor
    · intro h1 _
      rw [if_neg (by omega)]
    · intro h3
      rw [if_pos (by omega)]
      simp

theorem toString_int_no_space (p : Int) :
    (toString p).data ≠ [] ∧ ∀ c ∈ (toString p).data, unicode.IsSpace c = false := by
  obtain ⟨l, hne, hdig, h | h⟩ := toString_int_cases p
  · rw [h.2.1]
    exact ⟨hne, fun c hc => isSpace_of_isDigit c (hdig c hc)⟩
  · rw [h.2.1]
    refine ⟨by simp, fun c hc => ?_⟩
    rcases List.mem_cons.mp hc with hc | hc
    · rw [hc]; decide
    · exact isSpace_of_isDigit c (hdig c hc)

theorem Fields_pair (a b : String) (ha : a.data ≠ []) (hb : b.data ≠ [])
    (hsa : ∀ c ∈ a.data, unicode.IsSpace c = false)
    (hsb : ∀ c ∈ b.data, unicode.IsSpace c = false) :
    strings.Fields (a ++ " " ++ b) = [a, b] := by
  have hd : (a ++ " " ++ b).data = a.data ++ ' ' :: b.data := by
    simp [String.data_append]
  unfold strings.Fields
  rw [hd, fieldsChars_append_space a.data b.data ' ' (by decide) ha hsa,
    fieldsChars_of_no_space b.data hb hsb]
  rfl

theorem mem_splitChars (sep c : Char) (l : List Char) (hc : c ∈ l) (hsep : c ≠ sep) :
    ∃ p ∈ splitChars sep l, c ∈ p := by
  induction l with
  | nil => simp at hc
  | cons x xs ih =>
    unfold splitChars
    by_cases hx : x = sep
    · rw [if_pos hx]
      rcases List.mem_cons.mp hc with e | e
      · exact absurd (e.trans hx) hsep
      · obtain ⟨p, hp, hcp⟩ := ih e
        exact ⟨p, List.mem_cons_of_mem _ hp, hcp⟩
    · rw [if_neg hx]
      cases hs : splitChars sep xs with
      | nil => exact absurd hs (splitChars_ne_nil sep xs)
      | cons q qs =>
        rcases List.mem_cons.mp hc with e | e
        · exact ⟨x :: q, by simp, by simp [e]⟩
        · obtain ⟨p, hp, hcp⟩ := ih e
          rw [hs] at hp
          rcases List.mem_cons.mp hp with e1 | e1
          · exact ⟨x :: q, by simp, by simp [← e1, hcp]⟩
          · exact ⟨p, by simp [e1], hcp⟩

theorem labelValid_chars (label : String) (h : labelValid label = true) (c : Char)
    (hc : c ∈ label.data) : isAlphaNum (c.toNat % 256) = true ∨ c = '-' := by
  unfold labelValid at h
  split at h
  · simp at h
  · split at h
    · simp at h
    · split at h
      · simp at h
      · have h1 := List.all_eq_true.mp h c hc
        by_cases ha : isAlphaNum (c.toNat % 256) = true
        · exact Or.inl ha
        · right
          simpa [ha] using h1

theorem suffix_dot_iff (l : List Char) : ['.'] <:+ l ↔ l.getLast? = some '.' := by
  constructor
  · rintro ⟨t, rfl⟩
    simp
  · intro h
    exact ⟨l.dropLast, List.dropLast_append_getLast? '.' (by simp [h])⟩

theorem TrimSuffix_of_append_dot (s : String) (t : List Char) (h : s.data = t ++ ['.']) :
    strings.TrimSuffix s "." = String.mk t := by
  have hs : (".".data.isSuffixOf s.data) = true := by
    rw [List.isSuffixOf_iff_suffix, h]
    exact List.suffix_append _ _
  unfold strings.TrimSuffix
  rw [if_pos hs, h]
  simp

theorem TrimSuffix_of_no_dot (s : String) (h : s.data.getLast? ≠ some '.') :
    strings.TrimSuffix s "." = s := by
  have hs : ¬ ((".".data.isSuffixOf s.data) = true) := by
    rw [List.isSuffixOf_iff_suffix]
    exact fun hh => h ((suffix_dot_iff _).mp hh)
  unfold strings.TrimSuffix
  rw [if_neg hs]

theorem valid_hostname_no_space (h : String) (hh : isValidHostname h = true) :
    h.data ≠ [] ∧ ∀ c ∈ h.data, unicode.IsSpace c = false := by
  constructor
  · intro e
    have : h = "" := String.ext e
    rw [this] at hh
    revert hh
    decide
  · intro c hc
    by_contra hsp
    have hsp1 : unicode.IsSpace c = true := by simpa using hsp
    obtain ⟨hal, hminus, hdot⟩ := isSpace_not_hostname_char c hsp1
    unfold isValidHostname at hh
    split at hh
    · simp at hh
    · split at hh
      · simp at hh
      · have hct : c ∈ (strings.TrimSuffix h ".").data := by
          by_cases hl : h.data.getLast? = some '.'
          · have e := List.dropLast_append_getLast? '.' (by simp [hl] : '.' ∈ h.data.getLast?)
            rw [TrimSuffix_of_append_dot h h.data.dropLast e.symm]
            rw [← e] at hc
            rcases List.mem_append.mp hc with h1 | h1
            · exact h1
            · simp at h1
              exact absurd h1 hdot
          · rw [TrimSuffix_of_no_dot h hl]
            exact hc
        obtain ⟨p, hp, hcp⟩ := mem_splitChars '.' c _ hct hdot
        have hv : labelValid (String.mk p) = true := by
          apply List.all_eq_true.mp hh
          exact List.mem_map_of_mem String.mk hp
        rcases labelValid_chars _ hv c hcp with h1 | h1
        · rw [hal] at h1
          exact absurd h1 (by simp)
        · exact hminus h1
/-- C33: for every valid hostname `h` and every integer `p` in decimal notation,
`ValidateMXRecord` reports no error for "p h" exactly when `0 ≤ p ≤ 65535`; a `p` outside
that range that fits the 64 bits of `int` (such as -1 and 65536) gets the one error
"MX priority must be between 0 and 65535, got: p"; and every string whose number of
white-space-separated fields is not two gets the one error of the format. -/
theorem C33_mx_priority_range (h : String) (p : Int) (v k : String)
    (hh : isValidHostname h = true) :
    ((ValidateMXRecord (GoValue.string (toString p ++ " " ++ h)) k).2 = [] ↔
      0 ≤ p ∧ p ≤ 65535) ∧
    (-9223372036854775808 ≤ p → p ≤ 9223372036854775807 → (p < 0 ∨ 65535 < p) →
      ValidateMXRecord (GoValue.string (toString p ++ " " ++ h)) k
        = ([], ["MX priority must be between 0 and 65535, got: " ++ toString p])) ∧
    ((strings.Fields v).length ≠ 2 →
      ValidateMXRecord (GoValue.string v) k
        = ([], ["MX record must be in format 'priority hostname', got: " ++ v])) := by
  obtain ⟨hpne, hps⟩ := toString_int_no_space p
  obtain ⟨hhne, hhs⟩ := valid_hostname_no_space h hh
  have hf : strings.Fields (toString p ++ " " ++ h) = [toString p, h] :=
    Fields_pair (toString p) h hpne hhne hps hhs
  have hin : -9223372036854775808 ≤ p → p ≤ 9223372036854775807 →
      ValidateMXRecord (GoValue.string (toString p ++ " " ++ h)) k
        = ([], if p < 0 ∨ p > 65535 then
            ["MX priority must be between 0 and 65535, got: " ++ toString p] else []) := by
    intro h1 h2
    have hs := (Sscanf_toString p).1 h1 h2
    simp [ValidateMXRecord, hf, hs, hh]
  refine ⟨?_, ?_, ?_⟩
  · by_cases hr : -9223372036854775808 ≤ p ∧ p ≤ 9223372036854775807
    · rw [hin hr.1 hr.2]
      by_cases hp : p < 0 ∨ p > 65535
      · rw [if_pos hp]
        simp
        omega
      · rw [if_neg hp]
        simp
        omega
    · have hs := (Sscanf_toString p).2 (by omega)
      have hne : (ValidateMXRecord (GoValue.string (toString p ++ " " ++ h)) k).2 ≠ [] := by
        simp only [ValidateMXRecord, hf]
        cases hsc : fmt.Sscanf (toString p) with
        | mk n e =>
          rw [hsc] at hs
          simp at hs
          simp [hsc, hs]
      constructor
      · intro e
        exact absurd e hne
      · intro e
        omega
  · intro h1 h2 h3
    rw [hin h1 h2, if_pos (by omega)]
  · intro hl
    simp [ValidateMXRecord, hl]

/-- C33 at the hostname "mail.example.com", the priority -1 and the value
"mail.example.com" of the test `invalid_no_priority`. -/
theorem C33_mx_priority_range_witness :
    isValidHostname "mail.example.com" = true ∧
    ValidateMXRecord (GoValue.string (toString (-1 : Int) ++ " " ++ "mail.example.com")) "test"
      = ([], ["MX priority must be between 0 and 65535, got: " ++ toString (-1 : Int)]) ∧
    ValidateMXRecord (GoValue.string "mail.example.com") "test"
      = ([], ["MX record must be in format 'priority hostname', got: " ++
          "mail.example.com"]) :=
  ⟨by decide,
    (C33_mx_priority_range "mail.example.com" (-1) "mail.example.com" "test"
      (by decide)).2.1 (by decide) (by decide) (by decide),
    (C33_mx_priority_range "mail.example.com" (-1) "mail.example.com" "test"
      (by decide)).2.2 (by decide)⟩
/-! ## `isValidHostname` and `ValidateDNSRecordValue` -/

theorem splitChars_append_singleton_sep (sep : Char) (l : List Char) :
    splitChars sep (l ++ [sep]) = splitChars sep l ++ [[]] := by
  induction l with
  | nil => simp [splitChars]
  | cons c cs ih =>
    rw [List.cons_append]
    by_cases hc : c = sep
    · simp [splitChars, hc, ih]
    · cases hs : splitChars sep cs with
      | nil => exact absurd hs (splitChars_ne_nil sep cs)
      | cons p ps =>
        rw [hs] at ih
        simp [splitChars, hc, ih, hs]

theorem goLen_append_dot (h : String) : goLen (h ++ ".") = goLen h + 1 := by
  have e : utf8Bytes '.' = [46] := by decide
  simp [goLen, goBytes, String.data_append, List.flatMap_append, e]

/-- C34: for every string `h` whose last character is not '.' and whose length `len(h)` is at
most 254, `isValidHostname` gives the same answer for `h + "."` and for `h`; and no string
that ends in two dots is a valid hostname. -/
theorem C34_trailing_dot_tolerance (h : String) :
    (h.data.getLast? ≠ some '.' → goLen h ≤ 254 →
      isValidHostname (h ++ ".") = isValidHostname h) ∧
    isValidHostname (h ++ "..") = false := by
  constructor
  · intro hlast hlen
    have h1 : strings.TrimSuffix (h ++ ".") "." = h :=
      TrimSuffix_of_append_dot (h ++ ".") h.data (by simp [String.data_append])
    have h2 : strings.TrimSuffix h "." = h := TrimSuffix_of_no_dot h hlast
    have h3 : ¬ (goLen (h ++ ".") > 255) := by rw [goLen_append_dot]; omega
    have h4 : ¬ (goLen h > 255) := by omega
    unfold isValidHostname
    rw [h1, h2, if_neg h3, if_neg h4]
  · have h1 : strings.TrimSuffix (h ++ "..") "." = h ++ "." :=
      TrimSuffix_of_append_dot (h ++ "..") (h.data ++ ['.']) (by simp [String.data_append])
    have h2 : (strings.Split (h ++ ".") '.').all labelValid = false := by
      have e : (h ++ ".").data = h.data ++ ['.'] := by simp [String.data_append]
      have hl : labelValid (String.mk []) = false := by decide
      simp [strings.Split, e, splitChars_append_singleton_sep, hl]
    unfold isValidHostname
    rw [h1, h2]
    simp

/-- C34 at the hostname "example.com". -/
theorem C34_trailing_dot_tolerance_witness :
    isValidHostname ("example.com" ++ ".") = isValidHostname "example.com" :=
  (C34_trailing_dot_tolerance "example.com").1 (by decide) (by decide)

/-- C31 (the code at the failing input): "192.0.2.1" passes `isValidHostname`, its four
labels being digits, so `ValidateDNSRecordValue` reports no error for it as the value of a
CNAME, NS or PTR record. -/
theorem C31_hostname_types_accept_ipv4_literal (ParseIP : String → Option (List Nat)) :
    isValidHostname "192.0.2.1" = true ∧
    ValidateDNSRecordValue ParseIP "CNAME" (GoValue.string "192.0.2.1") "test" = ([], []) ∧
    ValidateDNSRecordValue ParseIP "NS" (GoValue.string "192.0.2.1") "test" = ([], []) ∧
    ValidateDNSRecordValue ParseIP "PTR" (GoValue.string "192.0.2.1") "test" = ([], []) := by
  have h : isValidHostname "192.0.2.1" = true := by decide
  refine ⟨h, ?_, ?_, ?_⟩ <;> simp [ValidateDNSRecordValue, h]

/-- C32 (the code at the failing input): the value "10abc mail.example.com" has the two
fields "10abc" and "mail.example.com"; `fmt.Sscanf` with `%d` reads 10 from the first and
leaves "abc" unread without an error, so `ValidateMXRecord` reports no error. -/
theorem C32_mx_priority_with_letters_accepted :
    strings.Fields "10abc mail.example.com" = ["10abc", "mail.example.com"] ∧
    fmt.Sscanf "10abc" = (10, none) ∧
    ValidateMXRecord (GoValue.string "10abc mail.example.com") "test" = ([], []) := by
  refine ⟨?_, ?_, ?_⟩ <;> decide

/-! ## `filterDNSRecords` -/

theorem stringAt_not_ok (filters : String → Option GoValue) (key : String)
    (h : (stringAt filters key).2 = false) : (stringAt filters key).1 = "" := by
  unfold stringAt at h ⊢
  split
  · rename_i s hs
    rw [hs] at h
    simp at h
  · rfl

theorem guard_false_iff (ok : Bool) (s : String) (b : Bool) (h : ok = false → s = "") :
    (ok && s != "" && !b) = false ↔ (s = "" ∨ b = true) := by
  cases ok <;> cases b <;> by_cases hs : s = "" <;> simp_all

theorem matchesFilter_iff (r : DNSRecord) (filters : String → Option GoValue) :
    matchesFilter r filters = true ↔ satisfiesFilters r filters := by
  have g1 := guard_false_iff (stringAt filters "record").2 (stringAt filters "record").1
    (contains r.Record (stringAt filters "record").1) (stringAt_not_ok filters "record")
  have g2 := guard_false_iff (stringAt filters "type").2 (stringAt filters "type").1
    (r.Typ == (stringAt filters "type").1) (stringAt_not_ok filters "type")
  have g3 := guard_false_iff (stringAt filters "value").2 (stringAt filters "value").1
    (contains r.Value (stringAt filters "value").1) (stringAt_not_ok filters "value")
  have g4 := guard_false_iff (stringAt filters "zone").2 (stringAt filters "zone").1
    (r.Zone == (stringAt filters "zone").1) (stringAt_not_ok filters "zone")
  have c1 := contains_iff r.Record (stringAt filters "record").1
  have c3 := contains_iff r.Value (stringAt filters "value").1
  have hm : matchesFilter r filters = true ↔
      (((stringAt filters "record").2 && (stringAt filters "record").1 != "" &&
          !contains r.Record (stringAt filters "record").1) = false ∧
       ((stringAt filters "type").2 && (stringAt filters "type").1 != "" &&
          !(r.Typ == (stringAt filters "type").1)) = false ∧
       ((stringAt filters "value").2 && (stringAt filters "value").1 != "" &&
          !contains r.Value (stringAt filters "value").1) = false ∧
       ((stringAt filters "zone").2 && (stringAt filters "zone").1 != "" &&
          !(r.Zone == (stringAt filters "zone").1)) = false) := by
    unfold matchesFilter
    simp only [bne]
    split
    · rename_i h; simp [h]
    · rename_i h1
      split
      · rename_i h; simp [h]
      · rename_i h2
        split
        · rename_i h; simp [h]
        · rename_i h3
          split
          · rename_i h; simp [h]
          · rename_i h4
            simp only [Bool.not_eq_true] at h1 h2 h3 h4
            simp [h1, h2, h3, h4]
  rw [hm, g1, g2, g3, g4, c1, c3]
  unfold satisfiesFilters filterAt
  simp only [beq_iff_eq]
  constructor
  · rintro ⟨a, b, c, d⟩
    refine ⟨?_, b, ?_, d⟩
    · rcases a with a | a
      · exact Or.inl a
      · exact Or.inr a.2
    · rcases c with c | c
      · exact Or.inl c
      · exact Or.inr c.2
  · rintro ⟨a, b, c, d⟩
    refine ⟨?_, b, ?_, d⟩
    · by_cases e : (stringAt filters "record").1 = ""
      · exact Or.inl e
      · rcases a with a | a
        · exact absurd a e
        · exact Or.inr ⟨e, a⟩
    · by_cases e : (stringAt filters "value").1 = ""
      · exact Or.inl e
      · rcases c with c | c
        · exact absurd c e
        · exact Or.inr ⟨e, c⟩

theorem filter_foldl (filters : String → Option GoValue) (l : List DNSRecord) :
    ∀ acc : Slice DNSRecord,
      l.foldl (fun filtered record =>
          if matchesFilter record filters then Slice.append filtered record else filtered) acc
        = if l.filter (fun r => matchesFilter r filters) = [] then acc
          else some (Slice.elems acc ++ l.filter (fun r => matchesFilter r filters)) := by
  induction l with
  | nil => intro acc; simp
  | cons r rest ih =>
    intro acc
    rw [List.foldl_cons, ih]
    by_cases hr : matchesFilter r filters = true
    · simp only [hr, if_true, List.filter_cons_of_pos]
      by_cases he : rest.filter (fun r => matchesFilter r filters) = []
      · simp [he, Slice.append]
      · simp [he, Slice.append, Slice.elems]
    · simp only [hr, if_false, Bool.false_eq_true]
      rw [List.filter_cons_of_neg (by simpa using hr)]

theorem filterDNSRecords_eq (records : Slice DNSRecord) (filters : String → Option GoValue) :
    filterDNSRecords records filters
      = if (Slice.elems records).filter (fun r => matchesFilter r filters) = [] then none
        else some ((Slice.elems records).filter (fun r => matchesFilter r filters)) := by
  unfold filterDNSRecords
  rw [filter_foldl]
  simp [Slice.elems]

/-- C35: `filterDNSRecords` returns the sub-list of the input records, in their order, that
satisfy every non-empty filter ("record" and "value" by substring, "type" and "zone" by
equality); when the four filters are absent or empty it returns every record; and
filtering its result again with the same filters returns that result. -/
theorem C35_filterDNSRecords_selects (records : Slice DNSRecord)
    (filters : String → Option GoValue) :
    (∃ keep : DNSRecord → Bool, (∀ r, keep r = true ↔ satisfiesFilters r filters) ∧
      Slice.elems (filterDNSRecords records filters) = (Slice.elems records).filter keep) ∧
    ((filterAt filters "record" = "" ∧ filterAt filters "type" = "" ∧
        filterAt filters "value" = "" ∧ filterAt filters "zone" = "") →
      Slice.elems (filterDNSRecords records filters) = Slice.elems records) ∧
    filterDNSRecords (filterDNSRecords records filters) filters
      = filterDNSRecords records filters := by
  have hel : Slice.elems (filterDNSRecords records filters)
      = (Slice.elems records).filter (fun r => matchesFilter r filters) := by
    rw [filterDNSRecords_eq]
    split
    · rename_i h
      rw [h]
      rfl
    · rfl
  refine ⟨⟨fun r => matchesFilter r filters, fun r => matchesFilter_iff r filters, hel⟩,
    ?_, ?_⟩
  · rintro ⟨h1, h2, h3, h4⟩
    rw [hel]
    apply List.filter_eq_self.mpr
    intro r _
    rw [matchesFilter_iff]
    exact ⟨Or.inl h1, Or.inl h2, Or.inl h3, Or.inl h4⟩
  · rw [filterDNSRecords_eq (filterDNSRecords records filters), hel, List.filter_filter]
    simp only [Bool.and_self]
    rw [← filterDNSRecords_eq]

/-- C35 at the record list of the tests, without filters. -/
theorem C35_filterDNSRecords_selects_witness :
    Slice.elems (filterDNSRecords (some testRecords) noFilters) = testRecords :=
  (C35_filterDNSRecords_selects (some testRecords) noFilters).2.1
    ⟨by decide, by decide, by decide, by decide⟩

/-! ## `dataSourceDNSRecordRead` -/

theorem countNameType_cons (r : DNSRecord) (rest : List DNSRecord) (name typ : String) :
    countNameType (r :: rest) name typ
      = (if r.Record = name ∧ r.Typ = typ then 1 else 0) + countNameType rest name typ := by
  unfold countNameType
  by_cases h : r.Record = name ∧ r.Typ = typ
  · simp [List.filter_cons, h.1, h.2]
    omega
  · rw [if_neg h]
    have : (r.Record == name && r.Typ == typ) = false := by
      simpa using h
    rw [List.filter_cons_of_neg (by simp [this])]
    omega

theorem loop_novalue_found (name typ value : String) (l : List DNSRecord) :
    ∀ record : DNSRecord,
      dataSourceDNSRecordReadLoop name typ value false l true record
        = if countNameType l name typ = 0 then Except.ok (true, l.getLast?.getD record)
          else Except.error (multipleFound name typ) := by
  induction l with
  | nil => intro record; simp [dataSourceDNSRecordReadLoop, countNameType]
  | cons r rest ih =>
    intro record
    rw [countNameType_cons]
    unfold dataSourceDNSRecordReadLoop
    by_cases h : r.Record = name ∧ r.Typ = typ
    · simp [h, multipleFound]
    · simp only [h, if_false, ih r, Nat.zero_add, List.getLast?_cons, Option.getD_some]

theorem loop_novalue (name typ value : String) (l : List DNSRecord) :
    ∀ record : DNSRecord,
      dataSourceDNSRecordReadLoop name typ value false l false record
        = if countNameType l name typ = 0 then Except.ok (false, l.getLast?.getD record)
          else if countNameType l name typ = 1 then
            Except.ok (true, l.getLast?.getD record)
          else Except.error (multipleFound name typ) := by
  induction l with
  | nil => intro record; simp [dataSourceDNSRecordReadLoop, countNameType]
  | cons r rest ih =>
    intro record
    rw [countNameType_cons]
    unfold dataSourceDNSRecordReadLoop
    by_cases h : r.Record = name ∧ r.Typ = typ
    · simp only [h, and_self, if_true, Bool.false_and, Bool.false_eq_true, if_false,
        loop_novalue_found, List.getLast?_cons]
      by_cases hc : countNameType rest name typ = 0
      · simp [hc]
      · have h1 : ¬ (1 + countNameType rest name typ = 0) := by omega
        have h2 : ¬ (1 + countNameType rest name typ = 1) := by omega
        simp only [hc, h1, h2, if_false]
    · simp only [h, if_false, ih r, Nat.zero_add, List.getLast?_cons, Option.getD_some]

theorem loop_value (name typ value : String) (l : List DNSRecord) :
    ∀ (found : Bool) (record : DNSRecord),
      dataSourceDNSRecordReadLoop name typ value true l found record
        = match l.find? (fun r => r.Record == name && r.Typ == typ && r.Value == value) with
          | some r => Except.ok (true, r)
          | none => Except.ok (found, l.getLast?.getD record) := by
  induction l with
  | nil => intro found record; simp [dataSourceDNSRecordReadLoop]
  | cons r rest ih =>
    intro found record
    unfold dataSourceDNSRecordReadLoop
    by_cases h : r.Record = name ∧ r.Typ = typ
    · by_cases hv : r.Value = value
      · simp [h.1, h.2, hv]
      · have hf : (r.Record == name && r.Typ == typ && r.Value == value) = false := by
          simp [hv]
        rw [List.find?_cons_of_neg _ (by simp [hf])]
        simp only [h, and_self, if_true, Bool.true_and, bne_iff_ne, ne_eq, hv,
          not_false_eq_true, decide_True, ih found r, List.getLast?_cons, Option.getD_some]
    · have hf : (r.Record == name && r.Typ == typ && r.Value == value) = false := by
        have : (r.Record == name && r.Typ == typ) = false := by simpa using h
        simp [this]
      rw [List.find?_cons_of_neg _ (by simp [hf])]
      simp only [h, if_false, ih found r, List.getLast?_cons, Option.getD_some]
theorem multipleFound_ne_notFound (name typ : String) :
    multipleFound name typ ≠ notFound name typ := by
  intro h
  have h1 : ("multiple DNS records found for " ++ name ++ " (type: " ++ typ ++
      "). Please specify 'value' to disambiguate")
      = ("DNS record not found: " ++ name ++ " (type: " ++ typ ++ ")") := by
    simpa [multipleFound, notFound, diag.Errorf] using h
  have h2 := congrArg (fun s : String => s.data.head?) h1
  simp [String.data_append] at h2

theorem read_diagnostics {σ : Type} (upstream : Client σ) (d : ResourceData)
    (api : cachedDreamhostClient σ) (records : Slice DNSRecord) (s1 : σ)
    (hlist : upstream.ListDNSRecords api.client = ((records, none), s1)) :
    (dataSourceDNSRecordRead upstream d (some api)).1
      = match dataSourceDNSRecordReadLoop d.record d.typ d.value (d.value != "")
            (Slice.elems records) false zeroRecord with
        | Except.error diags => diags
        | Except.ok (found, _) =>
          if !found then
            if (d.value != "") = true then notFoundWithValue d.record d.typ d.value
            else notFound d.record d.typ
          else [] := by
  simp only [dataSourceDNSRecordRead, cachedDreamhostClient.ListDNSRecords, hlist]
  simp only [ne_eq, not_true_eq_false, if_false]
  cases dataSourceDNSRecordReadLoop d.record d.typ d.value (d.value != "")
      (Slice.elems records) false zeroRecord with
  | error diags => rfl
  | ok r =>
    obtain ⟨found, record⟩ := r
    cases found
    · by_cases hv : (d.value != "") = true
      · simp [hv, notFoundWithValue]
      · simp [hv, notFound]
    · simp

/-- C36: in the single-record data source, once the upstream listing succeeds: without a
value, the read fails with "multiple DNS records found" exactly when two or more listed
records have the name and the type, fails with "DNS record not found" exactly when none
has, and reports nothing when exactly one has; with a value, it reports nothing exactly
when some listed record has the name, the type and that very value, however many do, and
fails with "DNS record not found" otherwise. -/
theorem C36_single_record_lookup {σ : Type} (upstream : Client σ) (d : ResourceData)
    (api : cachedDreamhostClient σ) (records : Slice DNSRecord) (s1 : σ)
    (hlist : upstream.ListDNSRecords api.client = ((records, none), s1)) :
    (d.value = "" →
      ((dataSourceDNSRecordRead upstream d (some api)).1 = multipleFound d.record d.typ ↔
        2 ≤ countNameType (Slice.elems records) d.record d.typ) ∧
      ((dataSourceDNSRecordRead upstream d (some api)).1 = notFound d.record d.typ ↔
        countNameType (Slice.elems records) d.record d.typ = 0) ∧
      (countNameType (Slice.elems records) d.record d.typ = 1 →
        (dataSourceDNSRecordRead upstream d (some api)).1 = [])) ∧
    (d.value ≠ "" →
      ((dataSourceDNSRecordRead upstream d (some api)).1 = [] ↔
        ∃ r ∈ Slice.elems records,
          r.Record = d.record ∧ r.Typ = d.typ ∧ r.Value = d.value) ∧
      ((¬ ∃ r ∈ Slice.elems records,
          r.Record = d.record ∧ r.Typ = d.typ ∧ r.Value = d.value) →
        (dataSourceDNSRecordRead upstream d (some api)).1
          = notFoundWithValue d.record d.typ d.value)) := by
  have hd := read_diagnostics upstream d api records s1 hlist
  constructor
  · intro hv
    have hb : (d.value != "") = false := by simp [hv]
    rw [hb, loop_novalue] at hd
    have hmn := multipleFound_ne_notFound d.record d.typ
    have hm0 : multipleFound d.record d.typ ≠ [] := by simp [multipleFound, diag.Errorf]
    have hn0 : notFound d.record d.typ ≠ [] := by simp [notFound, diag.Errorf]
    by_cases h0 : countNameType (Slice.elems records) d.record d.typ = 0
    · rw [if_pos h0] at hd
      simp only [Bool.not_false, if_true, Bool.false_eq_true, if_false] at hd
      rw [hd]
      refine ⟨?_, ?_, ?_⟩
      · constructor
        · intro e; exact absurd e.symm hmn
        · intro e; omega
      · simp [h0]
      · intro e; omega
    · rw [if_neg h0] at hd
      by_cases h1 : countNameType (Slice.elems records) d.record d.typ = 1
      · rw [if_pos h1] at hd
        simp only [Bool.not_true, Bool.false_eq_true, if_false] at hd
        rw [hd]
        refine ⟨?_, ?_, ?_⟩
        · constructor
          · intro e; exact absurd e.symm hm0
          · intro e; omega
        · constructor
          · intro e; exact absurd e.symm hn0
          · intro e; omega
        · intro _; rfl
      · rw [if_neg h1] at hd
        simp only at hd
        rw [hd]
        refine ⟨?_, ?_, ?_⟩
        · constructor
          · intro _; omega
          · intro _; rfl
        · constructor
          · intro e; exact absurd e hmn
          · intro e; exact absurd e h0
        · intro e; exact absurd e h1
  · intro hv
    have hb : (d.value != "") = true := by simp [hv]
    rw [hb, loop_value] at hd
    have hw0 : notFoundWithValue d.record d.typ d.value ≠ [] := by
      simp [notFoundWithValue, diag.Errorf]
    cases hf : (Slice.elems records).find?
        (fun r => r.Record == d.record && r.Typ == d.typ && r.Value == d.value) with
    | some r =>
      rw [hf] at hd
      simp only [Bool.not_true, Bool.false_eq_true, if_false] at hd
      have hr := List.find?_some hf
      have hmem := List.mem_of_find?_eq_some hf
      simp only [Bool.and_eq_true, beq_iff_eq] at hr
      have hex : ∃ r ∈ Slice.elems records,
          r.Record = d.record ∧ r.Typ = d.typ ∧ r.Value = d.value :=
        ⟨r, hmem, hr.1.1, hr.1.2, hr.2⟩
      rw [hd]
      exact ⟨⟨fun _ => hex, fun _ => rfl⟩, fun hn => absurd hex hn⟩
    | none =>
      rw [hf] at hd
      simp only [Bool.not_false, if_true] at hd
      have hnone := List.find?_eq_none.mp hf
      have hnex : ¬ ∃ r ∈ Slice.elems records,
          r.Record = d.record ∧ r.Typ = d.typ ∧ r.Value = d.value := by
        rintro ⟨r, hmem, h1, h2, h3⟩
        have := hnone r hmem
        simp [h1, h2, h3] at this
      rw [hd]
      exact ⟨⟨fun e => absurd e hw0, fun e => absurd e hnex⟩, fun _ => rfl⟩

/-- C36 at the record list of the tests: the lookup of ("example.com", A) without a value,
for which one record has the name and the type, and with the value "192.0.2.1". -/
theorem C36_single_record_lookup_witness :
    (dataSourceDNSRecordRead mockClient lookupData (some testClient)).1 = [] ∧
    (dataSourceDNSRecordRead mockClient lookupDataWithValue (some testClient)).1 = [] :=
  ⟨(C36_single_record_lookup mockClient lookupData testClient (some testRecords)
      { testMock with listRecordsCalls := 1 } (by decide)).1 (by decide) |>.2.2 (by decide),
    ((C36_single_record_lookup mockClient lookupDataWithValue testClient (some testRecords)
      { testMock with listRecordsCalls := 1 } (by decide)).2 (by decide)).1.mpr
      ⟨exampleRecord, by decide, by decide, by decide, by decide⟩⟩

/-- C39 (the code at the failing input): the lookup of ("example.com", A) without a value
in the record list of the tests, where the one record with that name and type comes first
and the CNAME record of "www.example.com" follows it. The read reports nothing, and the ID
and the fields it writes are those of the CNAME record, the last value of the range
variable that `foundRecord` points to. -/
theorem C39_lookup_writes_last_listed_record :
    countNameType testRecords "example.com" "A" = 1 ∧
    testRecords.head? = some exampleRecord ∧
    (dataSourceDNSRecordRead mockClient lookupData (some testClient)).1 = [] ∧
    (dataSourceDNSRecordRead mockClient lookupData (some testClient)).2.1
      = { id := "CNAME|www.example.com|example.com", isNewResource := false,
          record := "www.example.com", value := "example.com", typ := "CNAME",
          comment := "", account_id := "", zone := "", editable := "" } := by
  refine ⟨?_, ?_, ?_, ?_⟩ <;> decide

end dreamhost
